import Mathlib

/-!
# rtrtool: the glTF converter, the container files and the viewer's entry points

A shallow embedding of

* `writeNodesRecursive` and the scene part of `convertFromGltf`
  (`src/lib/src/converter_gltf.cpp`),
* the instance loop of the `Scene` constructor (`src/exe/src/app_impl.hpp`),
* `convertGltfMaterial` with its texture cache, the material and texture arrays, the mesh
  loop with its temporary vectors, the buffer loading block and the order of allocations in
  `convertFromGltf` (`src/lib/src/converter_gltf.cpp`),
* `convert`, `convertCT`, `convertCTT`, the accessor adapter and `cgltfTransform`
  (`src/lib/src/rtrtool_cgltf.hpp`),
* the constructors of `MappedFile` and `File` (`src/lib/include/rtrtool/file.hpp`),
* the constructor of `MeshAux` (`src/exe/src/glmesh.cpp`) and `main` (`src/exe/src/main.cpp`).

Iterators into the node array are slot indices, 32-bit casts are explicit
reductions modulo `2 ^ 32`, an access outside an array (undefined behaviour in
the source) is `none` (or `Outcome.undefined`), and a C++ exception is `Except.error`.
The matrix type `glm::mat4` is a type parameter `M` where only its products matter, and a
tuple of columns over a commutative ring in `cgltfTransform`; exact arithmetic is the
arithmetic of that monoid or ring.  Calls into libraries outside the sources are parameters.
-/

namespace rtrtool

/-! ## Machine integers -/

/-- The cast `uint32_t(x)` of a signed difference. -/
def u32 (x : Int) : Nat := (x % 4294967296).toNat

/-! ## Output records (`rtr/scene.hpp`) -/

/-- Modelled from the spec: the record `rtr::Node` (declared in `rtr/scene.hpp`, which is
not part of the sources): a transform, a parent offset counted in slots in which zero denotes
"no parent", and a descendant count. -/
structure Node (M : Type) where
  transform : M
  parentOffset : Nat
  descendantCount : Nat
deriving DecidableEq, Repr

/-- The record `rtr::Instance` (declared in `rtr/scene.hpp`), with the three fields the
converter initialises from 32-bit values. -/
structure Instance where
  node : Nat
  mesh : Nat
  material : Nat
deriving DecidableEq, Repr

/-- The part of `rtr::SceneHeader` (declared in `rtr/scene.hpp`) that the converter's scene
loop writes and `Scene` reads.  An entry of `scenes` is an `offset_ptr<rtr::Node>`: `none` is
the null pointer, `some i` points at slot `i` of `nodes`. -/
structure SceneHeader (M : Type) where
  nodes : List (Node M)
  scenes : List (Option Nat)
  instances : List Instance

/-! ## Input document (`cgltf.h` records, as far as the converter reads them) -/

/-- A `cgltf_primitive`: `material` is the pointer into `data->materials` (`none` is null). -/
structure cgltf_primitive where
  material : Option Nat
deriving DecidableEq, Repr

/-- A `cgltf_mesh`: its primitives. -/
structure cgltf_mesh where
  primitives : List cgltf_primitive
deriving DecidableEq, Repr

/-- A `cgltf_node`, unfolded along its `children` pointers.  `transform` is the value of
`cgltfTransform` on the node, `mesh` the pointer into `data->meshes`. -/
inductive cgltf_node (M : Type) where
  | mk (transform : M) (mesh : Option Nat) (children : List (cgltf_node M))

/-- The local transform of a node. -/
def cgltf_node.transform {M : Type} : cgltf_node M → M
  | .mk t _ _ => t

/-- The mesh pointer of a node. -/
def cgltf_node.mesh {M : Type} : cgltf_node M → Option Nat
  | .mk _ m _ => m

/-- The children of a node, in input order. -/
def cgltf_node.children {M : Type} : cgltf_node M → List (cgltf_node M)
  | .mk _ _ c => c

/-- A `cgltf_scene`: its root nodes. -/
structure cgltf_scene (M : Type) where
  nodes : List (cgltf_node M)

/-- The fields of `cgltf_data` read by the scene part of the converter; `scenes_count` is
`scenes.length`. -/
structure cgltf_data (M : Type) where
  meshes : List cgltf_mesh
  nodes_count : Nat
  scenes : List (cgltf_scene M)

/-! ## `writeNodesRecursive` -/

/-- A store through a node iterator: `none` when the slot is outside the array. -/
def setNode {M : Type} (nodes : List (Node M)) (i : Nat) (f : Node M → Node M) :
    Option (List (Node M)) :=
  match nodes[i]? with
  | some n => some (nodes.set i (f n))
  | none => none

mutual
/-- One iteration of the loop of `writeNodesRecursive` (lines 78 to 85). -/
def writeNodeBody {M σ : Type} (visitor : cgltf_node M → Nat → σ → σ) (parent : Nat)
    (gltfNode : cgltf_node M) (output : Nat) (nodes : List (Node M)) (s : σ) :
    Option (Nat × List (Node M) × σ) :=
  match gltfNode with
  | .mk t m children =>
    let rtrNode := output
    match setNode nodes rtrNode (fun _ => ⟨t, u32 ((rtrNode : Int) - (parent : Int)), 0⟩) with
    | none => none
    | some nodes1 =>
      match writeNodesRecursive visitor rtrNode children (output + 1) nodes1 s with
      | none => none
      | some (output2, nodes2, s2) =>
        match setNode nodes2 rtrNode (fun n =>
            ⟨n.transform, n.parentOffset,
              u32 ((u32 ((output2 : Int) - (rtrNode : Int)) : Int) - 1)⟩) with
        | none => none
        | some nodes3 => some (output2, nodes3, visitor (.mk t m children) rtrNode s2)
/-- The function `writeNodesRecursive`: `parent` and `output` are slots of the node array
`nodes`, `s` is the state captured by the visitor.  Returns the advanced output position. -/
def writeNodesRecursive {M σ : Type} (visitor : cgltf_node M → Nat → σ → σ) (parent : Nat)
    (inputs : List (cgltf_node M)) (output : Nat) (nodes : List (Node M)) (s : σ) :
    Option (Nat × List (Node M) × σ) :=
  match inputs with
  | [] => some (output, nodes, s)
  | gltfNode :: rest =>
    match writeNodeBody visitor parent gltfNode output nodes s with
    | none => none
    | some (output1, nodes1, s1) => writeNodesRecursive visitor parent rest output1 nodes1 s1
end

/-! ## `convertFromGltf`: index maps and scene header -/

/-- The lookup `map.find(k)` on an association list. -/
def mapFind {α β : Type} [DecidableEq α] : List (α × β) → α → Option β
  | [], _ => none
  | (k0, v0) :: m, k => if k0 = k then some v0 else mapFind m k

/-- The call `map.try_emplace(k, v)` on an association list. -/
def tryEmplace {α β : Type} [DecidableEq α] (m : List (α × β)) (k : α) (v : β) :
    List (α × β) :=
  match mapFind m k with
  | some _ => m
  | none => m ++ [(k, v)]

/-- The assignment `map[k] = v` on an association list. -/
def mapAssign {α β : Type} [DecidableEq α] : List (α × β) → α → β → List (α × β)
  | [], k, v => [(k, v)]
  | (k0, v0) :: m, k, v => if k0 = k then (k0, v) :: m else (k0, v0) :: mapAssign m k v

/-- The read `map[k]` of an index map: a missing key reads as the default `0`. -/
def mapIndex {α : Type} [DecidableEq α] (m : List (α × Nat)) (k : α) : Nat :=
  (mapFind m k).getD 0

/-- The maps `meshIndices` and `materialIndices` together with `meshes.size()`.  A primitive
pointer is the pair (position of its mesh, position in the mesh). -/
structure IndexState where
  meshIndices : List ((Nat × Nat) × Nat)
  materialIndices : List (Option Nat × Nat)
  meshes_size : Nat
deriving DecidableEq, Repr

/-- The inner loop over the primitives of mesh number `mi` (lines 136 to 142). -/
def indexPrimitives (mi : Nat) : List cgltf_primitive → Nat → IndexState → IndexState
  | [], _, st => st
  | primitive :: rest, pi, st =>
    indexPrimitives mi rest (pi + 1)
      ⟨mapAssign st.meshIndices (mi, pi) st.meshes_size,
       tryEmplace st.materialIndices primitive.material st.materialIndices.length,
       st.meshes_size + 1⟩

/-- The outer loop over `data->meshes` (line 133). -/
def indexMeshes : List cgltf_mesh → Nat → IndexState → IndexState
  | [], _, st => st
  | mesh :: rest, mi, st => indexMeshes rest (mi + 1) (indexPrimitives mi mesh.primitives 0 st)

/-- The index maps after the mesh loop. -/
def buildIndices {M : Type} (data : cgltf_data M) : IndexState :=
  indexMeshes data.meshes 0 ⟨[], [], 0⟩

/-- The instance part of the visitor `makeAttachments` (lines 222 to 233).  The camera and
light parts push onto other vectors and are not embedded. -/
def makeAttachments {M : Type} (data : cgltf_data M) (ix : IndexState)
    (gltfNode : cgltf_node M) (rtrNode : Nat) (instances : List Instance) : List Instance :=
  let nodeIndex := u32 (rtrNode : Int)
  match gltfNode.mesh with
  | none => instances
  | some mi =>
    match data.meshes[mi]? with
    | none => instances
    | some mesh =>
      instances ++ mesh.primitives.enum.map (fun e =>
        ⟨nodeIndex, u32 (mapIndex ix.meshIndices (mi, e.1) : Int),
          u32 (mapIndex ix.materialIndices e.2.material : Int)⟩)

/-- A store through the scene-root pointer iterator. -/
def setScene (scenes : List (Option Nat)) (i : Nat) (v : Option Nat) :
    Option (List (Option Nat)) :=
  match scenes[i]? with
  | some _ => some (scenes.set i v)
  | none => none

/-- The loop over the scenes (lines 273 to 281). -/
def sceneLoop {M σ : Type} [One M] (visitor : cgltf_node M → Nat → σ → σ) :
    List (cgltf_scene M) → Nat → Nat → List (Node M) → List (Option Nat) → σ →
    Option (List (Node M) × List (Option Nat) × σ)
  | [], _, _, nodes, scenes, s => some (nodes, scenes, s)
  | scene :: rest, nextSceneRootPtr, nextSceneRoot, nodes, scenes, s =>
    let sceneRoot := nextSceneRoot
    match setNode nodes sceneRoot (fun _ => ⟨1, 0, 0⟩) with
    | none => none
    | some nodes1 =>
      match writeNodesRecursive visitor sceneRoot scene.nodes (nextSceneRoot + 1) nodes1 s with
      | none => none
      | some (nextSceneRoot2, nodes2, s2) =>
        match setNode nodes2 sceneRoot (fun n =>
            ⟨n.transform, n.parentOffset,
              u32 ((u32 ((sceneRoot : Int) - (nextSceneRoot2 : Int)) : Int) - 1)⟩) with
        | none => none
        | some nodes3 =>
          match setScene scenes nextSceneRootPtr (some sceneRoot) with
          | none => none
          | some scenes1 =>
            sceneLoop visitor rest (nextSceneRootPtr + 1) nextSceneRoot2 nodes3 scenes1 s2

/-- The scene part of `convertFromGltf` (lines 125 to 142 for the index maps, 208 to 282 for
the header).  `fill` is the content of a freshly created node slot, which the sources do not
determine; a freshly created scene pointer is null. -/
def convertFromGltf {M : Type} [One M] (data : cgltf_data M) (fill : Node M) :
    Option (SceneHeader M) :=
  let ix := buildIndices data
  let nodes := List.replicate (data.nodes_count + data.scenes.length) fill
  let scenes := List.replicate (data.nodes_count + data.scenes.length) (none : Option Nat)
  match sceneLoop (makeAttachments data ix) data.scenes 0 0 nodes scenes [] with
  | none => none
  | some (nodes1, scenes1, instances) => some ⟨nodes1, scenes1, instances⟩

/-! ## The `Scene` constructor (`app_impl.hpp`) -/

/-- The record `Scene::Instance`. -/
structure SceneInstance (M : Type) where
  meshIndex : Nat
  materialIndex : Nat
  localToWorld : M
deriving DecidableEq, Repr

/-- The loop `while (node->parentOffset)` (lines 44 to 47).  Every iteration lowers the slot,
so `node + 1` rounds of fuel always suffice; leaving the array is `none`. -/
def walkToRoot {M : Type} [Mul M] (nodes : List (Node M)) : Nat → Nat → M → Option (Nat × M)
  | 0, _, _ => none
  | fuel + 1, node, transform =>
    match nodes[node]? with
    | none => none
    | some n =>
      if n.parentOffset = 0 then some (node, transform)
      else if n.parentOffset ≤ node then
        match nodes[node - n.parentOffset]? with
        | none => none
        | some p => walkToRoot nodes fuel (node - n.parentOffset) (p.transform * transform)
      else none

/-- The body of the instance loop (lines 41 to 54): `some none` is the `continue`. -/
def resolveInstance {M : Type} [Mul M] (h : SceneHeader M) (instance_ : Instance) :
    Option (Option (SceneInstance M)) :=
  match h.nodes[instance_.node]? with
  | none => none
  | some n =>
    match walkToRoot h.nodes (instance_.node + 1) instance_.node n.transform with
    | none => none
    | some (node, transform) =>
      match h.scenes[0]? with
      | none => none
      | some root =>
        if some node ≠ root then some none
        else some (some ⟨instance_.mesh, instance_.material, transform⟩)

/-- The instance loop of the constructor, returning `m_instances`. -/
def Scene.instanceLoop {M : Type} [Mul M] (h : SceneHeader M) :
    List Instance → List (SceneInstance M) → Option (List (SceneInstance M))
  | [], m_instances => some m_instances
  | instance_ :: rest, m_instances =>
    match resolveInstance h instance_ with
    | none => none
    | some none => Scene.instanceLoop h rest m_instances
    | some (some x) => Scene.instanceLoop h rest (m_instances ++ [x])

/-- The constructor `Scene::Scene`, as far as `m_instances` is concerned. -/
def Scene {M : Type} [Mul M] (h : SceneHeader M) : Option (List (SceneInstance M)) :=
  Scene.instanceLoop h h.instances []


/-! ## Pure description of the flattened array -/

mutual
/-- Number of nodes of a subtree. -/
def nodeSize {M : Type} : cgltf_node M → Nat
  | .mk _ _ cs => 1 + forestSize cs
/-- Number of nodes of a forest. -/
def forestSize {M : Type} : List (cgltf_node M) → Nat
  | [] => 0
  | n :: rest => nodeSize n + forestSize rest
end

mutual
/-- The slots a subtree occupies when written at slot `o` below slot `p`. -/
def flatNode {M : Type} (p o : Nat) : cgltf_node M → List (Node M)
  | .mk t _ cs => ⟨t, u32 ((o : Int) - (p : Int)), forestSize cs⟩ :: flatForest o (o + 1) cs
/-- The slots a forest occupies when written from slot `o` on below slot `p`. -/
def flatForest {M : Type} (p o : Nat) : List (cgltf_node M) → List (Node M)
  | [] => []
  | n :: rest => flatNode p o n ++ flatForest p (o + nodeSize n) rest
end

mutual
/-- The visitor calls made for a subtree written at slot `o`, applied to a state. -/
def visitNode {M σ : Type} (visitor : cgltf_node M → Nat → σ → σ) (o : Nat) :
    cgltf_node M → σ → σ
  | .mk t m cs, s => visitor (.mk t m cs) o (visitForest visitor (o + 1) cs s)
/-- The visitor calls made for a forest written from slot `o` on, applied to a state. -/
def visitForest {M σ : Type} (visitor : cgltf_node M → Nat → σ → σ) (o : Nat) :
    List (cgltf_node M) → σ → σ
  | [], s => s
  | n :: rest, s => visitForest visitor (o + nodeSize n) rest (visitNode visitor o n s)
end

/-- Number of slots the scene loop writes: one synthetic root per scene and its nodes. -/
def scenesSize {M : Type} : List (cgltf_scene M) → Nat
  | [] => 0
  | sc :: rest => 1 + forestSize sc.nodes + scenesSize rest

/-- The value the scene loop stores in the descendant count of a scene root at slot `o`
whose nodes end before slot `next` (line 279). -/
def sceneRootCount (o next : Nat) : Nat :=
  u32 ((u32 ((o : Int) - (next : Int)) : Int) - 1)

/-- The slots the scenes occupy when the scene loop starts at slot `o`. -/
def flatScenes {M : Type} [One M] (o : Nat) : List (cgltf_scene M) → List (Node M)
  | [] => []
  | sc :: rest =>
    ⟨1, 0, sceneRootCount o (o + 1 + forestSize sc.nodes)⟩ ::
      (flatForest o (o + 1) sc.nodes ++ flatScenes (o + 1 + forestSize sc.nodes) rest)

/-- The slots of the synthetic scene roots when the scene loop starts at slot `o`. -/
def sceneRootSlots {M : Type} (o : Nat) : List (cgltf_scene M) → List Nat
  | [] => []
  | sc :: rest => o :: sceneRootSlots (o + 1 + forestSize sc.nodes) rest

/-- The visitor calls made by the scene loop started at slot `o`, applied to a state. -/
def visitScenes {M σ : Type} (visitor : cgltf_node M → Nat → σ → σ) (o : Nat) :
    List (cgltf_scene M) → σ → σ
  | [], s => s
  | sc :: rest, s =>
    visitScenes visitor (o + 1 + forestSize sc.nodes) rest (visitForest visitor (o + 1) sc.nodes s)

/-! ## The source tree: pre-order, paths and depth -/

mutual
/-- The pre-order traversal of a subtree: the node, then its children's subtrees. -/
def preorderNode {M : Type} : cgltf_node M → List (cgltf_node M)
  | .mk t m cs => .mk t m cs :: preorder cs
/-- The pre-order depth-first traversal of a forest, siblings in input order. -/
def preorder {M : Type} : List (cgltf_node M) → List (cgltf_node M)
  | [] => []
  | n :: rest => preorderNode n ++ preorder rest
end

/-- The node reached from a forest along a path of child positions (first entry: position
among the roots; next entry: position among that node's children; and so on). -/
def nodeAt {M : Type} : List (cgltf_node M) → List Nat → Option (cgltf_node M)
  | _, [] => none
  | inputs, [j] => inputs[j]?
  | inputs, j :: k :: path =>
    match inputs[j]? with
    | none => none
    | some n => nodeAt n.children (k :: path)

/-- The pre-order number of the node at a path, counted from `o`: every earlier sibling
subtree on the way is skipped, every step down adds one. -/
def slotAt {M : Type} : List (cgltf_node M) → Nat → List Nat → Nat
  | _, o, [] => o
  | inputs, o, [j] => o + forestSize (inputs.take j)
  | inputs, o, j :: k :: path =>
    match inputs[j]? with
    | none => o
    | some n => slotAt n.children (o + forestSize (inputs.take j) + 1) (k :: path)

mutual
/-- Height of a subtree, a single node having height one. -/
def nodeDepth {M : Type} : cgltf_node M → Nat
  | .mk _ _ cs => 1 + forestDepth cs
/-- Height of a forest: the largest number of nodes on a path from a root downwards. -/
def forestDepth {M : Type} : List (cgltf_node M) → Nat
  | [] => 0
  | n :: rest => max (nodeDepth n) (forestDepth rest)
end

/-- The slot of the parent of the node at a path: the caller's slot `p` for a root of the
forest, the slot of the node one step up the path otherwise. -/
def parentSlotAt {M : Type} (inputs : List (cgltf_node M)) (p o : Nat) (path : List Nat) : Nat :=
  if path.length ≤ 1 then p else slotAt inputs o path.dropLast

/-- The slot of the synthetic root of scene number `si`: every earlier scene takes one slot
for its root and one per node. -/
def sceneRootSlot {M : Type} (data : cgltf_data M) (si : Nat) : Nat :=
  scenesSize (data.scenes.take si)

/-! ## Sample inputs -/

/-- A sample forest: a root with a child and a grandchild, followed by a second root. -/
def demoForest : List (cgltf_node Int) :=
  [.mk 2 (some 0) [.mk 3 none [.mk 4 (some 1) []]], .mk 5 none []]

/-- A sample document: two meshes (of two and of one primitive), five nodes, two scenes. -/
def demoData : cgltf_data Int :=
  ⟨[⟨[⟨none⟩, ⟨some 0⟩]⟩, ⟨[⟨some 0⟩]⟩], 5, [⟨demoForest⟩, ⟨[.mk 7 (some 1) []]⟩]⟩

/-- The slot reached from slot `i` by `k` steps `node -= node->parentOffset`; `none` as soon
as a slot outside the array is touched. -/
def ancestorSlot {M : Type} (nodes : List (Node M)) : Nat → Nat → Option Nat
  | 0, i => if i < nodes.length then some i else none
  | k + 1, i =>
    match nodes[i]? with
    | none => none
    | some n => if n.parentOffset ≤ i then ancestorSlot nodes k (i - n.parentOffset) else none

/-! ## Visitor calls and instances -/

mutual
/-- The visitor calls for a subtree written at slot `o`, in call order: those of the
children's subtrees first, then the call for the node itself with its slot. -/
def postorderNode {M : Type} (o : Nat) : cgltf_node M → List (cgltf_node M × Nat)
  | .mk t m cs => postorderForest (o + 1) cs ++ [(.mk t m cs, o)]
/-- The visitor calls for a forest written from slot `o` on, in call order (post-order). -/
def postorderForest {M : Type} (o : Nat) : List (cgltf_node M) → List (cgltf_node M × Nat)
  | [] => []
  | n :: rest => postorderNode o n ++ postorderForest (o + nodeSize n) rest
end

/-- The visitor calls of the scene loop started at slot `o`, in call order: scene after
scene, the synthetic roots receiving no call. -/
def postorderScenes {M : Type} (o : Nat) : List (cgltf_scene M) → List (cgltf_node M × Nat)
  | [] => []
  | sc :: rest =>
    postorderForest (o + 1) sc.nodes ++ postorderScenes (o + 1 + forestSize sc.nodes) rest

/-- Position of the first primitive of mesh number `mi` in the enumeration of all
(mesh, primitive) pairs of the document. -/
def primitiveOffset (meshes : List cgltf_mesh) (mi : Nat) : Nat :=
  ((meshes.take mi).map (fun m => m.primitives.length)).sum

/-- The (mesh index, material index) pairs a node draws: one per primitive of its mesh, in
primitive order, the mesh index being the primitive's position in the enumeration of all
primitives and the material index the one the material map holds for its material. -/
def drawablesOf {M : Type} (data : cgltf_data M) (n : cgltf_node M) : List (Nat × Nat) :=
  match n.mesh with
  | none => []
  | some mi =>
    match data.meshes[mi]? with
    | none => []
    | some mesh =>
      mesh.primitives.enum.map (fun q =>
        (primitiveOffset data.meshes mi + q.1,
          mapIndex (buildIndices data).materialIndices q.2.material))

/-- The instances expected for one visitor call: the node's drawables at the node's slot. -/
def instancesOf {M : Type} (data : cgltf_data M) (e : cgltf_node M × Nat) : List Instance :=
  (drawablesOf data e.1).map (fun d => ⟨e.2, d.1, d.2⟩)

mutual
/-- The scene instances of a subtree below accumulated transform `acc`, transforms multiplied
root-to-leaf on the way down: first those of the children's subtrees, then the node's own. -/
def worldNode {M : Type} [Mul M] (data : cgltf_data M) (acc : M) :
    cgltf_node M → List (SceneInstance M)
  | .mk t m cs =>
    worldForest data (acc * t) cs ++
      (drawablesOf data (.mk t m cs)).map (fun d => ⟨d.1, d.2, acc * t⟩)
/-- The scene instances of a forest below accumulated transform `acc`. -/
def worldForest {M : Type} [Mul M] (data : cgltf_data M) (acc : M) :
    List (cgltf_node M) → List (SceneInstance M)
  | [] => []
  | n :: rest => worldNode data acc n ++ worldForest data acc rest
end

/-- The local transforms met along a path, from the root of the forest down to the node. -/
def transformsAlong {M : Type} : List (cgltf_node M) → List Nat → List M
  | _, [] => []
  | inputs, j :: path =>
    match inputs[j]? with
    | none => []
    | some n => n.transform :: transformsAlong n.children path

/-- The slot at which the loop of `Scene` stops when started at slot `i`. -/
def rootOf {M : Type} [Mul M] (h : SceneHeader M) (i : Nat) : Option Nat :=
  match h.nodes[i]? with
  | none => none
  | some n => (walkToRoot h.nodes (i + 1) i n.transform).map Prod.fst

/-- A document with one scene holding a root node with one child, the child carrying a mesh
of one primitive without material; a second mesh is not referenced. -/
def twoLevel {M : Type} (rootTransform childTransform : M) : cgltf_data M :=
  ⟨[⟨[⟨none⟩]⟩, ⟨[⟨none⟩]⟩], 2, [⟨[.mk rootTransform none [.mk childTransform (some 0) []]]⟩]⟩

/-- The material map holds only values below its size, and its size is at most the number
of primitives seen. -/
def MaterialBound (st : IndexState) : Prop :=
  (∀ k v, mapFind st.materialIndices k = some v → v < st.materialIndices.length) ∧
  st.materialIndices.length ≤ st.meshes_size

/-- Continuing the loop of `Scene` at slot `p`, after the step onto `p`, ends at slot `root`
with the transform below `p` multiplied from the left by `acc`. -/
def ClimbsTo {M : Type} [Mul M] (A : List (Node M)) (p : Nat) (acc : M) (root : Nat) : Prop :=
  ∃ xp, A[p]? = some xp ∧
    ∀ (t : M) (fuel : Nat), p < fuel →
      walkToRoot A fuel p (xp.transform * t) = some (root, acc * t)

/-- What the instance loop of `Scene` does with the instances of the scenes written from slot
`o` on when the selected root is `r0`: each scene's instances with their world transforms,
kept when the scene's root is `r0` and skipped otherwise. -/
def sceneWorld {M : Type} [Monoid M] (data : cgltf_data M) (r0 : Nat) :
    Nat → List (cgltf_scene M) → List (Option (SceneInstance M))
  | _, [] => []
  | o, sc :: rest =>
    (worldForest data 1 sc.nodes).map (fun w => if o = r0 then some w else none) ++
      sceneWorld data r0 (o + 1 + forestSize sc.nodes) rest

/-- The transforms of the ancestor chain of slot `i` in a node array, listed root first and
ending with the transform of slot `i` itself, the chain being followed through the parent
offsets. -/
def chainTransforms {M : Type} (nodes : List (Node M)) : Nat → Nat → List M
  | 0, _ => []
  | fuel + 1, i =>
    match nodes[i]? with
    | none => []
    | some n =>
      if n.parentOffset = 0 then [n.transform]
      else if n.parentOffset ≤ i then
        chainTransforms nodes fuel (i - n.parentOffset) ++ [n.transform]
      else [n.transform]

/-- The instances the converter emits for the first scene of a document, in emission
order. -/
def firstSceneInstances {M : Type} (data : cgltf_data M) : List Instance :=
  match data.scenes with
  | [] => []
  | sc :: _ => (postorderForest 1 sc.nodes).flatMap (instancesOf data)

/-- The instances the converter emits for the scenes after the first, in emission order. -/
def laterSceneInstances {M : Type} (data : cgltf_data M) : List Instance :=
  match data.scenes with
  | [] => []
  | sc :: rest => (postorderScenes (1 + forestSize sc.nodes) rest).flatMap (instancesOf data)

/-! ## Subtree runs in a node array -/

/-- Whether the parent chain of slot `j`, followed through the parent offsets, passes through
slot `i`. -/
def chainPasses {M : Type} (nodes : List (Node M)) (i : Nat) : Nat → Nat → Bool
  | 0, _ => false
  | fuel + 1, j =>
    match nodes[j]? with
    | none => false
    | some n =>
      if n.parentOffset = 0 then false
      else if n.parentOffset ≤ j then
        (j - n.parentOffset == i) || chainPasses nodes i fuel (j - n.parentOffset)
      else false

/-- The number of entries after slot `i` up to the next entry whose parent chain does not pass
through slot `i`. -/
def subtreeRun {M : Type} (nodes : List (Node M)) (i : Nat) : Nat :=
  ((List.range' (i + 1) (nodes.length - (i + 1))).takeWhile
    (fun j => chainPasses nodes i (j + 1) j)).length

/-! ## `convertGltfMaterial` and the texture cache -/

/-- A `cgltf_image`: its `uri` (`none` is null). -/
structure cgltf_image where
  uri : Option String
deriving DecidableEq, Repr

/-- A `cgltf_texture`: its `image` pointer. -/
structure cgltf_texture where
  image : Option cgltf_image
deriving DecidableEq, Repr

/-- The fields of `cgltf_material` read by `convertGltfMaterial`: the three factors (kept as
one value of a type `F`) and the `texture` pointers of the three texture views. -/
structure cgltf_material (F : Type) where
  factors : F
  base_color_texture : Option cgltf_texture
  metallic_roughness_texture : Option cgltf_texture
  normal_texture : Option cgltf_texture

/-- The texture indices of an `rtr::common::Material` (`rtr::optional_index32` each). -/
structure MaterialTextures where
  color : Option Nat
  metallic : Option Nat
  roughness : Option Nat
  normal : Option Nat
deriving DecidableEq, Repr

/-- The record `rtr::common::Material`. -/
structure Material (F : Type) where
  factors : F
  textures : MaterialTextures

/-- The map `textureCache` (key, index and texture of every entry, in insertion order) together
with the list of calls made to `convertToKtx` so far, each recorded by image URI and
swizzle. -/
structure TextureState (K : Type) where
  textureCache : List (String × (Nat × K))
  ktxCalls : List (String × String)

/-- The cache key `uri + ":" + swizzle` (line 43). -/
def textureKey (uri swizzle : String) : String := (uri ++ ":") ++ swizzle

/-- The lambda `convertTexture` (lines 39 to 60).  `convertToKtx uri swizzle` stands for the
call `convertToKtx(allocator, basePath / uri, swizzle)`, which may throw, and
`validateIdentifier` for the check of the produced header. -/
def convertTexture {K : Type} (convertToKtx : String → String → Except String K)
    (validateIdentifier : K → Bool) (st : TextureState K) (cgltfTexture : Option cgltf_texture)
    (swizzle : String) : Except String (Option Nat × TextureState K) :=
  match cgltfTexture with
  | none => .ok (none, st)
  | some texture =>
    match texture.image with
    | none => .ok (none, st)
    | some image =>
      match image.uri with
      | none => .ok (none, st)
      | some uri =>
        let key := textureKey uri swizzle
        match mapFind st.textureCache key with
        | some (textureIndex, _) => .ok (some textureIndex, st)
        | none =>
          match convertToKtx uri swizzle with
          | .error e => .error e
          | .ok ktx =>
            if validateIdentifier ktx then
              .ok (some (u32 (st.textureCache.length : Int)),
                ⟨st.textureCache ++ [(key, (u32 (st.textureCache.length : Int), ktx))],
                  st.ktxCalls ++ [(uri, swizzle)]⟩)
            else .error "Converted KTX texture failed validation"

/-- The function `convertGltfMaterial` (lines 30 to 69). -/
def convertGltfMaterial {F K : Type} (convertToKtx : String → String → Except String K)
    (validateIdentifier : K → Bool) (material : cgltf_material F) (st : TextureState K) :
    Except String (Material F × TextureState K) :=
  match convertTexture convertToKtx validateIdentifier st material.base_color_texture "" with
  | .error e => .error e
  | .ok (color, st1) =>
    match convertTexture convertToKtx validateIdentifier st1
        material.metallic_roughness_texture "b" with
    | .error e => .error e
    | .ok (metallic, st2) =>
      match convertTexture convertToKtx validateIdentifier st2
          material.metallic_roughness_texture "g" with
      | .error e => .error e
      | .ok (roughness, st3) =>
        match convertTexture convertToKtx validateIdentifier st3 material.normal_texture "" with
        | .error e => .error e
        | .ok (normal, st4) =>
          .ok (⟨material.factors, ⟨color, metallic, roughness, normal⟩⟩, st4)

/-- The loop over `materialIndices` (lines 191 to 199), given the materials in the order the
map iterates them; a null material yields the default `Material`, written `none`. -/
def materialLoop {F K : Type} (convertToKtx : String → String → Except String K)
    (validateIdentifier : K → Bool) :
    List (Option (cgltf_material F)) → TextureState K →
    Except String (List (Option (Material F)) × TextureState K)
  | [], st => .ok ([], st)
  | none :: rest, st =>
    match materialLoop convertToKtx validateIdentifier rest st with
    | .error e => .error e
    | .ok (out, st1) => .ok (none :: out, st1)
  | some material :: rest, st =>
    match convertGltfMaterial convertToKtx validateIdentifier material st with
    | .error e => .error e
    | .ok (m, st1) =>
      match materialLoop convertToKtx validateIdentifier rest st1 with
      | .error e => .error e
      | .ok (out, st2) => .ok (some m :: out, st2)

/-- The image URI a texture request is made for, if the texture, its image and the image's
URI are all present. -/
def textureUri (cgltfTexture : Option cgltf_texture) : Option String :=
  match cgltfTexture with
  | none => none
  | some texture =>
    match texture.image with
    | none => none
    | some image => image.uri

/-- The four texture requests of a material, in the order they are made. -/
def requestsOf {F : Type} (material : Option (cgltf_material F)) :
    List (Option String × String) :=
  match material with
  | none => []
  | some m =>
    [(textureUri m.base_color_texture, ""), (textureUri m.metallic_roughness_texture, "b"),
      (textureUri m.metallic_roughness_texture, "g"), (textureUri m.normal_texture, "")]

/-- The four texture indices of a converted material, in the order they were requested. -/
def resultsOf {F : Type} (material : Option (Material F)) : List (Option Nat) :=
  match material with
  | none => []
  | some m => [m.textures.color, m.textures.metallic, m.textures.roughness, m.textures.normal]

/-- The requests that name an image URI, as (URI, swizzle) pairs. -/
def uriRequests (requests : List (Option String × String)) : List (String × String) :=
  requests.filterMap (fun r => r.1.map (fun u => (u, r.2)))

/-- The requests whose key was not requested before, `seen` being the keys met so far. -/
def firstByKey : List String → List (String × String) → List (String × String)
  | _, [] => []
  | seen, r :: rest =>
    if textureKey r.1 r.2 ∈ seen then firstByKey seen rest
    else r :: firstByKey (seen ++ [textureKey r.1 r.2]) rest

/-- The keys of the cache, in insertion order. -/
def cacheKeys {K : Type} (st : TextureState K) : List String :=
  st.textureCache.map Prod.fst

/-- The cache holds every key once and one entry per recorded `convertToKtx` call. -/
def CacheInv {K : Type} (st : TextureState K) : Prop :=
  (cacheKeys st).Nodup ∧ cacheKeys st = st.ktxCalls.map (fun c => textureKey c.1 c.2)

/-- What a run of texture requests `rs` with results `res` from state `st` to state `st1`
achieves. -/
def RunsTo {K : Type} (st : TextureState K) (rs : List (Option String × String))
    (res : List (Option Nat)) (st1 : TextureState K) : Prop :=
  CacheInv st1 ∧ res.length = rs.length ∧
  st1.ktxCalls = st.ktxCalls ++ firstByKey (cacheKeys st) (uriRequests rs) ∧
  (∀ (a : Nat) (uri sw : String), rs[a]? = some (some uri, sw) →
    ∃ idx k, res[a]? = some (some idx) ∧
      mapFind st1.textureCache (textureKey uri sw) = some (idx, k)) ∧
  (∀ key v, mapFind st.textureCache key = some v → mapFind st1.textureCache key = some v)

/-- A sample material whose colour and metallic-roughness textures name the same image. -/
def demoMaterial : cgltf_material Nat :=
  ⟨0, some ⟨some ⟨some "a.png"⟩⟩, some ⟨some ⟨some "a.png"⟩⟩, none⟩

/-- A document with one scene holding a single node. -/
def oneNodeData : cgltf_data Int := ⟨[], 1, [⟨[.mk 5 none []]⟩]⟩

/-- A sample header: two roots, each with one child, an instance on each child. -/
def demoHeader : SceneHeader Int :=
  ⟨[⟨1, 0, 1⟩, ⟨2, 1, 0⟩, ⟨1, 0, 1⟩, ⟨3, 1, 0⟩], [some 0, some 2], [⟨1, 7, 8⟩, ⟨3, 9, 10⟩]⟩

/-! ## Accessor conversion (`rtrtool_cgltf.hpp`) -/

/-- The enumeration `cgltf_component_type`. -/
inductive cgltf_component_type where
  | invalid | r_8 | r_8u | r_16 | r_16u | r_32u | r_32f
deriving DecidableEq, Repr

/-- The enumeration `cgltf_type`. -/
inductive cgltf_type where
  | invalid | scalar | vec2 | vec3 | vec4 | mat2 | mat3 | mat4
deriving DecidableEq, Repr

/-- The element types that have a specialisation of `cgltf_type_traits` (lines 102 to 113):
`int8_t`, `uint8_t`, `int16_t`, `uint16_t`, `uint32_t`, `float` and the `glm` vectors. -/
inductive ElementType where
  | int8 | uint8 | int16 | uint16 | uint32 | float
  | vec2 | uvec2 | vec3 | uvec3 | vec4 | uvec4
deriving DecidableEq, Repr

/-- The member `cgltf_type_traits<T>::component_type`. -/
def ElementType.component_type : ElementType → cgltf_component_type
  | .int8 => .r_8
  | .uint8 => .r_8u
  | .int16 => .r_16
  | .uint16 => .r_16u
  | .uint32 => .r_32u
  | .float => .r_32f
  | .vec2 => .r_32f
  | .uvec2 => .r_32u
  | .vec3 => .r_32f
  | .uvec3 => .r_32u
  | .vec4 => .r_32f
  | .uvec4 => .r_32u

/-- The member `cgltf_type_traits<T>::type`. -/
def ElementType.type : ElementType → cgltf_type
  | .int8 => .scalar
  | .uint8 => .scalar
  | .int16 => .scalar
  | .uint16 => .scalar
  | .uint32 => .scalar
  | .float => .scalar
  | .vec2 => .vec2
  | .uvec2 => .vec2
  | .vec3 => .vec3
  | .uvec3 => .vec3
  | .vec4 => .vec4
  | .uvec4 => .vec4

/-- The value `sizeof(T)` in bytes. -/
def ElementType.sizeof : ElementType → Nat
  | .int8 => 1
  | .uint8 => 1
  | .int16 => 2
  | .uint16 => 2
  | .uint32 => 4
  | .float => 4
  | .vec2 => 8
  | .uvec2 => 8
  | .vec3 => 12
  | .uvec3 => 12
  | .vec4 => 16
  | .uvec4 => 16

/-- The type `cgltf_type_traits_inv<component_type, type>::element_type` (lines 115 to 127);
`none` is `void`. -/
def cgltf_type_traits_inv : cgltf_component_type → cgltf_type → Option ElementType
  | .r_8, .scalar => some .int8
  | .r_8u, .scalar => some .uint8
  | .r_16, .scalar => some .int16
  | .r_16u, .scalar => some .uint16
  | .r_32u, .scalar => some .uint32
  | .r_32f, .scalar => some .float
  | .r_32f, .vec2 => some .vec2
  | .r_32u, .vec2 => some .uvec2
  | .r_32f, .vec3 => some .vec3
  | .r_32u, .vec3 => some .uvec3
  | .r_32f, .vec4 => some .vec4
  | .r_32u, .vec4 => some .uvec4
  | _, _ => none

/-- The function `cgltfTypeName` (lines 49 to 98). -/
def cgltfTypeName (component_type : cgltf_component_type) (type : cgltf_type) : String :=
  let row (c : String) : List String :=
    ["vec2_" ++ c, "vec3_" ++ c, "vec4_" ++ c, "mat2_" ++ c, "mat3_" ++ c, "mat4_" ++ c,
      "scalar_" ++ c]
  let typeIndex : Option Nat :=
    match type with
    | .vec2 => some 0
    | .vec3 => some 1
    | .vec4 => some 2
    | .mat2 => some 3
    | .mat3 => some 4
    | .mat4 => some 5
    | .scalar => some 6
    | .invalid => none
  match typeIndex with
  | none => "unknown"
  | some i =>
    match component_type with
    | .r_8 => (row "i8").getD i "unknown"
    | .r_8u => (row "ui8").getD i "unknown"
    | .r_16 => (row "i16").getD i "unknown"
    | .r_16u => (row "ui16").getD i "unknown"
    | .r_32u => (row "ui32").getD i "unknown"
    | .r_32f => (row "f32").getD i "unknown"
    | .invalid => "unknown"

/-- The member `cgltf_type_traits<T>::name`. -/
def ElementType.name (t : ElementType) : String := cgltfTypeName t.component_type t.type

/-- The fields of a `cgltf_accessor` (and of its buffer view) read by
`cgltf_accessor_adapter`. -/
structure cgltf_accessor where
  component_type : cgltf_component_type
  type : cgltf_type
  offset : Nat
  count : Nat
  stride : Nat
  buffer_view_offset : Nat
  buffer_view_stride : Nat
deriving DecidableEq, Repr

/-- The member `m_stride` of `cgltf_accessor_adapter` (line 211). -/
def cgltf_accessor.adapterStride (accessor : cgltf_accessor) : Nat :=
  if accessor.buffer_view_stride ≠ 0 then accessor.buffer_view_stride else accessor.stride

/-- The method `cgltf_accessor_adapter<T>::tight` (line 216). -/
def cgltf_accessor.tight (accessor : cgltf_accessor) (T : ElementType) : Bool :=
  T.sizeof = accessor.adapterStride

/-- Where a span returned by `convert` points: nowhere (a default-constructed span), into the
buffer of an accessor, or into the vector `temporary` handed to `convert`. -/
inductive SpanOrigin where
  | empty
  | accessor (a : cgltf_accessor)
  | temporary
deriving DecidableEq, Repr

/-- A `std::span`: where it points and how many elements it has. -/
structure Span where
  origin : SpanOrigin
  size : Nat
deriving DecidableEq, Repr

/-- The function template `convertCTT<component_type, type, U>` (lines 226 to 247), as far
as its outcome is concerned.  `convertible s U` stands for `std::is_convertible_v<s, U>`. -/
def convertCTT (convertible : ElementType → ElementType → Bool)
    (component_type : cgltf_component_type) (type : cgltf_type) (U : ElementType) :
    Except String Unit :=
  match cgltf_type_traits_inv component_type type with
  | none => .error "Unsupported cgltf accessor component_type and type combination"
  | some T =>
    if convertible T U then .ok ()
    else .error ((("Cannot convert cgltf " ++ T.name) ++ " to ") ++ U.name)

/-- The function template `convertCT<component_type, U>` (lines 249 to 265). -/
def convertCT (convertible : ElementType → ElementType → Bool)
    (component_type : cgltf_component_type) (U : ElementType) (accessor : cgltf_accessor) :
    Except String Unit :=
  match accessor.type with
  | .scalar => convertCTT convertible component_type .scalar U
  | .vec2 => convertCTT convertible component_type .vec2 U
  | .vec3 => convertCTT convertible component_type .vec3 U
  | .vec4 => convertCTT convertible component_type .vec4 U
  | .mat2 => convertCTT convertible component_type .mat2 U
  | .mat3 => convertCTT convertible component_type .mat3 U
  | .mat4 => convertCTT convertible component_type .mat4 U
  | .invalid => .error "Invalid cgltf accessor type"

/-- The function template `convert<T, U>` (lines 267 to 297): the span it returns, or the
exception it throws. -/
def convert (convertible : ElementType → ElementType → Bool) (T U : ElementType)
    (accessor : cgltf_accessor) : Except String Span :=
  if T.component_type = accessor.component_type ∧ T.type = accessor.type ∧
      accessor.tight T = true then
    .ok ⟨.accessor accessor, (accessor.count * T.sizeof) / U.sizeof⟩
  else
    let converted : Except String Unit :=
      match accessor.component_type with
      | .r_8 => convertCT convertible .r_8 T accessor
      | .r_8u => convertCT convertible .r_8u T accessor
      | .r_16 => convertCT convertible .r_16 T accessor
      | .r_16u => convertCT convertible .r_16u T accessor
      | .r_32u => convertCT convertible .r_32u T accessor
      | .r_32f => convertCT convertible .r_32f T accessor
      | .invalid => .error "Invalid cgltf accessor component_type"
    match converted with
    | .error e => .error e
    | .ok () => .ok ⟨.temporary, (accessor.count * T.sizeof) / U.sizeof⟩

/-! ## The mesh loop of `convertFromGltf` -/

/-- The enumeration `cgltf_attribute_type`. -/
inductive cgltf_attribute_type where
  | invalid | position | normal | tangent | texcoord | color | joints | weights | custom
deriving DecidableEq, Repr

/-- A `cgltf_attribute`: its type and its `data` pointer (`none` is null). -/
structure cgltf_attribute where
  type : cgltf_attribute_type
  data : Option cgltf_accessor
deriving DecidableEq, Repr

/-- The accessor fields of a `cgltf_primitive`: the `indices` pointer (`none` is null) and
the attributes. -/
structure cgltf_primitive_accessors where
  indices : Option cgltf_accessor
  attributes : List cgltf_attribute
deriving DecidableEq, Repr

/-- The spans of an `rtr::common::Mesh` as the converter fills them. -/
structure MeshSpans where
  triangleVertices : Span
  vertexPositions : Span
  vertexNormals : Span
  vertexTexCoords0 : Span
  vertexTangents : Span
deriving DecidableEq, Repr

/-- The value of `meshes.emplace_back()`: every span empty. -/
def MeshSpans.empty : MeshSpans :=
  ⟨⟨.empty, 0⟩, ⟨.empty, 0⟩, ⟨.empty, 0⟩, ⟨.empty, 0⟩, ⟨.empty, 0⟩⟩

/-- One iteration of the attribute loop (lines 145 to 168); dereferencing a null `data`
pointer is `none`. -/
def convertAttribute (convertible : ElementType → ElementType → Bool) (mesh : MeshSpans)
    (attrib : cgltf_attribute) : Option (Except String MeshSpans) :=
  match attrib.type with
  | .position =>
    match attrib.data with
    | none => none
    | some data =>
      match convert convertible .vec3 .vec3 data with
      | .error e => some (.error e)
      | .ok s => some (.ok ⟨mesh.triangleVertices, s, mesh.vertexNormals,
          mesh.vertexTexCoords0, mesh.vertexTangents⟩)
  | .normal =>
    match attrib.data with
    | none => none
    | some data =>
      match convert convertible .vec3 .vec3 data with
      | .error e => some (.error e)
      | .ok s => some (.ok ⟨mesh.triangleVertices, mesh.vertexPositions, s,
          mesh.vertexTexCoords0, mesh.vertexTangents⟩)
  | .texcoord =>
    match attrib.data with
    | none => none
    | some data =>
      match convert convertible .vec2 .vec2 data with
      | .error e => some (.error e)
      | .ok s => some (.ok ⟨mesh.triangleVertices, mesh.vertexPositions, mesh.vertexNormals,
          s, mesh.vertexTangents⟩)
  | .tangent =>
    match attrib.data with
    | none => none
    | some data =>
      match convert convertible .vec4 .vec4 data with
      | .error e => some (.error e)
      | .ok s => some (.ok ⟨mesh.triangleVertices, mesh.vertexPositions, mesh.vertexNormals,
          mesh.vertexTexCoords0, s⟩)
  | _ => some (.ok mesh)

/-- The attribute loop of one primitive. -/
def convertAttributes (convertible : ElementType → ElementType → Bool) :
    List cgltf_attribute → MeshSpans → Option (Except String MeshSpans)
  | [], mesh => some (.ok mesh)
  | attrib :: rest, mesh =>
    match convertAttribute convertible mesh attrib with
    | none => none
    | some (.error e) => some (.error e)
    | some (.ok mesh1) => convertAttributes convertible rest mesh1

/-- The spans recorded for one primitive (lines 141 to 168); dereferencing a null `indices`
pointer is `none`. -/
def convertPrimitive (convertible : ElementType → ElementType → Bool)
    (primitive : cgltf_primitive_accessors) : Option (Except String MeshSpans) :=
  match primitive.indices with
  | none => none
  | some indices =>
    match convert convertible .uint32 .uvec3 indices with
    | .error e => some (.error e)
    | .ok s =>
      convertAttributes convertible primitive.attributes
        ⟨s, MeshSpans.empty.vertexPositions, MeshSpans.empty.vertexNormals,
          MeshSpans.empty.vertexTexCoords0, MeshSpans.empty.vertexTangents⟩

/-- The mesh loop (lines 133 to 176), as far as the array `meshes` is concerned: the
primitives of all meshes in document order. -/
def convertMeshes (convertible : ElementType → ElementType → Bool) :
    List cgltf_primitive_accessors → Option (Except String (List MeshSpans))
  | [] => some (.ok [])
  | primitive :: rest =>
    match convertPrimitive convertible primitive with
    | none => none
    | some (.error e) => some (.error e)
    | some (.ok mesh) =>
      match convertMeshes convertible rest with
      | none => none
      | some (.error e) => some (.error e)
      | some (.ok meshes) => some (.ok (mesh :: meshes))

/-! ## Allocation order in `convertFromGltf` -/

/-- What an allocation from the arena allocator is for.  The only allocation of an
`rtr::RootHeader` in `convertFromGltf` is the one in line 179; every other kind belongs to
lines 183 to 295 (`meshData` to the blocks `createMeshHeader` allocates, `ktx` to the block
`convertToKtx` allocates per converted texture, `cameraName` to line 243). -/
inductive AllocKind where
  | rootHeader
  | meshData | materialHeader | materials | ktx | textures
  | sceneHeader | nodes | scenes | cameraName
  | instances | cameras | cameraNames | directionalLights | pointLights | spotLights
  | meshLights | headers
deriving DecidableEq, Repr

/-- The allocations of a run that completes lines 183 to 295, in order, given how many blocks
`createMeshHeader` allocates, how many textures are converted and how many camera names are
written. -/
def laterAllocations (meshBlocks ktxBlocks cameraNameBlocks : Nat) : List AllocKind :=
  List.replicate meshBlocks .meshData ++ [.materialHeader, .materials] ++
    List.replicate ktxBlocks .ktx ++ [.textures, .sceneHeader, .nodes, .scenes] ++
    List.replicate cameraNameBlocks .cameraName ++
    [.instances, .cameras, .cameraNames, .directionalLights, .pointLights, .spotLights,
      .meshLights, .headers]

/-- What happens outside the mesh loop in one run of `convertFromGltf`: whether the input file
opens (line 92), the result of `cgltf_parse` (line 95), the outcome of the buffer loading
block (lines 101 to 123), and for lines 183 to 295 the numbers of blocks allocated and, when
an exception is thrown there, after how many of these allocations and with what message. -/
structure ConvertRun where
  gltfFile : Except String Unit
  parseResult : Except String Unit
  loadBuffers : Except String Unit
  primitives : List cgltf_primitive_accessors
  meshBlocks : Nat
  ktxBlocks : Nat
  cameraNameBlocks : Nat
  laterFailure : Option (Nat × String)

/-- One run of `convertFromGltf` on an arena that already holds `arena`: the allocations the
arena holds afterwards, and whether the run returned or threw; `none` is undefined
behaviour. -/
def convertFromGltfRun (convertible : ElementType → ElementType → Bool) (run : ConvertRun)
    (arena : List AllocKind) : Option (List AllocKind × Except String Unit) :=
  match run.gltfFile with
  | .error e => some (arena, .error e)
  | .ok () =>
    match run.parseResult with
    | .error e => some (arena, .error e)
    | .ok () =>
      match run.loadBuffers with
      | .error e => some (arena, .error e)
      | .ok () =>
        match convertMeshes convertible run.primitives with
        | none => none
        | some (.error e) => some (arena, .error e)
        | some (.ok _) =>
          let arena1 := arena ++ [AllocKind.rootHeader]
          match run.laterFailure with
          | some (n, e) =>
            some (arena1 ++
              (laterAllocations run.meshBlocks run.ktxBlocks run.cameraNameBlocks).take n,
              .error e)
          | none =>
            some (arena1 ++
              laterAllocations run.meshBlocks run.ktxBlocks run.cameraNameBlocks, .ok ())

/-- The constructors of `RTRConvertedFile` and `RTRConvertedMemory` (`main.cpp`, lines 17 to
37): a fresh writer, then `convertFromGltf` on its allocator. -/
def RTRConverted (convertible : ElementType → ElementType → Bool) (run : ConvertRun) :
    Option (List AllocKind × Except String Unit) :=
  convertFromGltfRun convertible run []

/-- Modelled from the spec: the arena writer (a library outside the sources) is a sequential
bump allocator; this is the offset it hands out for a block of alignment `align` when `used`
bytes are taken. -/
def arenaAlign (used align : Nat) : Nat := ((used + align - 1) / align) * align

/-- Modelled from the spec: the offsets a sequential bump allocator hands out for a list of
(size, alignment) requests, starting with `used` bytes taken. -/
def arenaOffsets : Nat → List (Nat × Nat) → List Nat
  | _, [] => []
  | used, (size, align) :: rest =>
    arenaAlign used align :: arenaOffsets (arenaAlign used align + size) rest

/-! ## Opening a container (`rtrtool/file.hpp`) -/

/-- The C++ exceptions told apart by `main`: `rtrtool::MappedFile::Error`, and any other
type (`std::runtime_error` and the exceptions of the libraries). -/
inductive Exception where
  | mappedFileError (what : String)
  | other (what : String)
deriving DecidableEq, Repr

/-- The constructor `MappedFile::MappedFile` (lines 23 to 29).  `file` is the outcome of
mapping the input (`decodeless::file`), `validate` the method `rtr::RootHeader::validate`
called on the object at `data()`.  That object takes `sizeofRootHeader` bytes; when the
mapping is shorter the call works on an object that reaches beyond the buffer, which is
`none`.  The result `.ok bytes` is the constructed `MappedFile`. -/
def MappedFile (sizeofRootHeader : Nat) (validate : List Nat → Bool) (input : String)
    (file : Except Exception (List Nat)) : Option (Except Exception (List Nat)) :=
  match file with
  | .error e => some (.error e)
  | .ok bytes =>
    if bytes.length < sizeofRootHeader then none
    else if validate bytes then some (.ok bytes)
    else some (.error (.mappedFileError ("Failed binary compatibility validation for " ++ input)))

/-- The constructor `File::File` (lines 59 to 65) on a source whose root header is
`rootHeader`. -/
def File {H : Type} (validate : H → Bool) (rootHeader : H) : Except Exception H :=
  if validate rootHeader then .ok rootHeader
  else .error (.other "rtr::RootHeader validation failed")

/-! ## `MeshAux` (`glmesh.cpp`) -/

/-- The arrays of an `rtr::common::Mesh` as the viewer reads them, over a ring `R` of exact
coordinates: index triples, positions, normals, first texture coordinates, tangents. -/
structure Mesh (R : Type) where
  triangleVertices : List (Nat × Nat × Nat)
  vertexPositions : List (R × R × R)
  vertexNormals : List (R × R × R)
  vertexTexCoords0 : List (R × R)
  vertexTangents : List (R × R × R × R)

/-- The function `glm::cross`. -/
def cross {R : Type} [Mul R] [Sub R] (x y : R × R × R) : R × R × R :=
  (x.2.1 * y.2.2 - y.2.1 * x.2.2, x.2.2 * y.1 - y.2.2 * x.1, x.1 * y.2.1 - y.1 * x.2.1)

/-- The statement `normals[i] += d`; an index outside the vector is `none`. -/
def addNormal {R : Type} [Add R] (normals : List (R × R × R)) (i : Nat) (d : R × R × R) :
    Option (List (R × R × R)) :=
  match normals[i]? with
  | none => none
  | some n => some (normals.set i (n + d))

/-- The loop over the triangles (lines 24 to 31). -/
def accumulateNormals {R : Type} [Add R] [Mul R] [Sub R] (vertexPositions : List (R × R × R)) :
    List (Nat × Nat × Nat) → List (R × R × R) → Option (List (R × R × R))
  | [], normals => some normals
  | tri :: rest, normals =>
    match vertexPositions[tri.1]?, vertexPositions[tri.2.1]?, vertexPositions[tri.2.2]? with
    | some a, some b, some c =>
      match addNormal normals tri.1 (cross (b - a) (c - a)) with
      | none => none
      | some normals1 =>
        match addNormal normals1 tri.2.1 (cross (c - b) (a - b)) with
        | none => none
        | some normals2 =>
          match addNormal normals2 tri.2.2 (cross (a - c) (b - c)) with
          | none => none
          | some normals3 => accumulateNormals vertexPositions rest normals3
    | _, _, _ => none

/-- The block that supplies missing normals (lines 22 to 36): the value of
`m_mesh.vertexNormals` after it.  `normalize` stands for `glm::normalize`. -/
def computeNormals {R : Type} [Zero R] [Add R] [Mul R] [Sub R]
    (normalize : R × R × R → R × R × R) (mesh : Mesh R) : Option (List (R × R × R)) :=
  if mesh.vertexNormals.length ≠ 0 then some mesh.vertexNormals
  else
    match accumulateNormals mesh.vertexPositions mesh.triangleVertices
        (List.replicate mesh.vertexPositions.length 0) with
    | none => none
    | some normals => some (normals.map normalize)

/-- The constructor `MeshAux::MeshAux` (lines 13 to 85): the mesh it holds afterwards, or the
exception it throws; `none` is an access outside an array.  `genTangSpaceDefault` stands for
the MikkTSpace run on the mesh with its tangents zeroed: the tangents it writes, or `none`
when it reports failure. -/
def MeshAux {R : Type} [Zero R] [Add R] [Mul R] [Sub R]
    (normalize : R × R × R → R × R × R)
    (genTangSpaceDefault : Mesh R → Option (List (R × R × R × R))) (mesh : Mesh R) :
    Option (Except String (Mesh R)) :=
  if mesh.triangleVertices.length = 0 then some (.error "cannot generate topology")
  else if mesh.vertexPositions.length = 0 then some (.error "cannot generate positions")
  else if mesh.vertexTexCoords0.length = 0 then
    some (.error "cannot generate texture coordinates")
  else
    match computeNormals normalize mesh with
    | none => none
    | some normals =>
      let mesh1 : Mesh R :=
        ⟨mesh.triangleVertices, mesh.vertexPositions, normals, mesh.vertexTexCoords0,
          mesh.vertexTangents⟩
      if mesh1.vertexTangents.length ≠ 0 then some (.ok mesh1)
      else
        let mesh2 : Mesh R :=
          ⟨mesh1.triangleVertices, mesh1.vertexPositions, mesh1.vertexNormals,
            mesh1.vertexTexCoords0, List.replicate mesh1.vertexPositions.length 0⟩
        match genTangSpaceDefault mesh2 with
        | none => some (.error "Failed MikkTSpace generation")
        | some tangents =>
          some (.ok ⟨mesh2.triangleVertices, mesh2.vertexPositions, mesh2.vertexNormals,
            mesh2.vertexTexCoords0, tangents⟩)

/-- The sum the triangles contribute to vertex `i`: `cross (b - a) (c - a)` once for every
corner of a triangle `(a, b, c)` that is vertex `i`. -/
def cornerSum {R : Type} [Ring R] (vertexPositions : List (R × R × R))
    (triangles : List (Nat × Nat × Nat)) (i : Nat) : R × R × R :=
  (triangles.map (fun tri =>
    let a := vertexPositions.getD tri.1 0
    let b := vertexPositions.getD tri.2.1 0
    let c := vertexPositions.getD tri.2.2 0
    (if tri.1 = i then cross (b - a) (c - a) else 0) +
      (if tri.2.1 = i then cross (b - a) (c - a) else 0) +
      (if tri.2.2 = i then cross (b - a) (c - a) else 0))).sum

/-- A sample mesh: one triangle in the plane `z = 0`, with texture coordinates and without
normals and tangents. -/
def demoMesh : Mesh Int :=
  ⟨[(0, 1, 2)], [(0, 0, 0), (1, 0, 0), (0, 1, 0)], [], [(0, 0), (1, 0), (0, 1)], []⟩

/-! ## `main` (`main.cpp`) -/

/-- How `parser.ParseCLI` ends (lines 49 to 65): one of the four exceptions `main` catches,
or the parsed positional arguments and the print flag. -/
inductive ParseOutcome where
  | completion (what : String)
  | help
  | validationError (what : String)
  | parseError (what : String)
  | parsed (input : String) (output : Option String) (print : Bool)
deriving DecidableEq, Repr

/-- What `main` is seen doing: writing to a stream, creating the output file writer or the
memory writer, calling `convertFromGltf`, mapping the input, constructing the application,
handing it a file, running the render loop. -/
inductive MainEvent where
  | stdout (text : String)
  | stderr (text : String)
  | createOutputFile (path : String)
  | createMemory
  | convertFromGltf (path : String)
  | mapInput (path : String)
  | createApp
  | view
  | renderloop
deriving DecidableEq, Repr

/-- How `main` ends: it returns an exit code, or an exception leaves it. -/
inductive MainOutcome where
  | exit (code : Nat)
  | uncaught (e : Exception)
deriving DecidableEq, Repr

/-- The outcomes of the calls `main` makes: the help text of the parser, a path as
`operator<<` prints it, the extension of a path, whether a path exists,
the construction of the two writers, `convertFromGltf`, the mapping of the input, the size
of a root header and `validate` on mapped bytes, the bytes of a converted container,
the construction of `App`, `App::view` and `App::renderloop`. -/
structure MainEnv where
  help : String
  quoted : String → String
  extension : String → String
  fileExists : String → Bool
  createOutput : String → Except Exception Unit
  createMemory : Except Exception Unit
  convertFromGltf : String → Except Exception Unit
  mapFile : String → Except Exception (List Nat)
  sizeofRootHeader : Nat
  validate : List Nat → Bool
  converted : List Nat
  createApp : Except Exception Unit
  view : Except Exception Unit
  renderloop : Except Exception Unit

/-- The try block of line 91, `app.view(rtrtool::File(rtrtool::MappedFile(inputPath)))`. -/
def viewMapped (env : MainEnv) (input : String) : Option (List MainEvent × Except Exception Unit) :=
  match MappedFile env.sizeofRootHeader env.validate input (env.mapFile input) with
  | none => none
  | some (.error e) => some ([.mapInput input], .error e)
  | some (.ok bytes) =>
    match File env.validate bytes with
    | .error e => some ([.mapInput input], .error e)
    | .ok _ =>
      match env.view with
      | .error e => some ([.mapInput input, .view], .error e)
      | .ok () => some ([.mapInput input, .view], .ok ())

/-- Line 88, `app.view(rtrtool::File(RTRConvertedMemory(inputPath)))`. -/
def viewConverted (env : MainEnv) (input : String) : List MainEvent × Except Exception Unit :=
  match env.createMemory with
  | .error e => ([.createMemory], .error e)
  | .ok () =>
    match env.convertFromGltf input with
    | .error e => ([.createMemory, .convertFromGltf input], .error e)
    | .ok () =>
      match File env.validate env.converted with
      | .error e => ([.createMemory, .convertFromGltf input], .error e)
      | .ok _ =>
        match env.view with
        | .error e => ([.createMemory, .convertFromGltf input, .view], .error e)
        | .ok () => ([.createMemory, .convertFromGltf input, .view], .ok ())

/-- The function `main` (lines 39 to 101), with `EXIT_SUCCESS = 0` and `EXIT_FAILURE = 1`;
`none` is undefined behaviour. -/
def main (env : MainEnv) (cli : ParseOutcome) : Option (List MainEvent × MainOutcome) :=
  match cli with
  | .completion what => some ([.stdout what], .exit 0)
  | .help => some ([.stdout env.help], .exit 0)
  | .validationError what => some ([.stderr (what ++ "\n"), .stderr env.help], .exit 1)
  | .parseError what => some ([.stderr (what ++ "\n"), .stderr env.help], .exit 1)
  | .parsed inputPath output _ =>
    let convert : Bool := env.extension inputPath = ".gltf"
    match output with
    | some outputPath =>
      if convert then
        if env.fileExists inputPath then
          match env.createOutput outputPath with
          | .error e => some ([.createOutputFile outputPath], .uncaught e)
          | .ok () =>
            match env.convertFromGltf inputPath with
            | .error e =>
              some ([.createOutputFile outputPath, .convertFromGltf inputPath], .uncaught e)
            | .ok () =>
              some ([.createOutputFile outputPath, .convertFromGltf inputPath], .exit 0)
        else
          some ([.stderr (("Input file not found: " ++ env.quoted inputPath) ++ "\n")], .exit 1)
      else some ([.stderr "Input is not a .gltf\n"], .exit 1)
    | none =>
      match env.createApp with
      | .error e => some ([.createApp], .uncaught e)
      | .ok () =>
        if convert then
          match viewConverted env inputPath with
          | (events, .error e) => some (.createApp :: events, .uncaught e)
          | (events, .ok ()) =>
            match env.renderloop with
            | .error e => some (.createApp :: events ++ [.renderloop], .uncaught e)
            | .ok () => some (.createApp :: events ++ [.renderloop], .exit 0)
        else
          match viewMapped env inputPath with
          | none => none
          | some (events, .error (.mappedFileError what)) =>
            some (.createApp :: events ++ [.stdout (what ++ "\n")], .exit 1)
          | some (events, .error (.other what)) =>
            some (.createApp :: events, .uncaught (.other what))
          | some (events, .ok ()) =>
            match env.renderloop with
            | .error e => some (.createApp :: events ++ [.renderloop], .uncaught e)
            | .ok () => some (.createApp :: events ++ [.renderloop], .exit 0)

/-! ## Sample runs and environments -/

/-- A tightly packed accessor of `count` elements of the element type `T`. -/
def tightAccessor (T : ElementType) (count : Nat) : cgltf_accessor :=
  ⟨T.component_type, T.type, 0, count, T.sizeof, 0, 0⟩

/-- A sample primitive: three indices and three positions, no other attribute. -/
def noTexCoordPrimitive : cgltf_primitive_accessors :=
  ⟨some (tightAccessor .uint32 3), [⟨.position, some (tightAccessor .vec3 3)⟩]⟩

/-- A run on a document whose only primitive is the sample primitive, in which no call
outside the mesh loop fails. -/
def noTexCoordRun : ConvertRun :=
  ⟨.ok (), .ok (), .ok (), [noTexCoordPrimitive], 1, 0, 0, none⟩

/-- A run on an input that `cgltf_parse` rejects. -/
def invalidJsonRun : ConvertRun :=
  ⟨.ok (), .error "invalid JSON", .ok (), [], 0, 0, 0, none⟩

/-- An accessor of 8-bit signed `mat2` elements, a pair without a specialisation of
`cgltf_type_traits_inv`. -/
def mat2Accessor : cgltf_accessor := ⟨.r_8, .mat2, 0, 1, 4, 0, 0⟩

/-- The convertibility between the scalar element types and from each type to itself. -/
def scalarConvertible (s t : ElementType) : Bool :=
  decide (s = t) || (decide (s.type = .scalar) && decide (t.type = .scalar))

/-- A sample environment in which the input has the extension `ext` and does not exist:
the calls that open it fail, every other call succeeds. -/
def missingInputEnv (ext : String) : MainEnv :=
  ⟨"usage", fun p => p, fun _ => ext, fun _ => false, fun _ => .ok (), .ok (),
    fun _ => .error (.other "cannot open input"), fun _ => .error (.other "cannot open input"),
    64, fun _ => false, [], .ok (), .ok (), .ok ()⟩

/-- A sample environment in which the input has the extension `ext` and exists, the calls
that create writers, the application and the mapping succeed, and `convertFromGltf`,
`validate`, `App::view` behave as given. -/
def existingInputEnv (ext : String) (convertFromGltf : Except Exception Unit)
    (validate : Bool) (view : Except Exception Unit) : MainEnv :=
  ⟨"usage", fun p => p, fun _ => ext, fun _ => true, fun _ => .ok (), .ok (),
    fun _ => convertFromGltf, fun _ => .ok (List.replicate 64 0),
    64, fun _ => validate, List.replicate 64 0, .ok (), view, .ok ()⟩

/-! ## The material and texture arrays (`convertFromGltf`, lines 186 to 205) -/

/-- The material pointers of all primitives, in document order (meshes in order, the
primitives of each mesh in order). -/
def primitiveMaterials (meshes : List cgltf_mesh) : List (Option Nat) :=
  meshes.flatMap (fun mesh => mesh.primitives.map (fun primitive => primitive.material))

/-- The loop over `materialIndices` together with its stores into
`materialHeader->materials` (lines 191 to 199).  `materials` is the array `data->materials`,
`order` the entries of the map in the order the map iterates them; the default `Material` is
written `none`.  A material pointer outside `data->materials` and a store outside the array
are `none`. -/
def convertMaterials {F K : Type} (convertToKtx : String → String → Except String K)
    (validateIdentifier : K → Bool) (materials : List (cgltf_material F)) :
    List (Option Nat × Nat) → List (Option (Material F)) → TextureState K →
    Option (Except String (List (Option (Material F)) × TextureState K))
  | [], array, st => some (.ok (array, st))
  | (none, materialIndex) :: rest, array, st =>
    if materialIndex < array.length then
      convertMaterials convertToKtx validateIdentifier materials rest
        (array.set materialIndex none) st
    else none
  | (some pointer, materialIndex) :: rest, array, st =>
    match materials[pointer]? with
    | none => none
    | some cgltfMaterial =>
      match convertGltfMaterial convertToKtx validateIdentifier cgltfMaterial st with
      | .error e => some (.error e)
      | .ok (material, st1) =>
        if materialIndex < array.length then
          convertMaterials convertToKtx validateIdentifier materials rest
            (array.set materialIndex (some material)) st1
        else none

/-- The loop that fills `materialHeader->textures` (lines 202 to 205), `entries` being the
entries of the cache in the order the map iterates them; a store outside the array is
`none`. -/
def writeTextures {K : Type} : List (String × (Nat × K)) → List K → Option (List K)
  | [], textures => some textures
  | (_, (textureIndex, texture)) :: rest, textures =>
    if textureIndex < textures.length then
      writeTextures rest (textures.set textureIndex texture)
    else none

/-- The keys of the texture requests that name an image URI. -/
def requestKeys (requests : List (Option String × String)) : List String :=
  (uriRequests requests).map (fun r => textureKey r.1 r.2)

/-- A document with three meshes of one primitive each: material 4, no material, material 4. -/
def threeMaterialData : cgltf_data Int :=
  ⟨[⟨[⟨some 4⟩]⟩, ⟨[⟨none⟩]⟩, ⟨[⟨some 4⟩]⟩], 0, []⟩

/-- Every cache entry holds the 32-bit cast of its position in insertion order. -/
def CacheIndexed {K : Type} (st : TextureState K) : Prop :=
  st.textureCache.map (fun e => e.2.1) =
    (List.range st.textureCache.length).map (fun (i : Nat) => u32 (i : Int))

/-- The map `materialIndices` after `try_emplace(key, size())` for every key of `keys` in
turn, starting from the map `m`. -/
def emplaceAll {α : Type} [DecidableEq α] (keys : List α) (m : List (α × Nat)) :
    List (α × Nat) :=
  keys.foldl (fun m k => tryEmplace m k m.length) m

/-- The map `m` holds the keys `seen`, each once, with the values `0, 1, ...` in insertion
order. -/
def DenseMap {α : Type} [DecidableEq α] (m : List (α × Nat)) (seen : List α) : Prop :=
  (m.map Prod.fst).Nodup ∧ (∀ k, k ∈ m.map Prod.fst ↔ k ∈ seen) ∧
    m.map Prod.snd = List.range m.length

/-- A document with one node that is the root node of both of its two scenes. -/
def sharedNodeData : cgltf_data Int :=
  ⟨[], 1, [⟨[.mk 5 none []]⟩, ⟨[.mk 5 none []]⟩]⟩

/-! ## Buffer loading (`convertFromGltf`, lines 100 to 123) -/

/-- A `cgltf_buffer`: its `size`, its `uri` (`none` is null) and its `data` pointer (`none`
is null, otherwise the bytes it points at). -/
structure cgltf_buffer where
  size : Nat
  uri : Option String
  data : Option (List Nat)
deriving DecidableEq, Repr

/-- The fields of `cgltf_data` read by the buffer loading block: the buffers, the `bin`
pointer and `bin_size`. -/
structure cgltf_buffers where
  buffers : List cgltf_buffer
  bin : Option (List Nat)
  bin_size : Nat
deriving DecidableEq, Repr

/-- The first statement of the block (lines 103 to 111): the binary chunk becomes the data
of buffer 0. -/
def loadBin (data : cgltf_buffers) : Except String (List cgltf_buffer) :=
  match data.buffers with
  | [] => .ok []
  | first :: rest =>
    match first.data, first.uri, data.bin with
    | none, none, some bin =>
      if data.bin_size < first.size then .error "data too short"
      else .ok (⟨first.size, first.uri, some bin⟩ :: rest)
    | _, _, _ => .ok (first :: rest)

/-- The loop over the buffers (lines 112 to 122), `remaining` iterations from buffer number
`i` on.  `openFile` stands for the constructor of `decodeless::file` followed by `data()`,
`resolve uri` for `path.parent_path() / uri`.  A `std::string_view` made from a null `uri` is
`none`. -/
def loadExternal (openFile : String → Except String (List Nat)) (resolve : String → String) :
    Nat → Nat → List cgltf_buffer → Option (Except String (List cgltf_buffer))
  | 0, _, buffers => some (.ok buffers)
  | remaining + 1, i, buffers =>
    match buffers[i]? with
    | none => none
    | some buffer =>
      match buffer.data with
      | some _ => loadExternal openFile resolve remaining (i + 1) buffers
      | none =>
        match buffer.uri with
        | none => none
        | some uri =>
          if "data:".data.isPrefixOf uri.data then some (.error "data uri not implemented")
          else
            match openFile (resolve uri) with
            | .error e => some (.error e)
            | .ok bytes =>
              match buffers[0]? with
              | none => none
              | some first =>
                loadExternal openFile resolve remaining (i + 1)
                  (buffers.set 0 ⟨first.size, first.uri, some bytes⟩)

/-- The buffer loading block (lines 101 to 123): the buffers afterwards. -/
def loadBuffers (openFile : String → Except String (List Nat)) (resolve : String → String)
    (data : cgltf_buffers) : Option (Except String (List cgltf_buffer)) :=
  match loadBin data with
  | .error e => some (.error e)
  | .ok buffers => loadExternal openFile resolve buffers.length 0 buffers

/-- A sample file system: `dir/a.bin` holds the bytes 1, 2, 3, every other path the bytes
4, 5, 6. -/
def sampleFiles (path : String) : Except String (List Nat) :=
  if path = "dir/a.bin" then .ok [1, 2, 3] else .ok [4, 5, 6]

/-- A document with two buffers that name the external files `a.bin` and `b.bin`. -/
def twoBufferData : cgltf_buffers :=
  ⟨[⟨3, some "a.bin", none⟩, ⟨3, some "b.bin", none⟩], none, 0⟩

/-- A binary document: buffer 0 is the binary chunk, buffer 1 names the file `b.bin`. -/
def binBufferData : cgltf_buffers :=
  ⟨[⟨3, none, none⟩, ⟨3, some "b.bin", none⟩], some [7, 8, 9], 3⟩

/-! ## `cgltfTransform` (`rtrtool_cgltf.hpp`, lines 130 to 147) -/

/-- A `glm::vec4`. -/
abbrev Vec4 (R : Type) : Type := R × R × R × R

/-- A `glm::mat4`: its four columns (`m[0]`, ..., `m[3]`), each with the rows `x, y, z, w`. -/
abbrev Mat4 (R : Type) : Type := Vec4 R × Vec4 R × Vec4 R × Vec4 R

/-- The column `m[c]`. -/
def Mat4.column {R : Type} (m : Mat4 R) (c : Fin 4) : Vec4 R :=
  match c with
  | 0 => m.1
  | 1 => m.2.1
  | 2 => m.2.2.1
  | 3 => m.2.2.2

/-- The component `v[r]`. -/
def Vec4.component {R : Type} (v : Vec4 R) (r : Fin 4) : R :=
  match r with
  | 0 => v.1
  | 1 => v.2.1
  | 2 => v.2.2.1
  | 3 => v.2.2.2

/-- The value `glm::value_ptr(m)[k]`: the storage of a `glm::mat4` is column after column. -/
def Mat4.value {R : Type} (m : Mat4 R) (k : Fin 16) : R :=
  (m.column ⟨k.val / 4, by omega⟩).component ⟨k.val % 4, by omega⟩

/-- The matrix whose storage `glm::value_ptr` holds the sixteen values `a`. -/
def Mat4.ofValues {R : Type} (a : Fin 16 → R) : Mat4 R :=
  ((a 0, a 1, a 2, a 3), (a 4, a 5, a 6, a 7), (a 8, a 9, a 10, a 11),
    (a 12, a 13, a 14, a 15))

/-- The matrix `glm::identity<glm::mat4>()`. -/
def Mat4.identity {R : Type} [Zero R] [One R] : Mat4 R :=
  ((1, 0, 0, 0), (0, 1, 0, 0), (0, 0, 1, 0), (0, 0, 0, 1))

/-- The product `s * v` of a vector by a scalar. -/
def Vec4.scaled {R : Type} [Mul R] (v : Vec4 R) (s : R) : Vec4 R :=
  (v.1 * s, v.2.1 * s, v.2.2.1 * s, v.2.2.2 * s)

/-- The function `glm::scale(m, v)` of the GLM library: the first three columns of `m`
multiplied by the components of `v`, the fourth column kept. -/
def Mat4.scale {R : Type} [Mul R] (m : Mat4 R) (v : R × R × R) : Mat4 R :=
  (Vec4.scaled m.1 v.1, Vec4.scaled m.2.1 v.2.1, Vec4.scaled m.2.2.1 v.2.2, m.2.2.2)

/-- The product `m * v` of a matrix and a column vector. -/
def Mat4.mulVec {R : Type} [Add R] [Mul R] (m : Mat4 R) (v : Vec4 R) : Vec4 R :=
  (m.1.1 * v.1 + m.2.1.1 * v.2.1 + m.2.2.1.1 * v.2.2.1 + m.2.2.2.1 * v.2.2.2,
    m.1.2.1 * v.1 + m.2.1.2.1 * v.2.1 + m.2.2.1.2.1 * v.2.2.1 + m.2.2.2.2.1 * v.2.2.2,
    m.1.2.2.1 * v.1 + m.2.1.2.2.1 * v.2.1 + m.2.2.1.2.2.1 * v.2.2.1 +
      m.2.2.2.2.2.1 * v.2.2.2,
    m.1.2.2.2 * v.1 + m.2.1.2.2.2 * v.2.1 + m.2.2.1.2.2.2 * v.2.2.1 +
      m.2.2.2.2.2.2 * v.2.2.2)

/-- The matrix product `a * b`. -/
def Mat4.mul {R : Type} [Add R] [Mul R] (a b : Mat4 R) : Mat4 R :=
  (a.mulVec b.1, a.mulVec b.2.1, a.mulVec b.2.2.1, a.mulVec b.2.2.2)

/-- The transform fields of a `cgltf_node`; `rotation` is stored as `x, y, z, w`. -/
structure cgltf_node_transform (R : Type) where
  has_translation : Bool
  has_rotation : Bool
  has_scale : Bool
  has_matrix : Bool
  translation : R × R × R
  rotation : R × R × R × R
  scale : R × R × R
  matrix : Fin 16 → R

/-- The function `cgltfTransform` (lines 130 to 147).  `mat4_cast` stands for
`glm::mat4_cast` on the quaternion given as `(w, x, y, z)`, the argument order of the
constructor `glm::quat`. -/
def cgltfTransform {R : Type} [Zero R] [One R] [Mul R]
    (mat4_cast : R × R × R × R → Mat4 R) (node : cgltf_node_transform R) : Mat4 R :=
  let result : Mat4 R := Mat4.identity
  if node.has_matrix then Mat4.ofValues node.matrix
  else
    let result1 : Mat4 R :=
      if node.has_rotation then
        mat4_cast (node.rotation.2.2.2, node.rotation.1, node.rotation.2.1,
          node.rotation.2.2.1)
      else result
    let result2 : Mat4 R :=
      if node.has_translation then
        (result1.1, result1.2.1, result1.2.2.1,
          (node.translation.1, node.translation.2.1, node.translation.2.2, 1))
      else result1
    if node.has_scale then Mat4.scale result2 node.scale else result2

/-- The translation matrix `T` of a node: the identity when the node has no translation. -/
def translationMatrix {R : Type} [Zero R] [One R] (node : cgltf_node_transform R) : Mat4 R :=
  if node.has_translation then
    ((1, 0, 0, 0), (0, 1, 0, 0), (0, 0, 1, 0),
      (node.translation.1, node.translation.2.1, node.translation.2.2, 1))
  else Mat4.identity

/-- The rotation matrix `R` of a node: the identity when the node has no rotation. -/
def rotationMatrix {R : Type} [Zero R] [One R] (mat4_cast : R × R × R × R → Mat4 R)
    (node : cgltf_node_transform R) : Mat4 R :=
  if node.has_rotation then
    mat4_cast (node.rotation.2.2.2, node.rotation.1, node.rotation.2.1, node.rotation.2.2.1)
  else Mat4.identity

/-- The scale matrix `S` of a node: the identity when the node has no scale. -/
def scaleMatrix {R : Type} [Zero R] [One R] (node : cgltf_node_transform R) : Mat4 R :=
  if node.has_scale then
    ((node.scale.1, 0, 0, 0), (0, node.scale.2.1, 0, 0), (0, 0, node.scale.2.2, 0),
      (0, 0, 0, 1))
  else Mat4.identity

/-- The rotation matrix of a quaternion `(w, x, y, z)` by the formula of `glm::mat4_cast`. -/
def quaternionMatrix {R : Type} [Ring R] (q : R × R × R × R) : Mat4 R :=
  ((1 - 2 * (q.2.2.1 * q.2.2.1 + q.2.2.2 * q.2.2.2),
      2 * (q.2.1 * q.2.2.1 + q.1 * q.2.2.2), 2 * (q.2.1 * q.2.2.2 - q.1 * q.2.2.1), 0),
    (2 * (q.2.1 * q.2.2.1 - q.1 * q.2.2.2),
      1 - 2 * (q.2.1 * q.2.1 + q.2.2.2 * q.2.2.2), 2 * (q.2.2.1 * q.2.2.2 + q.1 * q.2.1), 0),
    (2 * (q.2.1 * q.2.2.2 + q.1 * q.2.2.1), 2 * (q.2.2.1 * q.2.2.2 - q.1 * q.2.1),
      1 - 2 * (q.2.1 * q.2.1 + q.2.2.1 * q.2.2.1), 0),
    (0, 0, 0, 1))

/-- A sample node: a quarter turn about `z` (quaternion `x, y, z, w = 0, 0, 1, 1`, not
normalised), the translation `(7, 8, 9)` and the scale `(2, 3, 4)`. -/
def demoTransform : cgltf_node_transform Int :=
  ⟨true, true, true, false, (7, 8, 9), (0, 0, 1, 1), (2, 3, 4), fun _ => 0⟩

/-! ## Accessor data: what `convert` reads, copies and returns -/

/-- How a computation with a loop ends: with a value, with an access outside an array
(undefined behaviour), or still running when the fuel given to the loop is used up. -/
inductive Outcome (α : Type) where
  | done (value : α)
  | undefined
  | unfinished
deriving DecidableEq, Repr

/-- A `strided_iterator<T>` (lines 149 to 200): `m_data` as a byte address counted from the
start of the buffer's data, and `m_stride`. -/
structure strided_iterator where
  m_data : Nat
  m_stride : Nat
deriving DecidableEq, Repr

/-- The address of `(*this)[n]` (lines 170 to 172). -/
def strided_iterator.index (it : strided_iterator) (n : Nat) : Nat :=
  it.m_data + it.m_stride * n

/-- The operator `++` (lines 161 to 164). -/
def strided_iterator.next (it : strided_iterator) : strided_iterator :=
  ⟨it.index 1, it.m_stride⟩

/-- The operator `+` (lines 177 to 181). -/
def strided_iterator.add (it : strided_iterator) (n : Nat) : strided_iterator :=
  ⟨it.index n, it.m_stride⟩

/-- The members of a `cgltf_accessor_adapter<T>` (lines 206 to 224). -/
structure cgltf_accessor_adapter where
  m_data : Nat
  m_size : Nat
  m_stride : Nat
deriving DecidableEq, Repr

/-- The constructor of `cgltf_accessor_adapter` (lines 206 to 212). -/
def cgltf_accessor.adapter (accessor : cgltf_accessor) : cgltf_accessor_adapter :=
  ⟨accessor.buffer_view_offset + accessor.offset, accessor.count, accessor.adapterStride⟩

/-- The method `begin` (line 218). -/
def cgltf_accessor_adapter.begin (adapter : cgltf_accessor_adapter) : strided_iterator :=
  ⟨adapter.m_data, adapter.m_stride⟩

/-- The method `end` (line 219). -/
def cgltf_accessor_adapter.end_ (adapter : cgltf_accessor_adapter) : strided_iterator :=
  adapter.begin.add adapter.m_size

/-- The loop `for (const T& v : adapter) *out++ = static_cast<U>(v)` of `convertCTT` (lines
243 to 245).  `it` advances until it compares equal to `last`; `out` counts the stores made
into `result`, the storage behind the output range counted in objects of the target type;
`read a` is the source object at address `a`, cast to the target type.  A store outside the
storage is undefined. -/
def convertCTT.loop {E : Type} (read : Nat → E) (last : strided_iterator) :
    Nat → strided_iterator → Nat → List E → Outcome (List E)
  | 0, it, _, result => if it.m_data = last.m_data then .done result else .unfinished
  | fuel + 1, it, out, result =>
    if it.m_data = last.m_data then .done result
    else if out < result.length then
      convertCTT.loop read last fuel it.next (out + 1) (result.set out (read it.m_data))
    else .undefined

/-- The function template `convertCTT` (lines 226 to 247) with the stores it makes.
`load S a` is the object of element type `S` at address `a` of the buffer, `cast S U` the
conversion `static_cast<U>` from `S`. -/
def convertCTT.run {E : Type} (convertible : ElementType → ElementType → Bool)
    (load : ElementType → Nat → E) (cast : ElementType → ElementType → E → E)
    (component_type : cgltf_component_type) (type : cgltf_type) (U : ElementType)
    (accessor : cgltf_accessor) (result : List E) (fuel : Nat) :
    Outcome (Except String (List E)) :=
  match cgltf_type_traits_inv component_type type with
  | none => .done (.error "Unsupported cgltf accessor component_type and type combination")
  | some T =>
    if convertible T U then
      match convertCTT.loop (fun a => cast T U (load T a)) accessor.adapter.end_ fuel
          accessor.adapter.begin 0 result with
      | .done stored => .done (.ok stored)
      | .undefined => .undefined
      | .unfinished => .unfinished
    else .done (.error ((("Cannot convert cgltf " ++ T.name) ++ " to ") ++ U.name))

/-- The function template `convertCT` (lines 249 to 265) with the stores it makes. -/
def convertCT.run {E : Type} (convertible : ElementType → ElementType → Bool)
    (load : ElementType → Nat → E) (cast : ElementType → ElementType → E → E)
    (component_type : cgltf_component_type) (U : ElementType) (accessor : cgltf_accessor)
    (result : List E) (fuel : Nat) : Outcome (Except String (List E)) :=
  match accessor.type with
  | .scalar => convertCTT.run convertible load cast component_type .scalar U accessor result fuel
  | .vec2 => convertCTT.run convertible load cast component_type .vec2 U accessor result fuel
  | .vec3 => convertCTT.run convertible load cast component_type .vec3 U accessor result fuel
  | .vec4 => convertCTT.run convertible load cast component_type .vec4 U accessor result fuel
  | .mat2 => convertCTT.run convertible load cast component_type .mat2 U accessor result fuel
  | .mat3 => convertCTT.run convertible load cast component_type .mat3 U accessor result fuel
  | .mat4 => convertCTT.run convertible load cast component_type .mat4 U accessor result fuel
  | .invalid => .done (.error "Invalid cgltf accessor type")

/-- The call `vector.resize(n)` with value-initialised new elements `zero`. -/
def resize {E : Type} (vector : List E) (n : Nat) (zero : E) : List E :=
  vector.take n ++ List.replicate (n - vector.length) zero

/-- The function template `convert<T, U>` (lines 267 to 297) with the memory it touches:
the span it returns and the vector `temporary` afterwards.  The vector holds objects of type
`U`; `temporary` lists its storage counted in objects of type `T`, so after
`temporary.resize((count * sizeof(T)) / sizeof(U))` it has
`((count * sizeof(T)) / sizeof(U)) * sizeof(U) / sizeof(T)` places. -/
def convert.run {E : Type} (convertible : ElementType → ElementType → Bool)
    (load : ElementType → Nat → E) (cast : ElementType → ElementType → E → E) (zero : E)
    (T U : ElementType) (accessor : cgltf_accessor) (temporary : List E) (fuel : Nat) :
    Outcome (Except String (Span × List E)) :=
  if T.component_type = accessor.component_type ∧ T.type = accessor.type ∧
      accessor.tight T = true then
    .done (.ok (⟨.accessor accessor, (accessor.count * T.sizeof) / U.sizeof⟩, temporary))
  else
    let resized : List E :=
      resize temporary ((((accessor.count * T.sizeof) / U.sizeof) * U.sizeof) / T.sizeof) zero
    let converted : Outcome (Except String (List E)) :=
      match accessor.component_type with
      | .r_8 => convertCT.run convertible load cast .r_8 T accessor resized fuel
      | .r_8u => convertCT.run convertible load cast .r_8u T accessor resized fuel
      | .r_16 => convertCT.run convertible load cast .r_16 T accessor resized fuel
      | .r_16u => convertCT.run convertible load cast .r_16u T accessor resized fuel
      | .r_32u => convertCT.run convertible load cast .r_32u T accessor resized fuel
      | .r_32f => convertCT.run convertible load cast .r_32f T accessor resized fuel
      | .invalid => .done (.error "Invalid cgltf accessor component_type")
    match converted with
    | .done (.ok stored) =>
      .done (.ok (⟨.temporary, (accessor.count * T.sizeof) / U.sizeof⟩, stored))
    | .done (.error e) => .done (.error e)
    | .undefined => .undefined
    | .unfinished => .unfinished

/-- The objects of type `T` covered by a span that `convert<T, U>` returned, read when the
span is used: from the buffer for a span into the accessor's data, from the current storage
`temporary` for a span into the vector. -/
def Span.objects {E : Type} (load : ElementType → Nat → E) (T U : ElementType)
    (temporary : List E) (span : Span) : Option (List E) :=
  match span.origin with
  | .empty => some []
  | .accessor accessor =>
    some ((List.range ((span.size * U.sizeof) / T.sizeof)).map
      (fun j => load T (accessor.adapter.m_data + j * T.sizeof)))
  | .temporary =>
    if (span.size * U.sizeof) / T.sizeof ≤ temporary.length then
      some (temporary.take ((span.size * U.sizeof) / T.sizeof))
    else none

/-- The logical elements of an accessor of source type `S` as objects of type `T`: element
`i` is read at `view.offset + accessor.offset + i * stride`. -/
def accessorObjects {E : Type} (load : ElementType → Nat → E)
    (cast : ElementType → ElementType → E → E) (S T : ElementType)
    (accessor : cgltf_accessor) : List E :=
  (List.range accessor.count).map (fun i =>
    cast S T (load S (accessor.buffer_view_offset + accessor.offset +
      i * accessor.adapterStride)))

/-- An index accessor of `count` unsigned 16-bit indices, tightly packed from byte `offset`
on. -/
def indexAccessor16 (offset count : Nat) : cgltf_accessor :=
  ⟨.r_16u, .scalar, offset, count, 2, 0, 0⟩

/-! ## The mesh loop with its temporary vectors (`convertFromGltf`, lines 129 to 176) -/

/-- The five arrays of an `rtr::common::Mesh` and of a `MeshData`. -/
inductive MeshArray where
  | triangleVertices | vertexPositions | vertexNormals | vertexTexCoords0 | vertexTangents
deriving DecidableEq, Repr

/-- The template argument `T` of the `convert` call that fills an array (lines 143 to 163). -/
def MeshArray.T : MeshArray → ElementType
  | .triangleVertices => .uint32
  | .vertexPositions => .vec3
  | .vertexNormals => .vec3
  | .vertexTexCoords0 => .vec2
  | .vertexTangents => .vec4

/-- The template argument `U` of the `convert` call that fills an array. -/
def MeshArray.U : MeshArray → ElementType
  | .triangleVertices => .uvec3
  | .vertexPositions => .vec3
  | .vertexNormals => .vec3
  | .vertexTexCoords0 => .vec2
  | .vertexTangents => .vec4

/-- The array an attribute is converted into (the `switch` of lines 147 to 167). -/
def cgltf_attribute_type.array : cgltf_attribute_type → Option MeshArray
  | .position => some .vertexPositions
  | .normal => some .vertexNormals
  | .texcoord => some .vertexTexCoords0
  | .tangent => some .vertexTangents
  | _ => none

/-- One vector of a `MeshData`: its storage counted in objects of the array's type `T`, and
how often it has grown.  Growing may move the storage, which leaves earlier spans into it
dangling; a `resize` to at most the current size keeps the storage where it is. -/
structure TemporaryVector (E : Type) where
  data : List E
  generation : Nat

/-- A span recorded in `meshes`, with the generation of the vector it points into (if it
points into one). -/
structure RecordedSpan where
  span : Span
  generation : Nat

/-- An element of `meshes`: its five spans, and the position in `temporary` of the
`MeshData` that was `temporary.back()` when they were recorded. -/
structure RecordedMesh where
  owner : Nat
  arrays : MeshArray → RecordedSpan

/-- One assignment `meshes.back().array = convert<T, U>(accessor, temporary.back().array)`:
`mesh` is `meshes.back()` and `tmp` is `temporary.back()`. -/
def recordArray {E : Type} (convertible : ElementType → ElementType → Bool)
    (load : ElementType → Nat → E) (cast : ElementType → ElementType → E → E) (zero : E)
    (fuel : Nat) (array : MeshArray) (accessor : cgltf_accessor) (mesh : RecordedMesh)
    (tmp : MeshArray → TemporaryVector E) :
    Outcome (Except String (RecordedMesh × (MeshArray → TemporaryVector E))) :=
  match convert.run convertible load cast zero array.T array.U accessor (tmp array).data
      fuel with
  | .done (.ok (span, stored)) =>
    let generation : Nat :=
      if (tmp array).data.length < stored.length then (tmp array).generation + 1
      else (tmp array).generation
    .done (.ok (⟨mesh.owner, fun a => if a = array then ⟨span, generation⟩ else mesh.arrays a⟩,
      fun a => if a = array then ⟨stored, generation⟩ else tmp a))
  | .done (.error e) => .done (.error e)
  | .undefined => .undefined
  | .unfinished => .unfinished

/-- The attribute loop of one primitive (lines 145 to 168) with the memory it touches; a
null `data` pointer is undefined. -/
def convertAttributes.run {E : Type} (convertible : ElementType → ElementType → Bool)
    (load : ElementType → Nat → E) (cast : ElementType → ElementType → E → E) (zero : E)
    (fuel : Nat) : List cgltf_attribute → RecordedMesh → (MeshArray → TemporaryVector E) →
    Outcome (Except String (RecordedMesh × (MeshArray → TemporaryVector E)))
  | [], mesh, tmp => .done (.ok (mesh, tmp))
  | attrib :: rest, mesh, tmp =>
    match attrib.type.array with
    | none => convertAttributes.run convertible load cast zero fuel rest mesh tmp
    | some array =>
      match attrib.data with
      | none => .undefined
      | some data =>
        match recordArray convertible load cast zero fuel array data mesh tmp with
        | .done (.ok (mesh1, tmp1)) =>
          convertAttributes.run convertible load cast zero fuel rest mesh1 tmp1
        | .done (.error e) => .done (.error e)
        | .undefined => .undefined
        | .unfinished => .unfinished

/-- The body of the primitive loop (lines 140 to 168): `meshes.emplace_back()`, the indices,
the attributes.  `owner` is the position of `temporary.back()`. -/
def convertPrimitive.run {E : Type} (convertible : ElementType → ElementType → Bool)
    (load : ElementType → Nat → E) (cast : ElementType → ElementType → E → E) (zero : E)
    (fuel : Nat) (owner : Nat) (primitive : cgltf_primitive_accessors)
    (tmp : MeshArray → TemporaryVector E) :
    Outcome (Except String (RecordedMesh × (MeshArray → TemporaryVector E))) :=
  match primitive.indices with
  | none => .undefined
  | some indices =>
    match recordArray convertible load cast zero fuel .triangleVertices indices
        ⟨owner, fun _ => ⟨⟨.empty, 0⟩, 0⟩⟩ tmp with
    | .done (.ok (mesh1, tmp1)) =>
      convertAttributes.run convertible load cast zero fuel primitive.attributes mesh1 tmp1
    | .done (.error e) => .done (.error e)
    | .undefined => .undefined
    | .unfinished => .unfinished

/-- The loop over the primitives of one mesh (line 136): all of them convert into the same
`temporary.back()`. -/
def convertPrimitives.run {E : Type} (convertible : ElementType → ElementType → Bool)
    (load : ElementType → Nat → E) (cast : ElementType → ElementType → E → E) (zero : E)
    (fuel : Nat) (owner : Nat) : List cgltf_primitive_accessors → List RecordedMesh →
    (MeshArray → TemporaryVector E) →
    Outcome (Except String (List RecordedMesh × (MeshArray → TemporaryVector E)))
  | [], meshes, tmp => .done (.ok (meshes, tmp))
  | primitive :: rest, meshes, tmp =>
    match convertPrimitive.run convertible load cast zero fuel owner primitive tmp with
    | .done (.ok (mesh, tmp1)) =>
      convertPrimitives.run convertible load cast zero fuel owner rest (meshes ++ [mesh]) tmp1
    | .done (.error e) => .done (.error e)
    | .undefined => .undefined
    | .unfinished => .unfinished

/-- The mesh loop (lines 133 to 176) over the meshes of the document, each given by its
primitives: `temporary.emplace_back()` once per mesh (line 134), then the primitives. -/
def convertMeshes.run {E : Type} (convertible : ElementType → ElementType → Bool)
    (load : ElementType → Nat → E) (cast : ElementType → ElementType → E → E) (zero : E)
    (fuel : Nat) : List (List cgltf_primitive_accessors) → List RecordedMesh →
    List (MeshArray → TemporaryVector E) →
    Outcome (Except String (List RecordedMesh × List (MeshArray → TemporaryVector E)))
  | [], meshes, temporary => .done (.ok (meshes, temporary))
  | mesh :: rest, meshes, temporary =>
    match convertPrimitives.run convertible load cast zero fuel temporary.length mesh meshes
        (fun _ => ⟨[], 0⟩) with
    | .done (.ok (meshes1, tmp)) =>
      convertMeshes.run convertible load cast zero fuel rest meshes1 (temporary ++ [tmp])
    | .done (.error e) => .done (.error e)
    | .undefined => .undefined
    | .unfinished => .unfinished

/-- The objects behind an array of a recorded mesh when it is read after the loop (by
`createMeshHeader`): `none` when the span dangles. -/
def RecordedMesh.objects {E : Type} (load : ElementType → Nat → E)
    (temporary : List (MeshArray → TemporaryVector E)) (mesh : RecordedMesh)
    (array : MeshArray) : Option (List E) :=
  match (mesh.arrays array).span.origin with
  | .temporary =>
    match temporary[mesh.owner]? with
    | none => none
    | some tmp =>
      if (tmp array).generation = (mesh.arrays array).generation then
        Span.objects load array.T array.U (tmp array).data (mesh.arrays array).span
      else none
  | _ => Span.objects load array.T array.U [] (mesh.arrays array).span

/-- The objects `createMeshHeader` finds behind `array` of the recorded mesh number `p` after
the mesh loop over `document`. -/
def recordedObjects {E : Type} (convertible : ElementType → ElementType → Bool)
    (load : ElementType → Nat → E) (cast : ElementType → ElementType → E → E) (zero : E)
    (fuel : Nat) (document : List (List cgltf_primitive_accessors)) (p : Nat)
    (array : MeshArray) : Option (List E) :=
  match convertMeshes.run convertible load cast zero fuel document [] [] with
  | .done (.ok (meshes, temporary)) =>
    match meshes[p]? with
    | none => none
    | some mesh => mesh.objects load temporary array
  | _ => none

/-! ## Auxiliary lemmas -/

mutual
theorem length_flatNode {M : Type} (p o : Nat) :
    ∀ n : cgltf_node M, (flatNode p o n).length = nodeSize n
  | .mk t m cs => by
    simp only [flatNode, nodeSize, List.length_cons, length_flatForest o (o + 1) cs]
    omega
theorem length_flatForest {M : Type} (p o : Nat) :
    ∀ f : List (cgltf_node M), (flatForest p o f).length = forestSize f
  | [] => by simp [flatForest, forestSize]
  | n :: rest => by
    simp only [flatForest, forestSize, List.length_append, length_flatNode p o n,
      length_flatForest p (o + nodeSize n) rest]
end

theorem setNode_frame {M : Type} (pre : List (Node M)) (x : Node M) (rest : List (Node M))
    (f : Node M → Node M) :
    setNode (pre ++ x :: rest) pre.length f = some (pre ++ f x :: rest) := by
  have h : (pre ++ x :: rest)[pre.length]? = some x := by
    rw [List.getElem?_append_right (le_refl _)]
    simp
  unfold setNode
  rw [h]
  simp

theorem u32_of_lt {n : Nat} (h : n < 4294967296) : u32 (n : Int) = n := by
  unfold u32
  omega

theorem u32_desc (o k : Nat) (h : o + 1 + k < 4294967296) :
    u32 ((u32 (((o + 1 + k : Nat) : Int) - (o : Int)) : Int) - 1) = k := by
  unfold u32
  omega

mutual
theorem writeNodeBody_eq {M σ : Type} (visitor : cgltf_node M → Nat → σ → σ) :
    ∀ (n : cgltf_node M) (parent : Nat) (pre mid post : List (Node M)) (s : σ),
      mid.length = nodeSize n → pre.length + nodeSize n < 4294967296 →
      writeNodeBody visitor parent n pre.length (pre ++ mid ++ post) s =
        some (pre.length + nodeSize n, pre ++ flatNode parent pre.length n ++ post,
          visitNode visitor pre.length n s)
  | .mk t m cs, parent, pre, mid, post, s, hlen, hlt => by
    simp only [nodeSize] at hlen hlt
    obtain ⟨x, mid1, rfl⟩ : ∃ x mid1, mid = x :: mid1 := by
      cases mid with
      | nil => simp at hlen; omega
      | cons x mid1 => exact ⟨x, mid1, rfl⟩
    have hlen1 : mid1.length = forestSize cs := by simp at hlen; omega
    have ih := writeNodesRecursive_eq visitor cs pre.length
      (pre ++ [⟨t, u32 ((pre.length : Int) - (parent : Int)), 0⟩]) mid1 post s hlen1
      (by simp; omega)
    simp only [List.length_append, List.length_singleton] at ih
    unfold writeNodeBody
    simp only [List.append_assoc, List.cons_append, setNode_frame]
    simp only [List.append_assoc, List.singleton_append, List.cons_append,
      List.nil_append] at ih
    rw [ih]
    simp only [setNode_frame]
    have h1 := u32_desc pre.length (forestSize cs) (by omega)
    push_cast at h1
    simp [flatNode, visitNode, nodeSize, h1]
    omega
theorem writeNodesRecursive_eq {M σ : Type} (visitor : cgltf_node M → Nat → σ → σ) :
    ∀ (inputs : List (cgltf_node M)) (parent : Nat) (pre mid post : List (Node M)) (s : σ),
      mid.length = forestSize inputs → pre.length + forestSize inputs < 4294967296 →
      writeNodesRecursive visitor parent inputs pre.length (pre ++ mid ++ post) s =
        some (pre.length + forestSize inputs, pre ++ flatForest parent pre.length inputs ++ post,
          visitForest visitor pre.length inputs s)
  | [], parent, pre, mid, post, s, hlen, _ => by
    simp only [forestSize, List.length_eq_zero] at hlen
    subst hlen
    simp [writeNodesRecursive, forestSize, flatForest, visitForest]
  | n :: rest, parent, pre, mid, post, s, hlen, hlt => by
    simp only [forestSize] at hlen hlt
    have hsplit : mid = mid.take (nodeSize n) ++ mid.drop (nodeSize n) :=
      (List.take_append_drop _ _).symm
    have h1 := writeNodeBody_eq visitor n parent pre (mid.take (nodeSize n))
      (mid.drop (nodeSize n) ++ post) s (by simp; omega) (by omega)
    have h2 := writeNodesRecursive_eq visitor rest parent (pre ++ flatNode parent pre.length n)
      (mid.drop (nodeSize n)) post (visitNode visitor pre.length n s)
      (by simp; omega) (by simp [length_flatNode]; omega)
    unfold writeNodesRecursive
    rw [hsplit]
    simp only [List.append_assoc] at h1 h2 ⊢
    rw [h1]
    simp only [List.length_append, length_flatNode] at h2
    simp only [h2, flatForest, forestSize, visitForest, List.append_assoc]
    simp; omega
end

theorem length_flatScenes {M : Type} [One M] :
    ∀ (scenes : List (cgltf_scene M)) (o : Nat), (flatScenes o scenes).length = scenesSize scenes
  | [], o => by simp [flatScenes, scenesSize]
  | sc :: rest, o => by
    simp only [flatScenes, scenesSize, List.length_cons, List.length_append, length_flatForest,
      length_flatScenes rest]
    omega

theorem length_sceneRootSlots {M : Type} :
    ∀ (scenes : List (cgltf_scene M)) (o : Nat), (sceneRootSlots o scenes).length = scenes.length
  | [], o => by simp [sceneRootSlots]
  | sc :: rest, o => by simp [sceneRootSlots, length_sceneRootSlots rest]

theorem setScene_frame (pre : List (Option Nat)) (x : Option Nat) (rest : List (Option Nat))
    (v : Option Nat) :
    setScene (pre ++ x :: rest) pre.length v = some (pre ++ v :: rest) := by
  have h : (pre ++ x :: rest)[pre.length]? = some x := by
    rw [List.getElem?_append_right (le_refl _)]
    simp
  unfold setScene
  rw [h]
  simp

theorem sceneLoop_eq {M σ : Type} [One M] (visitor : cgltf_node M → Nat → σ → σ) :
    ∀ (scenes : List (cgltf_scene M)) (pre mid post : List (Node M))
      (spre smid spost : List (Option Nat)) (s : σ),
      mid.length = scenesSize scenes → smid.length = scenes.length →
      pre.length + scenesSize scenes < 4294967296 →
      sceneLoop visitor scenes spre.length pre.length (pre ++ mid ++ post)
          (spre ++ smid ++ spost) s =
        some (pre ++ flatScenes pre.length scenes ++ post,
          spre ++ (sceneRootSlots pre.length scenes).map some ++ spost,
          visitScenes visitor pre.length scenes s)
  | [], pre, mid, post, spre, smid, spost, s, hlen, hslen, _ => by
    simp only [scenesSize, List.length_eq_zero] at hlen
    simp only [List.length_nil, List.length_eq_zero] at hslen
    subst hlen hslen
    simp [sceneLoop, flatScenes, sceneRootSlots, visitScenes]
  | sc :: rest, pre, mid, post, spre, smid, spost, s, hlen, hslen, hlt => by
    simp only [scenesSize] at hlen hlt
    obtain ⟨x, mid1, rfl⟩ : ∃ x mid1, mid = x :: mid1 := by
      cases mid with
      | nil => simp at hlen; omega
      | cons x mid1 => exact ⟨x, mid1, rfl⟩
    obtain ⟨y, smid1, rfl⟩ : ∃ y smid1, smid = y :: smid1 := by
      cases smid with
      | nil => simp at hslen
      | cons y smid1 => exact ⟨y, smid1, rfl⟩
    have hlen1 : mid1.length = forestSize sc.nodes + scenesSize rest := by
      simp at hlen; omega
    have hslen1 : smid1.length = rest.length := by simpa using hslen
    have hsplit : mid1 = mid1.take (forestSize sc.nodes) ++ mid1.drop (forestSize sc.nodes) :=
      (List.take_append_drop _ _).symm
    have hw := writeNodesRecursive_eq visitor sc.nodes pre.length
      (pre ++ [⟨1, 0, 0⟩]) (mid1.take (forestSize sc.nodes))
      (mid1.drop (forestSize sc.nodes) ++ post) s (by simp; omega) (by simp; omega)
    simp only [List.length_append, List.length_singleton, List.append_assoc,
      List.singleton_append, List.cons_append, List.nil_append] at hw
    have ih := sceneLoop_eq visitor rest
      (pre ++ ⟨1, 0, sceneRootCount pre.length (pre.length + 1 + forestSize sc.nodes)⟩ ::
        flatForest pre.length (pre.length + 1) sc.nodes)
      (mid1.drop (forestSize sc.nodes)) post (spre ++ [some pre.length]) smid1 spost
      (visitForest visitor (pre.length + 1) sc.nodes s)
      (by simp; omega) hslen1 (by simp [length_flatForest]; omega)
    simp only [List.length_append, List.length_singleton, List.append_assoc,
      List.singleton_append, List.cons_append, List.nil_append, List.length_cons,
      length_flatForest] at ih
    unfold sceneLoop
    rw [hsplit]
    simp only [List.append_assoc, List.cons_append, setNode_frame, setScene_frame]
    rw [hw]
    simp only [setNode_frame]
    have hpos : pre.length + (forestSize sc.nodes + 1) = pre.length + 1 + forestSize sc.nodes := by
      omega
    simp only [sceneRootCount] at ih
    simp only [hpos, List.length_nil, Nat.zero_add] at ih
    rw [ih]
    simp [flatScenes, sceneRootSlots, visitScenes, sceneRootCount]

theorem convertFromGltf_eq {M : Type} [One M] (data : cgltf_data M) (fill : Node M)
    (hcap : scenesSize data.scenes ≤ data.nodes_count + data.scenes.length)
    (h32 : scenesSize data.scenes < 4294967296) :
    convertFromGltf data fill = some
      ⟨flatScenes 0 data.scenes ++
          List.replicate (data.nodes_count + data.scenes.length - scenesSize data.scenes) fill,
        (sceneRootSlots 0 data.scenes).map some ++ List.replicate data.nodes_count none,
        visitScenes (makeAttachments data (buildIndices data)) 0 data.scenes []⟩ := by
  have h := sceneLoop_eq (makeAttachments data (buildIndices data)) data.scenes []
    (List.replicate (scenesSize data.scenes) fill)
    (List.replicate (data.nodes_count + data.scenes.length - scenesSize data.scenes) fill)
    [] (List.replicate data.scenes.length none) (List.replicate data.nodes_count none) []
    (by simp) (by simp) (by simpa using h32)
  have e1 : List.replicate (data.nodes_count + data.scenes.length) fill =
      [] ++ List.replicate (scenesSize data.scenes) fill ++
        List.replicate (data.nodes_count + data.scenes.length - scenesSize data.scenes) fill := by
    rw [List.nil_append, List.append_replicate_replicate]
    congr 1
    omega
  have e2 : List.replicate (data.nodes_count + data.scenes.length) (none : Option Nat) =
      [] ++ List.replicate data.scenes.length none ++ List.replicate data.nodes_count none := by
    rw [List.nil_append, List.append_replicate_replicate]
    congr 1
    omega
  unfold convertFromGltf
  simp only []
  rw [e1, e2]
  simp only [List.length_nil] at h
  rw [h]
  simp

theorem forestSize_cons {M : Type} (n : cgltf_node M) (rest : List (cgltf_node M)) :
    forestSize (n :: rest) = nodeSize n + forestSize rest := by
  rw [forestSize]

theorem flatForest_cons {M : Type} (p o : Nat) (n : cgltf_node M) (rest : List (cgltf_node M)) :
    flatForest p o (n :: rest) = flatNode p o n ++ flatForest p (o + nodeSize n) rest := by
  rw [flatForest]

theorem forestSize_append {M : Type} (a b : List (cgltf_node M)) :
    forestSize (a ++ b) = forestSize a + forestSize b := by
  induction a with
  | nil => simp [forestSize]
  | cons n a ih =>
    rw [List.cons_append, forestSize_cons, forestSize_cons, ih]
    omega

theorem flatForest_append {M : Type} (p : Nat) (a b : List (cgltf_node M)) (o : Nat) :
    flatForest p o (a ++ b) = flatForest p o a ++ flatForest p (o + forestSize a) b := by
  induction a generalizing o with
  | nil => simp [flatForest, forestSize]
  | cons n a ih =>
    rw [List.cons_append, flatForest_cons, flatForest_cons, forestSize_cons, ih,
      List.append_assoc, Nat.add_assoc]

theorem split_at {α : Type} (l : List α) (j : Nat) (x : α) (h : l[j]? = some x) :
    l = l.take j ++ x :: l.drop (j + 1) := by
  induction l generalizing j with
  | nil => simp at h
  | cons y l ih =>
    cases j with
    | zero => simp at h; simp [h]
    | succ j =>
      simp only [List.getElem?_cons_succ] at h
      simp only [List.take_succ_cons, List.drop_succ_cons, List.cons_append]
      rw [← ih j h]

theorem forestSize_split {M : Type} (inputs : List (cgltf_node M)) (j : Nat) (n : cgltf_node M)
    (h : inputs[j]? = some n) :
    forestSize inputs =
      forestSize (inputs.take j) + nodeSize n + forestSize (inputs.drop (j + 1)) := by
  conv_lhs => rw [split_at inputs j n h]
  rw [forestSize_append, forestSize_cons]
  omega

theorem flatForest_split {M : Type} (p o : Nat) (inputs : List (cgltf_node M)) (j : Nat)
    (n : cgltf_node M) (h : inputs[j]? = some n) :
    flatForest p o inputs =
      flatForest p o (inputs.take j) ++ (flatNode p (o + forestSize (inputs.take j)) n ++
        flatForest p (o + forestSize (inputs.take j) + nodeSize n) (inputs.drop (j + 1))) := by
  conv_lhs => rw [split_at inputs j n h]
  rw [flatForest_append, flatForest_cons]

theorem parentSlotAt_cons_cons {M : Type} (inputs : List (cgltf_node M)) (p o j k : Nat)
    (rest : List Nat) (n : cgltf_node M) (h : inputs[j]? = some n) :
    parentSlotAt inputs p o (j :: k :: rest) =
      parentSlotAt n.children (o + forestSize (inputs.take j))
        (o + forestSize (inputs.take j) + 1) (k :: rest) := by
  unfold parentSlotAt
  cases rest with
  | nil => simp [slotAt]
  | cons k2 rest =>
    simp [slotAt, h]

theorem flatNode_head {M : Type} (p o : Nat) (n : cgltf_node M) :
    flatNode p o n = ⟨n.transform, u32 ((o : Int) - (p : Int)), forestSize n.children⟩ ::
      flatForest o (o + 1) n.children := by
  cases n with
  | mk t m cs => simp [flatNode, cgltf_node.transform, cgltf_node.children]

theorem nodeSize_eq {M : Type} (n : cgltf_node M) : nodeSize n = 1 + forestSize n.children := by
  cases n with
  | mk t m cs => simp [nodeSize, cgltf_node.children]

theorem flat_at_path {M : Type} (path : List Nat) :
    ∀ (inputs : List (cgltf_node M)) (p o : Nat) (n : cgltf_node M),
      nodeAt inputs path = some n →
      o ≤ slotAt inputs o path ∧ slotAt inputs o path + nodeSize n ≤ o + forestSize inputs ∧
      (p < o → parentSlotAt inputs p o path < slotAt inputs o path) ∧
      (flatForest p o inputs)[slotAt inputs o path - o]? =
        some ⟨n.transform,
          u32 ((slotAt inputs o path : Int) - (parentSlotAt inputs p o path : Int)),
          forestSize n.children⟩ := by
  induction path with
  | nil => intro inputs p o n h; simp [nodeAt] at h
  | cons j tail ih =>
    intro inputs p o n h
    cases tail with
    | nil =>
      simp only [nodeAt] at h
      have hs := forestSize_split inputs j n h
      refine ⟨by simp [slotAt], by simp only [slotAt]; omega,
        by intro hp; simp only [slotAt, parentSlotAt, List.length_singleton, le_refl, if_true]; omega,
        ?_⟩
      rw [flatForest_split p o inputs j n h]
      simp only [slotAt, parentSlotAt, List.length_singleton, le_refl, if_true]
      rw [List.getElem?_append_right (by rw [length_flatForest]; omega), length_flatForest,
        flatNode_head]
      simp
    | cons k rest =>
      simp only [nodeAt] at h
      cases hj : inputs[j]? with
      | none => simp [hj] at h
      | some nj =>
        simp only [hj] at h
        have hs := forestSize_split inputs j nj hj
        have hnj := nodeSize_eq nj
        have hn := nodeSize_eq n
        obtain ⟨h1, h2, hp, h3⟩ := ih nj.children (o + forestSize (inputs.take j))
          (o + forestSize (inputs.take j) + 1) n h
        have hslot : slotAt inputs o (j :: k :: rest) =
            slotAt nj.children (o + forestSize (inputs.take j) + 1) (k :: rest) := by
          simp [slotAt, hj]
        rw [hslot, parentSlotAt_cons_cons inputs p o j k rest nj hj]
        refine ⟨by omega, by omega, fun _ => hp (by omega), ?_⟩
        rw [flatForest_split p o inputs j nj hj]
        rw [List.getElem?_append_right (by rw [length_flatForest]; omega), length_flatForest,
          List.getElem?_append_left (by rw [length_flatNode]; omega), flatNode_head]
        have hidx : slotAt nj.children (o + forestSize (inputs.take j) + 1) (k :: rest) - o -
            forestSize (inputs.take j) =
            (slotAt nj.children (o + forestSize (inputs.take j) + 1) (k :: rest) -
              (o + forestSize (inputs.take j) + 1)) + 1 := by omega
        rw [hidx, List.getElem?_cons_succ]
        exact h3

theorem writeNodesRecursive_run {M σ : Type} (visitor : cgltf_node M → Nat → σ → σ)
    (parent : Nat) (inputs : List (cgltf_node M)) (output : Nat) (nodes : List (Node M)) (s : σ)
    (hcap : output + forestSize inputs ≤ nodes.length)
    (h32 : output + forestSize inputs < 4294967296) :
    writeNodesRecursive visitor parent inputs output nodes s =
      some (output + forestSize inputs,
        nodes.take output ++ flatForest parent output inputs ++
          nodes.drop (output + forestSize inputs),
        visitForest visitor output inputs s) := by
  have hlen : (nodes.take output).length = output := by
    rw [List.length_take]; omega
  have h := writeNodesRecursive_eq visitor inputs parent (nodes.take output)
    ((nodes.drop output).take (forestSize inputs)) (nodes.drop (output + forestSize inputs)) s
    (by rw [List.length_take, List.length_drop]; omega) (by rw [hlen]; exact h32)
  rw [hlen] at h
  have e : nodes.take output ++ (nodes.drop output).take (forestSize inputs) ++
      nodes.drop (output + forestSize inputs) = nodes := by
    rw [List.append_assoc, ← List.drop_drop, List.take_append_drop, List.take_append_drop]
  rw [e] at h
  exact h

mutual
theorem flatNode_map {M : Type} (p o : Nat) :
    ∀ n : cgltf_node M,
      (flatNode p o n).map (fun x => (x.transform, x.descendantCount)) =
        (preorderNode n).map (fun m => (m.transform, forestSize m.children))
  | .mk t m cs => by
    simp only [flatNode, preorderNode, List.map_cons, flatForest_map o (o + 1) cs,
      cgltf_node.transform, cgltf_node.children]
theorem flatForest_map {M : Type} (p o : Nat) :
    ∀ f : List (cgltf_node M),
      (flatForest p o f).map (fun x => (x.transform, x.descendantCount)) =
        (preorder f).map (fun m => (m.transform, forestSize m.children))
  | [] => by simp [flatForest, preorder]
  | n :: rest => by
    simp only [flatForest, preorder, List.map_append, flatNode_map p o n,
      flatForest_map p (o + nodeSize n) rest]
end

theorem segment_eq {α : Type} (pre mid post : List α) (o k : Nat) (ho : pre.length = o)
    (hk : mid.length = k) : ((pre ++ mid ++ post).drop o).take k = mid := by
  subst ho hk
  simp

theorem scenesSize_cons {M : Type} (sc : cgltf_scene M) (rest : List (cgltf_scene M)) :
    scenesSize (sc :: rest) = 1 + forestSize sc.nodes + scenesSize rest := by
  rw [scenesSize]

theorem scenesSize_append {M : Type} (a b : List (cgltf_scene M)) :
    scenesSize (a ++ b) = scenesSize a + scenesSize b := by
  induction a with
  | nil => simp [scenesSize]
  | cons sc a ih =>
    rw [List.cons_append, scenesSize_cons, scenesSize_cons, ih]
    omega

theorem flatScenes_cons {M : Type} [One M] (o : Nat) (sc : cgltf_scene M)
    (rest : List (cgltf_scene M)) :
    flatScenes o (sc :: rest) =
      ⟨1, 0, sceneRootCount o (o + 1 + forestSize sc.nodes)⟩ ::
        (flatForest o (o + 1) sc.nodes ++ flatScenes (o + 1 + forestSize sc.nodes) rest) := by
  rw [flatScenes]

theorem flatScenes_append {M : Type} [One M] (a b : List (cgltf_scene M)) (o : Nat) :
    flatScenes o (a ++ b) = flatScenes o a ++ flatScenes (o + scenesSize a) b := by
  induction a generalizing o with
  | nil => simp [flatScenes, scenesSize]
  | cons sc a ih =>
    rw [List.cons_append, flatScenes_cons, flatScenes_cons, scenesSize_cons, ih]
    simp only [List.cons_append, List.append_assoc]
    congr 4
    omega

theorem scenesSize_split {M : Type} (scenes : List (cgltf_scene M)) (si : Nat)
    (sc : cgltf_scene M) (h : scenes[si]? = some sc) :
    scenesSize scenes = scenesSize (scenes.take si) + (1 + forestSize sc.nodes) +
      scenesSize (scenes.drop (si + 1)) := by
  conv_lhs => rw [split_at scenes si sc h]
  rw [scenesSize_append, scenesSize_cons]
  omega

theorem flatScenes_split {M : Type} [One M] (scenes : List (cgltf_scene M)) (si : Nat)
    (sc : cgltf_scene M) (h : scenes[si]? = some sc) :
    flatScenes 0 scenes = flatScenes 0 (scenes.take si) ++
      (⟨1, 0, sceneRootCount (scenesSize (scenes.take si))
          (scenesSize (scenes.take si) + 1 + forestSize sc.nodes)⟩ ::
        (flatForest (scenesSize (scenes.take si)) (scenesSize (scenes.take si) + 1) sc.nodes ++
          flatScenes (scenesSize (scenes.take si) + 1 + forestSize sc.nodes)
            (scenes.drop (si + 1)))) := by
  conv_lhs => rw [split_at scenes si sc h]
  rw [flatScenes_append, flatScenes_cons, Nat.zero_add]

theorem flatScenes_root {M : Type} [One M] (scenes : List (cgltf_scene M)) (si : Nat)
    (sc : cgltf_scene M) (h : scenes[si]? = some sc) :
    (flatScenes 0 scenes)[scenesSize (scenes.take si)]? =
      some (⟨1, 0, sceneRootCount (scenesSize (scenes.take si))
        (scenesSize (scenes.take si) + 1 + forestSize sc.nodes)⟩ : Node M) := by
  rw [flatScenes_split scenes si sc h,
    List.getElem?_append_right (by rw [length_flatScenes]), length_flatScenes]
  simp

theorem flatScenes_node {M : Type} [One M] (scenes : List (cgltf_scene M)) (si : Nat)
    (sc : cgltf_scene M) (h : scenes[si]? = some sc) (path : List Nat) (n : cgltf_node M)
    (hn : nodeAt sc.nodes path = some n) (h32 : scenesSize scenes < 4294967296) :
    scenesSize (scenes.take si) + 1 ≤ slotAt sc.nodes (scenesSize (scenes.take si) + 1) path ∧
    slotAt sc.nodes (scenesSize (scenes.take si) + 1) path + nodeSize n ≤
      scenesSize (scenes.take si) + 1 + forestSize sc.nodes ∧
    parentSlotAt sc.nodes (scenesSize (scenes.take si)) (scenesSize (scenes.take si) + 1) path <
      slotAt sc.nodes (scenesSize (scenes.take si) + 1) path ∧
    (flatScenes 0 scenes)[slotAt sc.nodes (scenesSize (scenes.take si) + 1) path]? =
      some ⟨n.transform,
        slotAt sc.nodes (scenesSize (scenes.take si) + 1) path -
          parentSlotAt sc.nodes (scenesSize (scenes.take si))
            (scenesSize (scenes.take si) + 1) path,
        forestSize n.children⟩ := by
  obtain ⟨h1, h2, h3, h4⟩ := flat_at_path path sc.nodes (scenesSize (scenes.take si))
    (scenesSize (scenes.take si) + 1) n hn
  have hp := h3 (by omega)
  have hs := scenesSize_split scenes si sc h
  have hsz := nodeSize_eq n
  refine ⟨h1, h2, hp, ?_⟩
  rw [flatScenes_split scenes si sc h,
    List.getElem?_append_right (by rw [length_flatScenes]; omega), length_flatScenes]
  have hidx : slotAt sc.nodes (scenesSize (scenes.take si) + 1) path -
      scenesSize (scenes.take si) =
      (slotAt sc.nodes (scenesSize (scenes.take si) + 1) path -
        (scenesSize (scenes.take si) + 1)) + 1 := by omega
  rw [hidx, List.getElem?_cons_succ,
    List.getElem?_append_left (by rw [length_flatForest]; omega), h4]
  have hu : u32 ((slotAt sc.nodes (scenesSize (scenes.take si) + 1) path : Int) -
      (parentSlotAt sc.nodes (scenesSize (scenes.take si))
        (scenesSize (scenes.take si) + 1) path : Int)) =
      slotAt sc.nodes (scenesSize (scenes.take si) + 1) path -
        parentSlotAt sc.nodes (scenesSize (scenes.take si))
          (scenesSize (scenes.take si) + 1) path := by
    unfold u32
    omega
  rw [hu]

theorem nodeAt_snoc {M : Type} (path : List Nat) :
    ∀ (inputs : List (cgltf_node M)) (c : Nat), path ≠ [] →
      nodeAt inputs (path ++ [c]) = (nodeAt inputs path).bind (fun n => n.children[c]?) := by
  induction path with
  | nil => intro inputs c h; exact absurd rfl h
  | cons j tail ih =>
    intro inputs c _
    cases tail with
    | nil =>
      simp only [List.singleton_append, nodeAt]
      cases inputs[j]? <;> simp [nodeAt]
    | cons k rest =>
      simp only [List.cons_append, nodeAt]
      cases inputs[j]? with
      | none => simp
      | some nj =>
        have := ih nj.children c (by simp)
        simpa using this

theorem slotAt_snoc {M : Type} (path : List Nat) :
    ∀ (inputs : List (cgltf_node M)) (o c : Nat) (n : cgltf_node M), path ≠ [] →
      nodeAt inputs path = some n →
      slotAt inputs o (path ++ [c]) = slotAt inputs o path + 1 + forestSize (n.children.take c) := by
  induction path with
  | nil => intro inputs o c n h; exact absurd rfl h
  | cons j tail ih =>
    intro inputs o c n _ hn
    cases tail with
    | nil =>
      simp only [nodeAt] at hn
      simp [slotAt, hn]
    | cons k rest =>
      simp only [nodeAt] at hn
      cases hj : inputs[j]? with
      | none => simp [hj] at hn
      | some nj =>
        simp only [hj] at hn
        have := ih nj.children (o + forestSize (inputs.take j) + 1) c n (by simp) hn
        simpa [slotAt, hj] using this

theorem nodeAt_dropLast {M : Type} (inputs : List (cgltf_node M)) (path : List Nat)
    (n : cgltf_node M) (hlen : 2 ≤ path.length) (hn : nodeAt inputs path = some n) :
    ∃ pn, nodeAt inputs path.dropLast = some pn := by
  have hne : path ≠ [] := by
    intro h; rw [h] at hlen; simp at hlen
  have hd : path.dropLast ≠ [] := by
    intro h
    have := congrArg List.length h
    rw [List.length_dropLast] at this
    simp at this
    omega
  have hsplit := List.dropLast_append_getLast hne
  rw [← hsplit, nodeAt_snoc _ _ _ hd] at hn
  cases h : nodeAt inputs path.dropLast with
  | none => rw [h] at hn; simp at hn
  | some pn => exact ⟨pn, rfl⟩

theorem nodeDepth_le_forestDepth {M : Type} (inputs : List (cgltf_node M)) (j : Nat)
    (n : cgltf_node M) (h : inputs[j]? = some n) : nodeDepth n ≤ forestDepth inputs := by
  induction inputs generalizing j with
  | nil => simp at h
  | cons x rest ih =>
    rw [forestDepth]
    cases j with
    | zero =>
      simp at h
      subst h
      exact le_max_left _ _
    | succ j =>
      simp only [List.getElem?_cons_succ] at h
      exact le_trans (ih j h) (le_max_right _ _)

theorem nodeDepth_eq {M : Type} (n : cgltf_node M) :
    nodeDepth n = 1 + forestDepth n.children := by
  cases n with
  | mk t m cs => simp [nodeDepth, cgltf_node.children]

theorem path_length_le_depth {M : Type} (path : List Nat) :
    ∀ (inputs : List (cgltf_node M)) (n : cgltf_node M), nodeAt inputs path = some n →
      path.length ≤ forestDepth inputs := by
  induction path with
  | nil => intro inputs n h; simp [nodeAt] at h
  | cons j tail ih =>
    intro inputs n h
    cases tail with
    | nil =>
      simp only [nodeAt] at h
      have h1 := nodeDepth_le_forestDepth inputs j n h
      have h2 := nodeDepth_eq n
      simp only [List.length_singleton]
      omega
    | cons k rest =>
      simp only [nodeAt] at h
      cases hj : inputs[j]? with
      | none => simp [hj] at h
      | some nj =>
        simp only [hj] at h
        have h1 := nodeDepth_le_forestDepth inputs j nj hj
        have h2 := nodeDepth_eq nj
        have h3 := ih nj.children n h
        simp only [List.length_cons] at h3 ⊢
        omega

theorem ancestorSlot_zero_some {M : Type} (nodes : List (Node M)) (i : Nat) (x : Node M)
    (h : nodes[i]? = some x) : ancestorSlot nodes 0 i = some i := by
  have hi : i < nodes.length := by
    rcases Nat.lt_or_ge i nodes.length with hlt | hge
    · exact hlt
    · rw [List.getElem?_eq_none hge] at h; simp at h
  simp [ancestorSlot, hi]

theorem ancestorSlot_succ {M : Type} (nodes : List (Node M)) (k i : Nat) (x : Node M)
    (h : nodes[i]? = some x) (hle : x.parentOffset ≤ i) :
    ancestorSlot nodes (k + 1) i = ancestorSlot nodes k (i - x.parentOffset) := by
  simp [ancestorSlot, h, hle]

/-- In an array that holds, for every node of the forest `F`, a record whose parent offset
leads to the slot of its parent, walking up from the node at a path takes as many steps as
the path is long and ends at the slot `r` below which the forest was written. -/
theorem climb_path {M : Type} (A : List (Node M)) (F : List (cgltf_node M)) (r : Nat)
    (root : Node M) (hroot : A[r]? = some root)
    (hA : ∀ path n, nodeAt F path = some n →
      parentSlotAt F r (r + 1) path < slotAt F (r + 1) path ∧
      ∃ x, A[slotAt F (r + 1) path]? = some x ∧
        x.parentOffset = slotAt F (r + 1) path - parentSlotAt F r (r + 1) path) :
    ∀ (d : Nat) (path : List Nat) (n : cgltf_node M), path.length = d + 1 →
      nodeAt F path = some n →
      ancestorSlot A (d + 1) (slotAt F (r + 1) path) = some r ∧
      ∀ k, k < d + 1 → ∃ j x, ancestorSlot A k (slotAt F (r + 1) path) = some j ∧
        A[j]? = some x ∧ x.parentOffset ≠ 0 := by
  intro d
  induction d with
  | zero =>
    intro path n hlen hn
    obtain ⟨hlt, x, hx, hpo⟩ := hA path n hn
    have hp : parentSlotAt F r (r + 1) path = r := by
      simp [parentSlotAt, hlen]
    rw [hp] at hlt hpo
    refine ⟨?_, ?_⟩
    · rw [ancestorSlot_succ A 0 _ x hx (by omega), hpo]
      have e : slotAt F (r + 1) path - (slotAt F (r + 1) path - r) = r := by omega
      rw [e]
      exact ancestorSlot_zero_some A r root hroot
    · intro k hk
      have hk0 : k = 0 := by omega
      subst hk0
      exact ⟨_, x, ancestorSlot_zero_some A _ x hx, hx, by omega⟩
  | succ d ih =>
    intro path n hlen hn
    obtain ⟨hlt, x, hx, hpo⟩ := hA path n hn
    obtain ⟨pn, hpn⟩ := nodeAt_dropLast F path n (by omega) hn
    have hp : parentSlotAt F r (r + 1) path = slotAt F (r + 1) path.dropLast := by
      have : ¬ path.length ≤ 1 := by omega
      simp [parentSlotAt, this]
    rw [hp] at hlt hpo
    have hdl : path.dropLast.length = d + 1 := by
      rw [List.length_dropLast]; omega
    obtain ⟨ih1, ih2⟩ := ih path.dropLast pn hdl hpn
    have e : slotAt F (r + 1) path - x.parentOffset = slotAt F (r + 1) path.dropLast := by
      omega
    refine ⟨?_, ?_⟩
    · rw [ancestorSlot_succ A (d + 1) _ x hx (by omega), e]
      exact ih1
    · intro k hk
      cases k with
      | zero => exact ⟨_, x, ancestorSlot_zero_some A _ x hx, hx, by omega⟩
      | succ k =>
        rw [ancestorSlot_succ A k _ x hx (by omega), e]
        exact ih2 k (by omega)

/-- When `k` upward steps from slot `i` pass only slots with a parent and end at a slot `r`
without one, the loop of `Scene` started at `i` stops at `r`. -/
theorem walkToRoot_root {M : Type} [Mul M] (A : List (Node M)) (r : Nat) (root : Node M)
    (hroot : A[r]? = some root) (hr0 : root.parentOffset = 0) :
    ∀ (k i fuel : Nat) (t : M), i < fuel → ancestorSlot A k i = some r →
      (∀ k1, k1 < k → ∃ j x, ancestorSlot A k1 i = some j ∧ A[j]? = some x ∧
        x.parentOffset ≠ 0) →
      ∃ t1, walkToRoot A fuel i t = some (r, t1) := by
  intro k
  induction k with
  | zero =>
    intro i fuel t hf hk _
    have hi : i = r := by
      simp only [ancestorSlot] at hk
      split at hk
      · simpa using hk
      · simp at hk
    subst hi
    obtain ⟨fuel1, rfl⟩ : ∃ fuel1, fuel = fuel1 + 1 := ⟨fuel - 1, by omega⟩
    exact ⟨t, by simp [walkToRoot, hroot, hr0]⟩
  | succ k ih =>
    intro i fuel t hf hk hmid
    obtain ⟨j, x, hj, hx, hne⟩ := hmid 0 (by omega)
    have hji : j = i := by
      simp only [ancestorSlot] at hj
      split at hj
      · simpa using hj.symm
      · simp at hj
    subst hji
    have hle : x.parentOffset ≤ j := by
      simp only [ancestorSlot, hx] at hk
      split at hk
      · assumption
      · simp at hk
    rw [ancestorSlot_succ A k j x hx hle] at hk
    have hjlen : j < A.length := by
      rcases Nat.lt_or_ge j A.length with hlt | hge
      · exact hlt
      · rw [List.getElem?_eq_none hge] at hx; simp at hx
    have hplen : j - x.parentOffset < A.length := by omega
    obtain ⟨fuel1, rfl⟩ : ∃ fuel1, fuel = fuel1 + 1 := ⟨fuel - 1, by omega⟩
    have hmid1 : ∀ k1, k1 < k → ∃ j1 x1, ancestorSlot A k1 (j - x.parentOffset) = some j1 ∧
        A[j1]? = some x1 ∧ x1.parentOffset ≠ 0 := by
      intro k1 hk1
      have := hmid (k1 + 1) (by omega)
      rw [ancestorSlot_succ A k1 j x hx hle] at this
      exact this
    obtain ⟨t1, ht1⟩ := ih (j - x.parentOffset) fuel1
      ((A[j - x.parentOffset]).transform * t) (by omega) hk hmid1
    refine ⟨t1, ?_⟩
    have hp : A[j - x.parentOffset]? = some A[j - x.parentOffset] :=
      List.getElem?_eq_getElem hplen
    simp only [walkToRoot, hx, hne, if_false, hle, if_true, hp]
    exact ht1

/-! ### Index maps -/

theorem mapFind_mapAssign {α β : Type} [DecidableEq α] (m : List (α × β)) (k k1 : α) (v : β) :
    mapFind (mapAssign m k v) k1 = if k1 = k then some v else mapFind m k1 := by
  induction m with
  | nil =>
    by_cases h : k1 = k
    · subst h; simp [mapAssign, mapFind]
    · have h2 : ¬ k = k1 := fun e => h e.symm
      simp [mapAssign, mapFind, h, h2]
  | cons e m ih =>
    obtain ⟨k0, v0⟩ := e
    by_cases h0 : k0 = k
    · subst h0
      by_cases h : k1 = k0
      · subst h; simp [mapAssign, mapFind]
      · have h2 : ¬ k0 = k1 := fun e => h e.symm
        simp [mapAssign, mapFind, h, h2]
    · by_cases h : k1 = k
      · subst h
        simp [mapAssign, mapFind, h0, ih]
      · by_cases h1 : k0 = k1
        · subst h1; simp [mapAssign, mapFind, h0]
        · simp [mapAssign, mapFind, h0, h1, ih, h]

theorem indexPrimitives_meshes_size (mi : Nat) (prims : List cgltf_primitive) :
    ∀ (pi : Nat) (st : IndexState),
      (indexPrimitives mi prims pi st).meshes_size = st.meshes_size + prims.length := by
  induction prims with
  | nil => intro pi st; simp [indexPrimitives]
  | cons p rest ih =>
    intro pi st
    rw [indexPrimitives, ih]
    simp only [List.length_cons]
    omega

theorem indexPrimitives_lookup (mi : Nat) (prims : List cgltf_primitive) :
    ∀ (pi : Nat) (st : IndexState) (a b : Nat),
      mapFind (indexPrimitives mi prims pi st).meshIndices (a, b) =
        if a = mi ∧ pi ≤ b ∧ b < pi + prims.length then some (st.meshes_size + (b - pi))
        else mapFind st.meshIndices (a, b) := by
  induction prims with
  | nil =>
    intro pi st a b
    have : ¬ (a = mi ∧ pi ≤ b ∧ b < pi + ([] : List cgltf_primitive).length) := by
      simp only [List.length_nil]; omega
    rw [if_neg this, indexPrimitives]
  | cons p rest ih =>
    intro pi st a b
    rw [indexPrimitives, ih]
    simp only [mapFind_mapAssign, List.length_cons, Prod.mk.injEq]
    by_cases h1 : a = mi ∧ pi + 1 ≤ b ∧ b < pi + 1 + rest.length
    · have h2 : a = mi ∧ pi ≤ b ∧ b < pi + (rest.length + 1) := by omega
      rw [if_pos h1, if_pos h2]
      congr 1
      omega
    · rw [if_neg h1]
      by_cases h3 : a = mi ∧ b = pi
      · have h2 : a = mi ∧ pi ≤ b ∧ b < pi + (rest.length + 1) := by omega
        rw [if_pos h3, if_pos h2]
        congr 1
        omega
      · have h2 : ¬ (a = mi ∧ pi ≤ b ∧ b < pi + (rest.length + 1)) := by omega
        rw [if_neg h3, if_neg h2]

theorem primitiveOffset_cons_succ (mesh : cgltf_mesh) (rest : List cgltf_mesh) (k : Nat) :
    primitiveOffset (mesh :: rest) (k + 1) = mesh.primitives.length + primitiveOffset rest k := by
  simp [primitiveOffset]

theorem indexMeshes_meshes_size (meshes : List cgltf_mesh) :
    ∀ (mi : Nat) (st : IndexState),
      (indexMeshes meshes mi st).meshes_size =
        st.meshes_size + primitiveOffset meshes meshes.length := by
  induction meshes with
  | nil => intro mi st; simp [indexMeshes, primitiveOffset]
  | cons mesh rest ih =>
    intro mi st
    rw [indexMeshes, ih, indexPrimitives_meshes_size, List.length_cons,
      primitiveOffset_cons_succ]
    omega

theorem indexMeshes_lookup (meshes : List cgltf_mesh) :
    ∀ (mi : Nat) (st : IndexState) (a b : Nat) (mesh : cgltf_mesh),
      meshes[a]? = some mesh → b < mesh.primitives.length →
      mapFind (indexMeshes meshes mi st).meshIndices (mi + a, b) =
        some (st.meshes_size + primitiveOffset meshes a + b) := by
  induction meshes with
  | nil => intro mi st a b mesh h; simp at h
  | cons m0 rest ih =>
    intro mi st a b mesh h hb
    rw [indexMeshes]
    cases a with
    | zero =>
      simp at h
      subst h
      have hfr : ∀ (l : List cgltf_mesh) (k : Nat) (st1 : IndexState), mi < k →
          mapFind (indexMeshes l k st1).meshIndices (mi, b) = mapFind st1.meshIndices (mi, b) := by
        intro l
        induction l with
        | nil => intro k st1 _; simp [indexMeshes]
        | cons m1 l ihl =>
          intro k st1 hk
          rw [indexMeshes, ihl (k + 1) _ (by omega), indexPrimitives_lookup]
          have : ¬ (mi = k ∧ 0 ≤ b ∧ b < 0 + m1.primitives.length) := by omega
          rw [if_neg this]
      have e0 : mi + 0 = mi := rfl
      rw [e0, hfr rest (mi + 1) _ (by omega), indexPrimitives_lookup]
      have : mi = mi ∧ 0 ≤ b ∧ b < 0 + m0.primitives.length := by omega
      rw [if_pos this]
      simp [primitiveOffset]
    | succ a =>
      simp only [List.getElem?_cons_succ] at h
      have := ih (mi + 1) (indexPrimitives mi m0.primitives 0 st) a b mesh h hb
      rw [indexPrimitives_meshes_size] at this
      rw [primitiveOffset_cons_succ]
      have e : mi + (a + 1) = mi + 1 + a := by omega
      rw [e, this]
      congr 1
      omega

theorem buildIndices_mesh {M : Type} (data : cgltf_data M) (mi pi : Nat) (mesh : cgltf_mesh)
    (h : data.meshes[mi]? = some mesh) (hpi : pi < mesh.primitives.length) :
    mapIndex (buildIndices data).meshIndices (mi, pi) = primitiveOffset data.meshes mi + pi := by
  have := indexMeshes_lookup data.meshes 0 ⟨[], [], 0⟩ mi pi mesh h hpi
  simp only [Nat.zero_add] at this
  simp [mapIndex, buildIndices, this]

theorem mapFind_append {α β : Type} [DecidableEq α] (m : List (α × β)) (k k1 : α) (v : β) :
    mapFind (m ++ [(k, v)]) k1 =
      match mapFind m k1 with
      | some x => some x
      | none => if k = k1 then some v else none := by
  induction m with
  | nil => simp [mapFind]
  | cons e m ih =>
    obtain ⟨k0, v0⟩ := e
    by_cases h : k0 = k1
    · simp [mapFind, h]
    · simp [mapFind, h, ih]

theorem tryEmplace_bound {α : Type} [DecidableEq α] (m : List (α × Nat)) (k : α)
    (hinv : ∀ k1 v, mapFind m k1 = some v → v < m.length) :
    (∀ k1 v, mapFind (tryEmplace m k m.length) k1 = some v →
      v < (tryEmplace m k m.length).length) ∧
    (tryEmplace m k m.length).length ≤ m.length + 1 := by
  unfold tryEmplace
  cases hk : mapFind m k with
  | some x =>
    simp only
    exact ⟨hinv, by omega⟩
  | none =>
    simp only
    refine ⟨?_, by simp⟩
    intro k1 v hv
    rw [mapFind_append] at hv
    simp only [List.length_append, List.length_singleton]
    cases h1 : mapFind m k1 with
    | some x =>
      rw [h1] at hv
      simp only [Option.some.injEq] at hv
      have := hinv k1 x h1
      omega
    | none =>
      rw [h1] at hv
      simp only at hv
      split at hv
      · simp only [Option.some.injEq] at hv; omega
      · simp at hv

theorem indexPrimitives_bound (mi : Nat) (prims : List cgltf_primitive) :
    ∀ (pi : Nat) (st : IndexState), MaterialBound st →
      MaterialBound (indexPrimitives mi prims pi st) := by
  induction prims with
  | nil => intro pi st h; simpa [indexPrimitives] using h
  | cons p rest ih =>
    intro pi st h
    rw [indexPrimitives]
    apply ih
    obtain ⟨h1, h2⟩ := tryEmplace_bound st.materialIndices p.material h.1
    exact ⟨h1, by have := h.2; simp only; omega⟩

theorem indexMeshes_bound (meshes : List cgltf_mesh) :
    ∀ (mi : Nat) (st : IndexState), MaterialBound st → MaterialBound (indexMeshes meshes mi st) := by
  induction meshes with
  | nil => intro mi st h; simpa [indexMeshes] using h
  | cons m rest ih =>
    intro mi st h
    rw [indexMeshes]
    exact ih _ _ (indexPrimitives_bound mi m.primitives 0 st h)

theorem buildIndices_material_le {M : Type} (data : cgltf_data M) (k : Option Nat) :
    mapIndex (buildIndices data).materialIndices k ≤
      primitiveOffset data.meshes data.meshes.length := by
  have hb : MaterialBound (buildIndices data) :=
    indexMeshes_bound data.meshes 0 ⟨[], [], 0⟩ ⟨by intro k v h; simp [mapFind] at h, by simp⟩
  have hs : (buildIndices data).meshes_size = primitiveOffset data.meshes data.meshes.length := by
    simp [buildIndices, indexMeshes_meshes_size]
  unfold mapIndex
  cases h : mapFind (buildIndices data).materialIndices k with
  | none => simp
  | some v =>
    have := hb.1 k v h
    have := hb.2
    simp only [Option.getD_some]
    omega

/-! ### Visitor calls -/

mutual
theorem visitNode_eq_foldl {M σ : Type} (visitor : cgltf_node M → Nat → σ → σ) :
    ∀ (n : cgltf_node M) (o : Nat) (s : σ),
      visitNode visitor o n s = (postorderNode o n).foldl (fun s e => visitor e.1 e.2 s) s
  | .mk t m cs, o, s => by
    simp only [visitNode, postorderNode, List.foldl_append, List.foldl_cons, List.foldl_nil,
      visitForest_eq_foldl visitor cs (o + 1) s]
theorem visitForest_eq_foldl {M σ : Type} (visitor : cgltf_node M → Nat → σ → σ) :
    ∀ (f : List (cgltf_node M)) (o : Nat) (s : σ),
      visitForest visitor o f s = (postorderForest o f).foldl (fun s e => visitor e.1 e.2 s) s
  | [], o, s => by simp [visitForest, postorderForest]
  | n :: rest, o, s => by
    simp only [visitForest, postorderForest, List.foldl_append, visitNode_eq_foldl visitor n o s,
      visitForest_eq_foldl visitor rest (o + nodeSize n)]
end

theorem visitScenes_eq_foldl {M σ : Type} (visitor : cgltf_node M → Nat → σ → σ)
    (scenes : List (cgltf_scene M)) :
    ∀ (o : Nat) (s : σ),
      visitScenes visitor o scenes s =
        (postorderScenes o scenes).foldl (fun s e => visitor e.1 e.2 s) s := by
  induction scenes with
  | nil => intro o s; simp [visitScenes, postorderScenes]
  | cons sc rest ih =>
    intro o s
    simp only [visitScenes, postorderScenes, List.foldl_append, visitForest_eq_foldl, ih]

mutual
theorem postorderNode_slot {M : Type} :
    ∀ (n : cgltf_node M) (o : Nat) (e : cgltf_node M × Nat), e ∈ postorderNode o n →
      o ≤ e.2 ∧ e.2 < o + nodeSize n
  | .mk t m cs, o, e, he => by
    simp only [postorderNode, List.mem_append, List.mem_singleton] at he
    simp only [nodeSize]
    rcases he with he | he
    · have := postorderForest_slot cs (o + 1) e he
      omega
    · subst he
      simp
theorem postorderForest_slot {M : Type} :
    ∀ (f : List (cgltf_node M)) (o : Nat) (e : cgltf_node M × Nat), e ∈ postorderForest o f →
      o ≤ e.2 ∧ e.2 < o + forestSize f
  | [], o, e, he => by simp [postorderForest] at he
  | n :: rest, o, e, he => by
    simp only [postorderForest, List.mem_append] at he
    simp only [forestSize]
    rcases he with he | he
    · have := postorderNode_slot n o e he
      omega
    · have := postorderForest_slot rest (o + nodeSize n) e he
      omega
end

theorem postorderScenes_slot {M : Type} (scenes : List (cgltf_scene M)) :
    ∀ (o : Nat) (e : cgltf_node M × Nat), e ∈ postorderScenes o scenes →
      o < e.2 ∧ e.2 < o + scenesSize scenes := by
  induction scenes with
  | nil => intro o e he; simp [postorderScenes] at he
  | cons sc rest ih =>
    intro o e he
    simp only [postorderScenes, List.mem_append] at he
    simp only [scenesSize]
    rcases he with he | he
    · have := postorderForest_slot sc.nodes (o + 1) e he
      omega
    · have := ih _ e he
      omega

theorem makeAttachments_eq {M : Type} (data : cgltf_data M) (e : cgltf_node M × Nat)
    (instances : List Instance) (hslot : e.2 < 4294967296)
    (hprims : primitiveOffset data.meshes data.meshes.length < 4294967296) :
    makeAttachments data (buildIndices data) e.1 e.2 instances =
      instances ++ instancesOf data e := by
  unfold makeAttachments instancesOf drawablesOf
  cases hm : e.1.mesh with
  | none => simp
  | some mi =>
    simp only
    cases hmesh : data.meshes[mi]? with
    | none => simp
    | some mesh =>
      simp only [List.map_map]
      congr 1
      apply List.map_congr_left
      intro q hq
      have hq1 : q.1 < mesh.primitives.length := by
        have := List.fst_lt_of_mem_enum hq
        simpa using this
      have hmi : mi < data.meshes.length := by
        rcases Nat.lt_or_ge mi data.meshes.length with hlt | hge
        · exact hlt
        · rw [List.getElem?_eq_none hge] at hmesh; simp at hmesh
      have hoff : primitiveOffset data.meshes mi + mesh.primitives.length ≤
          primitiveOffset data.meshes data.meshes.length := by
        have hsp := split_at data.meshes mi mesh hmesh
        have : primitiveOffset data.meshes data.meshes.length =
            primitiveOffset data.meshes mi + (mesh.primitives.length +
              ((data.meshes.drop (mi + 1)).map (fun m => m.primitives.length)).sum) := by
          unfold primitiveOffset
          rw [List.take_length]
          conv_lhs => rw [hsp]
          simp
        omega
      simp only [Function.comp_apply]
      rw [buildIndices_mesh data mi q.1 mesh hmesh hq1, u32_of_lt hslot,
        u32_of_lt (by omega),
        u32_of_lt (lt_of_le_of_lt (buildIndices_material_le data q.2.material) hprims)]

theorem attach_foldl {M : Type} (data : cgltf_data M)
    (hprims : primitiveOffset data.meshes data.meshes.length < 4294967296)
    (l : List (cgltf_node M × Nat)) :
    ∀ (instances : List Instance), (∀ e ∈ l, e.2 < 4294967296) →
      l.foldl (fun s e => makeAttachments data (buildIndices data) e.1 e.2 s) instances =
        instances ++ l.flatMap (instancesOf data) := by
  induction l with
  | nil => intro instances _; simp
  | cons e l ih =>
    intro instances h
    rw [List.foldl_cons, makeAttachments_eq data e instances (h e (by simp)) hprims,
      ih _ (fun x hx => h x (by simp [hx]))]
    simp [List.flatMap_cons]

mutual
theorem length_preorderNode {M : Type} :
    ∀ n : cgltf_node M, (preorderNode n).length = nodeSize n
  | .mk t m cs => by
    simp only [preorderNode, nodeSize, List.length_cons, length_preorder cs]
    omega
theorem length_preorder {M : Type} :
    ∀ f : List (cgltf_node M), (preorder f).length = forestSize f
  | [] => by simp [preorder, forestSize]
  | n :: rest => by
    simp only [preorder, forestSize, List.length_append, length_preorderNode n,
      length_preorder rest]
end

mutual
theorem postorderNode_perm {M : Type} :
    ∀ (n : cgltf_node M) (o : Nat),
      (postorderNode o n).Perm ((preorderNode n).zip (List.range' o (nodeSize n)))
  | .mk t m cs, o => by
    have ih := postorderForest_perm cs (o + 1)
    have e : nodeSize (cgltf_node.mk t m cs) = forestSize cs + 1 := by
      simp only [nodeSize]; omega
    rw [e, List.range'_succ]
    simp only [postorderNode, preorderNode, List.zip_cons_cons]
    exact (List.perm_append_singleton _ _).trans (List.Perm.cons _ ih)
theorem postorderForest_perm {M : Type} :
    ∀ (f : List (cgltf_node M)) (o : Nat),
      (postorderForest o f).Perm ((preorder f).zip (List.range' o (forestSize f)))
  | [], o => by simp [postorderForest, preorder]
  | n :: rest, o => by
    have h1 := postorderNode_perm n o
    have h2 := postorderForest_perm rest (o + nodeSize n)
    have e : List.range' o (forestSize (n :: rest)) =
        List.range' o (nodeSize n) ++ List.range' (o + nodeSize n) (forestSize rest) := by
      rw [List.range'_append_1, forestSize_cons, Nat.add_comm]
    rw [e]
    simp only [postorderForest, preorder]
    rw [List.zip_append (by rw [length_preorderNode, List.length_range'])]
    exact List.Perm.append h1 h2
end

/-! ### The instance loop of `Scene` on a converted document -/

theorem climb_child {M : Type} [Monoid M] (A : List (Node M)) (p i : Nat) (acc : M)
    (root : Nat) (x : Node M) (hc : ClimbsTo A p acc root) (hx : A[i]? = some x)
    (hpo : x.parentOffset = i - p) (hlt : p < i) :
    ClimbsTo A i (acc * x.transform) root := by
  obtain ⟨xp, hxp, hwalk⟩ := hc
  refine ⟨x, hx, ?_⟩
  intro t fuel hf
  obtain ⟨fuel1, rfl⟩ : ∃ fuel1, fuel = fuel1 + 1 := ⟨fuel - 1, by omega⟩
  have hne : x.parentOffset ≠ 0 := by omega
  have hle : x.parentOffset ≤ i := by omega
  have hp : A[i - x.parentOffset]? = some xp := by
    have : i - x.parentOffset = p := by omega
    rw [this]; exact hxp
  have e : i - x.parentOffset = p := by omega
  simp only [walkToRoot, hx, hne, if_false, hle, if_true, hp]
  rw [e, hwalk _ fuel1 (by omega), mul_assoc]

theorem resolve_of_climb {M : Type} [Monoid M] (h : SceneHeader M) (i mesh material r0 : Nat)
    (acc : M) (root : Nat) (hs : h.scenes[0]? = some (some r0))
    (hc : ClimbsTo h.nodes i acc root) :
    resolveInstance h ⟨i, mesh, material⟩ =
      some (if root = r0 then some ⟨mesh, material, acc⟩ else none) := by
  obtain ⟨x, hx, hwalk⟩ := hc
  have hw := hwalk 1 (i + 1) (by omega)
  rw [mul_one, mul_one] at hw
  simp only [resolveInstance, hx, hw, hs]
  by_cases hr : root = r0
  · simp [hr]
  · simp [hr]

theorem getElem?_mid {α : Type} (pre : List α) (x : α) (post : List α) :
    (pre ++ x :: post)[pre.length]? = some x := by
  rw [List.getElem?_append_right (le_refl _)]
  simp

mutual
theorem resolve_node {M : Type} [Monoid M] (data : cgltf_data M) (h : SceneHeader M)
    (r0 : Nat) (hs : h.scenes[0]? = some (some r0)) :
    ∀ (n : cgltf_node M) (p : Nat) (acc : M) (root : Nat) (pre post : List (Node M)),
      h.nodes = pre ++ flatNode p pre.length n ++ post → p < pre.length →
      pre.length + nodeSize n ≤ 4294967296 → ClimbsTo h.nodes p acc root →
      ((postorderNode pre.length n).flatMap (instancesOf data)).map (resolveInstance h) =
        (worldNode data acc n).map (fun w => some (if root = r0 then some w else none))
  | .mk t m cs, p, acc, root, pre, post, hA, hp, h32, hc => by
    simp only [nodeSize] at h32
    have hu : u32 ((pre.length : Int) - (p : Int)) = pre.length - p := by
      unfold u32; omega
    simp only [flatNode, hu, List.cons_append, List.append_assoc] at hA
    have hx : h.nodes[pre.length]? =
        some ⟨t, pre.length - p, forestSize cs⟩ := by
      rw [hA]; exact getElem?_mid _ _ _
    have hc1 := climb_child h.nodes p pre.length acc root _ hc hx rfl hp
    have ih := resolve_forest data h r0 hs cs pre.length (acc * t) root
      (pre ++ [⟨t, pre.length - p, forestSize cs⟩]) post
      (by rw [hA]; simp) (by simp) (by simp; omega) hc1
    simp only [List.length_append, List.length_singleton] at ih
    simp only [postorderNode, worldNode, List.flatMap_append, List.map_append, ih,
      List.flatMap_cons, List.flatMap_nil, List.append_nil, instancesOf, List.map_map]
    congr 1
    apply List.map_congr_left
    intro d _
    simp only [Function.comp_apply]
    exact resolve_of_climb h pre.length d.1 d.2 r0 (acc * t) root hs hc1
theorem resolve_forest {M : Type} [Monoid M] (data : cgltf_data M) (h : SceneHeader M)
    (r0 : Nat) (hs : h.scenes[0]? = some (some r0)) :
    ∀ (f : List (cgltf_node M)) (p : Nat) (acc : M) (root : Nat) (pre post : List (Node M)),
      h.nodes = pre ++ flatForest p pre.length f ++ post → p < pre.length →
      pre.length + forestSize f ≤ 4294967296 → ClimbsTo h.nodes p acc root →
      ((postorderForest pre.length f).flatMap (instancesOf data)).map (resolveInstance h) =
        (worldForest data acc f).map (fun w => some (if root = r0 then some w else none))
  | [], p, acc, root, pre, post, _, _, _, _ => by
    simp [postorderForest, worldForest]
  | n :: rest, p, acc, root, pre, post, hA, hp, h32, hc => by
    simp only [forestSize] at h32
    simp only [flatForest, List.append_assoc] at hA
    have h1 := resolve_node data h r0 hs n p acc root pre
      (flatForest p (pre.length + nodeSize n) rest ++ post)
      (by rw [hA]; simp) hp (by omega) hc
    have h2 := resolve_forest data h r0 hs rest p acc root (pre ++ flatNode p pre.length n) post
      (by rw [hA]; simp [length_flatNode]) (by simp; omega)
      (by simp [length_flatNode]; omega) hc
    simp only [List.length_append, length_flatNode] at h2
    simp only [postorderForest, worldForest, List.flatMap_append, List.map_append, h1, h2]
end

theorem resolve_scenes {M : Type} [Monoid M] (data : cgltf_data M) (h : SceneHeader M)
    (r0 : Nat) (hs : h.scenes[0]? = some (some r0)) (scenes : List (cgltf_scene M)) :
    ∀ (pre post : List (Node M)),
      h.nodes = pre ++ flatScenes pre.length scenes ++ post →
      pre.length + scenesSize scenes ≤ 4294967296 →
      ((postorderScenes pre.length scenes).flatMap (instancesOf data)).map (resolveInstance h) =
        (sceneWorld data r0 pre.length scenes).map some := by
  induction scenes with
  | nil => intro pre post _ _; simp [postorderScenes, sceneWorld]
  | cons sc rest ih =>
    intro pre post hA h32
    simp only [scenesSize] at h32
    simp only [flatScenes, List.cons_append, List.append_assoc] at hA
    have hx : h.nodes[pre.length]? = some ⟨1, 0,
        sceneRootCount pre.length (pre.length + 1 + forestSize sc.nodes)⟩ := by
      rw [hA]; exact getElem?_mid _ _ _
    have hc : ClimbsTo h.nodes pre.length 1 pre.length := by
      refine ⟨_, hx, ?_⟩
      intro t fuel hf
      obtain ⟨fuel1, rfl⟩ : ∃ fuel1, fuel = fuel1 + 1 := ⟨fuel - 1, by omega⟩
      simp [walkToRoot, hx]
    have h1 := resolve_forest data h r0 hs sc.nodes pre.length 1 pre.length
      (pre ++ [⟨1, 0, sceneRootCount pre.length (pre.length + 1 + forestSize sc.nodes)⟩])
      (flatScenes (pre.length + 1 + forestSize sc.nodes) rest ++ post)
      (by rw [hA]; simp) (by simp) (by simp; omega) hc
    have h2 := ih
      (pre ++ ⟨1, 0, sceneRootCount pre.length (pre.length + 1 + forestSize sc.nodes)⟩ ::
        flatForest pre.length (pre.length + 1) sc.nodes) post
      (by
        have e : pre.length + (forestSize sc.nodes + 1) =
            pre.length + 1 + forestSize sc.nodes := by omega
        rw [hA]; simp [length_flatForest, e])
      (by simp [length_flatForest]; omega)
    simp only [List.length_append, List.length_singleton, List.length_cons,
      length_flatForest, List.length_nil, Nat.zero_add] at h1 h2
    have e : pre.length + (forestSize sc.nodes + 1) = pre.length + 1 + forestSize sc.nodes := by
      omega
    rw [e] at h2
    simp only [postorderScenes, sceneWorld, List.flatMap_append, List.map_append, h1, h2,
      List.map_map]
    rfl

theorem instanceLoop_eq {M : Type} [Mul M] (h : SceneHeader M) (l : List Instance) :
    ∀ (rs : List (Option (SceneInstance M))) (out : List (SceneInstance M)),
      l.map (resolveInstance h) = rs.map some →
      Scene.instanceLoop h l out = some (out ++ rs.filterMap id) := by
  induction l with
  | nil =>
    intro rs out hl
    cases rs with
    | nil => simp [Scene.instanceLoop]
    | cons r rs => simp at hl
  | cons i l ih =>
    intro rs out hl
    cases rs with
    | nil => simp at hl
    | cons r rs =>
      simp only [List.map_cons, List.cons.injEq] at hl
      obtain ⟨h1, h2⟩ := hl
      cases r with
      | none =>
        simp only [Scene.instanceLoop, h1]
        rw [ih rs out h2]
        simp
      | some w =>
        simp only [Scene.instanceLoop, h1]
        rw [ih rs _ h2]
        simp

theorem sceneWorld_later {M : Type} [Monoid M] (data : cgltf_data M)
    (scenes : List (cgltf_scene M)) :
    ∀ o, 0 < o → (sceneWorld data 0 o scenes).filterMap id = [] := by
  induction scenes with
  | nil => intro o _; simp [sceneWorld]
  | cons sc rest ih =>
    intro o ho
    have hne : ¬ o = 0 := by omega
    simp only [sceneWorld, List.filterMap_append, ih _ (by omega : 0 < o + 1 + forestSize sc.nodes),
      List.append_nil, hne, if_false]
    simp [List.filterMap_map]

/-- The instances `Scene` is expected to keep for a document: those of the first scene with
their world transforms. -/
theorem convertFromGltf_Scene {M : Type} [Monoid M] (data : cgltf_data M) (fill : Node M)
    (hcap : scenesSize data.scenes ≤ data.nodes_count + data.scenes.length)
    (h32 : scenesSize data.scenes < 4294967296)
    (hprims : primitiveOffset data.meshes data.meshes.length < 4294967296) :
    ∃ h, convertFromGltf data fill = some h ∧
      h.instances = (postorderScenes 0 data.scenes).flatMap (instancesOf data) ∧
      Scene h = some (match data.scenes with
        | [] => []
        | sc :: _ => worldForest data 1 sc.nodes) := by
  refine ⟨_, convertFromGltf_eq data fill hcap h32, ?_, ?_⟩
  · simp only
    rw [visitScenes_eq_foldl, attach_foldl data hprims]
    · simp
    · intro e he
      have := postorderScenes_slot data.scenes 0 e he
      omega
  · unfold Scene
    simp only
    rw [visitScenes_eq_foldl, attach_foldl data hprims _ _ (by
      intro e he
      have := postorderScenes_slot data.scenes 0 e he
      omega)]
    simp only [List.nil_append]
    cases hsc : data.scenes with
    | nil => simp [postorderScenes, Scene.instanceLoop]
    | cons sc rest =>
      have hs0 : ((sceneRootSlots 0 (sc :: rest)).map some ++
          List.replicate data.nodes_count none)[0]? = some (some 0) := by
        simp [sceneRootSlots]
      have hr := resolve_scenes data
        ⟨flatScenes 0 (sc :: rest) ++ List.replicate
            (data.nodes_count + (sc :: rest).length - scenesSize (sc :: rest)) fill,
          (sceneRootSlots 0 (sc :: rest)).map some ++ List.replicate data.nodes_count none,
          (postorderScenes 0 (sc :: rest)).flatMap (instancesOf data)⟩ 0 hs0 (sc :: rest)
        [] (List.replicate
            (data.nodes_count + (sc :: rest).length - scenesSize (sc :: rest)) fill)
        (by simp) (by rw [hsc] at h32; simp; omega)
      simp only [List.length_nil] at hr
      rw [instanceLoop_eq _ _ _ [] hr]
      simp only [List.nil_append, sceneWorld, List.filterMap_append,
        sceneWorld_later data rest _ (by omega : 0 < 0 + 1 + forestSize sc.nodes),
        List.append_nil, if_true]
      simp [List.filterMap_map]

/-! ### The instance loop of `Scene` on any header -/

theorem walkToRoot_chain {M : Type} [Monoid M] (A : List (Node M)) :
    ∀ (fuel i : Nat) (x : Node M) (t : M) (r : Nat) (t1 : M), A[i]? = some x →
      walkToRoot A fuel i (x.transform * t) = some (r, t1) →
      t1 = (chainTransforms A fuel i).prod * t := by
  intro fuel
  induction fuel with
  | zero => intro i x t r t1 _ hw; simp [walkToRoot] at hw
  | succ fuel ih =>
    intro i x t r t1 hx hw
    simp only [walkToRoot, hx] at hw
    simp only [chainTransforms, hx]
    by_cases h0 : x.parentOffset = 0
    · simp only [h0, if_true, Option.some.injEq, Prod.mk.injEq] at hw
      simp [h0, hw.2.symm]
    · simp only [h0, if_false] at hw ⊢
      by_cases hle : x.parentOffset ≤ i
      · simp only [hle, if_true] at hw ⊢
        cases hp : A[i - x.parentOffset]? with
        | none => simp [hp] at hw
        | some p =>
          simp only [hp] at hw
          have := ih (i - x.parentOffset) p (x.transform * t) r t1 hp hw
          rw [this, List.prod_append, List.prod_singleton, mul_assoc]
      · simp [hle] at hw

theorem resolve_some_some {M : Type} [Mul M] (h : SceneHeader M) (i : Instance)
    (w : SceneInstance M) (hr : resolveInstance h i = some (some w)) :
    ∃ n node, h.nodes[i.node]? = some n ∧
      walkToRoot h.nodes (i.node + 1) i.node n.transform = some (node, w.localToWorld) ∧
      h.scenes[0]? = some (some node) ∧ w.meshIndex = i.mesh ∧ w.materialIndex = i.material := by
  unfold resolveInstance at hr
  cases hn : h.nodes[i.node]? with
  | none => simp [hn] at hr
  | some n =>
    simp only [hn] at hr
    cases hw : walkToRoot h.nodes (i.node + 1) i.node n.transform with
    | none => simp [hw] at hr
    | some res =>
      obtain ⟨node, transform⟩ := res
      simp only [hw] at hr
      cases hs : h.scenes[0]? with
      | none => simp [hs] at hr
      | some root =>
        simp only [hs] at hr
        by_cases hne : some node ≠ root
        · rw [if_pos hne] at hr
          simp at hr
        · rw [if_neg hne] at hr
          simp only [Option.some.injEq] at hr
          have hroot : root = some node := by
            by_contra hc
            exact hne (fun e => hc e.symm)
          subst hr
          exact ⟨n, node, rfl, hw, by rw [hroot], rfl, rfl⟩


theorem resolve_kept_iff {M : Type} [Mul M] (h : SceneHeader M) (i : Instance)
    (r : Option (SceneInstance M)) (hr : resolveInstance h i = some r) :
    (h.scenes[0]? = some (rootOf h i.node) → ∃ w, r = some w ∧ w.meshIndex = i.mesh ∧
      w.materialIndex = i.material) ∧
    (¬ h.scenes[0]? = some (rootOf h i.node) → r = none) := by
  unfold resolveInstance at hr
  unfold rootOf
  cases hn : h.nodes[i.node]? with
  | none => simp [hn] at hr
  | some n =>
    simp only [hn] at hr ⊢
    cases hw : walkToRoot h.nodes (i.node + 1) i.node n.transform with
    | none => simp [hw] at hr
    | some res =>
      obtain ⟨node, transform⟩ := res
      simp only [hw] at hr ⊢
      cases hs : h.scenes[0]? with
      | none => simp [hs] at hr
      | some root =>
        simp only [hs, Option.map_some', Option.some.injEq] at hr ⊢
        by_cases hne : some node ≠ root
        · rw [if_pos hne] at hr
          simp only [Option.some.injEq] at hr
          refine ⟨fun e => absurd e.symm hne, fun _ => hr.symm⟩
        · rw [if_neg hne] at hr
          simp only [Option.some.injEq] at hr
          have hroot : root = some node := by
            by_contra hc
            exact hne (fun e => hc e.symm)
          refine ⟨fun _ => ⟨_, hr.symm, rfl, rfl⟩, fun hc => absurd hroot hc⟩

theorem instanceLoop_spec {M : Type} [Mul M] (h : SceneHeader M) (l : List Instance) :
    ∀ (acc out : List (SceneInstance M)), Scene.instanceLoop h l acc = some out →
      (∀ i ∈ l, ∃ r, resolveInstance h i = some r) ∧
      out = acc ++ l.filterMap (fun i => (resolveInstance h i).join) := by
  induction l with
  | nil =>
    intro acc out hl
    simp only [Scene.instanceLoop, Option.some.injEq] at hl
    simp [hl]
  | cons i l ih =>
    intro acc out hl
    simp only [Scene.instanceLoop] at hl
    cases hr : resolveInstance h i with
    | none => simp [hr] at hl
    | some r =>
      cases r with
      | none =>
        simp only [hr] at hl
        obtain ⟨h1, h2⟩ := ih acc out hl
        refine ⟨?_, ?_⟩
        · intro j hj
          rcases List.mem_cons.mp hj with e | e
          · subst e; exact ⟨_, hr⟩
          · exact h1 j e
        · simp [List.filterMap_cons, hr, h2]
      | some w =>
        simp only [hr] at hl
        obtain ⟨h1, h2⟩ := ih _ out hl
        refine ⟨?_, ?_⟩
        · intro j hj
          rcases List.mem_cons.mp hj with e | e
          · subst e; exact ⟨_, hr⟩
          · exact h1 j e
        · simp [List.filterMap_cons, hr, h2]

theorem kept_filter {M : Type} [Mul M] (h : SceneHeader M) (l : List Instance)
    (hall : ∀ i ∈ l, ∃ r, resolveInstance h i = some r) :
    (l.filterMap (fun i => (resolveInstance h i).join)).map
        (fun w => (w.meshIndex, w.materialIndex)) =
      (l.filter (fun i => decide (h.scenes[0]? = some (rootOf h i.node)))).map
        (fun i => (i.mesh, i.material)) := by
  induction l with
  | nil => simp
  | cons i l ih =>
    obtain ⟨r, hr⟩ := hall i (by simp)
    have ih1 := ih (fun j hj => hall j (by simp [hj]))
    obtain ⟨hk, hd⟩ := resolve_kept_iff h i r hr
    by_cases hc : h.scenes[0]? = some (rootOf h i.node)
    · obtain ⟨w, hw, hm, hmat⟩ := hk hc
      subst hw
      have hdec : decide (h.scenes[0]? = some (rootOf h i.node)) = true := decide_eq_true hc
      have e1 : (resolveInstance h i).join = some w := by rw [hr]; rfl
      rw [List.filterMap_cons, List.filter_cons, if_pos hdec, List.map_cons]
      simp only [e1, List.map_cons, ih1, hm, hmat]
    · have := hd hc
      subst this
      have hdec : ¬ decide (h.scenes[0]? = some (rootOf h i.node)) = true := by
        simpa using hc
      have e1 : (resolveInstance h i).join = none := by rw [hr]; rfl
      rw [List.filterMap_cons, List.filter_cons, if_neg hdec]
      simp only [e1, ih1]

/-! ### World transforms along paths -/

theorem nodeAt_zero {M : Type} (n0 : cgltf_node M) (rest : List (cgltf_node M))
    (path : List Nat) :
    nodeAt (n0 :: rest) (0 :: path) = if path = [] then some n0 else nodeAt n0.children path := by
  cases path with
  | nil => simp [nodeAt]
  | cons k p => simp [nodeAt]

theorem nodeAt_succ {M : Type} (n0 : cgltf_node M) (rest : List (cgltf_node M)) (j : Nat)
    (path : List Nat) : nodeAt (n0 :: rest) ((j + 1) :: path) = nodeAt rest (j :: path) := by
  cases path with
  | nil => simp [nodeAt]
  | cons k p => simp [nodeAt]

theorem nodeAt_ne_nil {M : Type} (f : List (cgltf_node M)) (path : List Nat) (n : cgltf_node M)
    (h : nodeAt f path = some n) : ∃ j p, path = j :: p := by
  cases path with
  | nil => simp [nodeAt] at h
  | cons j p => exact ⟨j, p, rfl⟩

mutual
theorem worldNode_along {M : Type} [Monoid M] (data : cgltf_data M) :
    ∀ (n0 : cgltf_node M) (acc : M) (w : SceneInstance M), w ∈ worldNode data acc n0 →
      ∃ path n, nodeAt [n0] (0 :: path) = some n ∧
        (w.meshIndex, w.materialIndex) ∈ drawablesOf data n ∧
        w.localToWorld = acc * (transformsAlong [n0] (0 :: path)).prod
  | .mk t m cs, acc, w, hw => by
    simp only [worldNode, List.mem_append, List.mem_map] at hw
    rcases hw with hw | ⟨d, hd, rfl⟩
    · obtain ⟨path, n, h1, h2, h3⟩ := worldForest_along data cs (acc * t) w hw
      obtain ⟨j, p, rfl⟩ := nodeAt_ne_nil cs path n h1
      refine ⟨j :: p, n, ?_, h2, ?_⟩
      · rw [nodeAt_zero]; simpa [cgltf_node.children] using h1
      · simp only [transformsAlong, List.getElem?_cons_zero, cgltf_node.transform,
          cgltf_node.children, List.prod_cons] at h3 ⊢
        rw [h3, mul_assoc]
    · refine ⟨[], _, by simp [nodeAt], hd, ?_⟩
      simp [transformsAlong, cgltf_node.transform]
theorem worldForest_along {M : Type} [Monoid M] (data : cgltf_data M) :
    ∀ (f : List (cgltf_node M)) (acc : M) (w : SceneInstance M), w ∈ worldForest data acc f →
      ∃ path n, nodeAt f path = some n ∧
        (w.meshIndex, w.materialIndex) ∈ drawablesOf data n ∧
        w.localToWorld = acc * (transformsAlong f path).prod
  | [], acc, w, hw => by simp [worldForest] at hw
  | n0 :: rest, acc, w, hw => by
    simp only [worldForest, List.mem_append] at hw
    rcases hw with hw | hw
    · obtain ⟨path, n, h1, h2, h3⟩ := worldNode_along data n0 acc w hw
      refine ⟨0 :: path, n, ?_, h2, ?_⟩
      · rw [nodeAt_zero] at h1 ⊢; exact h1
      · simpa [transformsAlong] using h3
    · obtain ⟨path, n, h1, h2, h3⟩ := worldForest_along data rest acc w hw
      obtain ⟨j, p, rfl⟩ := nodeAt_ne_nil rest path n h1
      refine ⟨(j + 1) :: p, n, ?_, h2, ?_⟩
      · rw [nodeAt_succ]; exact h1
      · simpa [transformsAlong] using h3
end

mutual
theorem worldNode_keys {M : Type} [Mul M] (data : cgltf_data M) :
    ∀ (n : cgltf_node M) (acc : M) (o : Nat),
      (worldNode data acc n).map (fun w => (w.meshIndex, w.materialIndex)) =
        ((postorderNode o n).flatMap (instancesOf data)).map (fun i => (i.mesh, i.material))
  | .mk t m cs, acc, o => by
    simp only [worldNode, postorderNode, List.map_append, List.flatMap_append,
      worldForest_keys data cs (acc * t) (o + 1), List.flatMap_cons, List.flatMap_nil,
      List.append_nil, instancesOf, List.map_map]
    rfl
theorem worldForest_keys {M : Type} [Mul M] (data : cgltf_data M) :
    ∀ (f : List (cgltf_node M)) (acc : M) (o : Nat),
      (worldForest data acc f).map (fun w => (w.meshIndex, w.materialIndex)) =
        ((postorderForest o f).flatMap (instancesOf data)).map (fun i => (i.mesh, i.material))
  | [], acc, o => by simp [worldForest, postorderForest]
  | n :: rest, acc, o => by
    simp only [worldForest, postorderForest, List.map_append, List.flatMap_append,
      worldNode_keys data n acc o, worldForest_keys data rest acc (o + nodeSize n)]
end

/-! ### The texture cache -/

theorem firstByKey_append (a b : List (String × String)) :
    ∀ seen : List String,
      firstByKey seen (a ++ b) = firstByKey seen a ++
        firstByKey (seen ++ (firstByKey seen a).map (fun c => textureKey c.1 c.2)) b := by
  induction a with
  | nil => intro seen; simp [firstByKey]
  | cons r a ih =>
    intro seen
    rw [List.cons_append]
    by_cases h : textureKey r.1 r.2 ∈ seen
    · rw [firstByKey, if_pos h, firstByKey, if_pos h, ih]
    · rw [firstByKey, if_neg h, firstByKey, if_neg h, ih, List.map_cons, List.cons_append]
      simp only [List.append_assoc, List.singleton_append]

theorem mapFind_none_iff {α β : Type} [DecidableEq α] (m : List (α × β)) (k : α) :
    mapFind m k = none ↔ k ∉ m.map Prod.fst := by
  induction m with
  | nil => simp [mapFind]
  | cons e m ih =>
    obtain ⟨k0, v0⟩ := e
    by_cases h : k0 = k
    · simp [mapFind, h]
    · have h2 : ¬ k = k0 := fun e => h e.symm
      simp [mapFind, h, h2, ih]

theorem mapFind_mem {α β : Type} [DecidableEq α] (m : List (α × β)) (k : α) (v : β)
    (h : mapFind m k = some v) : k ∈ m.map Prod.fst := by
  by_contra hc
  rw [← mapFind_none_iff] at hc
  rw [hc] at h
  exact Option.noConfusion h

theorem runsTo_refl_none {K : Type} (st : TextureState K) (sw : String) (hinv : CacheInv st) :
    RunsTo st [(none, sw)] [none] st := by
  refine ⟨hinv, rfl, by simp [uriRequests, firstByKey], ?_, fun _ _ h => h⟩
  intro a uri s ha
  cases a with
  | zero => simp at ha
  | succ a => simp at ha

theorem convertTexture_runs {K : Type} (convertToKtx : String → String → Except String K)
    (validateIdentifier : K → Bool) (st st1 : TextureState K)
    (cgltfTexture : Option cgltf_texture) (swizzle : String) (r : Option Nat)
    (hinv : CacheInv st)
    (hrun : convertTexture convertToKtx validateIdentifier st cgltfTexture swizzle =
      .ok (r, st1)) :
    RunsTo st [(textureUri cgltfTexture, swizzle)] [r] st1 := by
  unfold convertTexture at hrun
  unfold textureUri
  cases cgltfTexture with
  | none =>
    simp only [Except.ok.injEq, Prod.mk.injEq] at hrun
    obtain ⟨rfl, rfl⟩ := hrun
    exact runsTo_refl_none st swizzle hinv
  | some texture =>
    simp only at hrun ⊢
    cases himg : texture.image with
    | none =>
      simp only [himg, Except.ok.injEq, Prod.mk.injEq] at hrun
      obtain ⟨rfl, rfl⟩ := hrun
      exact runsTo_refl_none st swizzle hinv
    | some image =>
      simp only [himg] at hrun ⊢
      cases huri : image.uri with
      | none =>
        simp only [huri, Except.ok.injEq, Prod.mk.injEq] at hrun
        obtain ⟨rfl, rfl⟩ := hrun
        exact runsTo_refl_none st swizzle hinv
      | some uri =>
        simp only [huri] at hrun
        cases hfind : mapFind st.textureCache (textureKey uri swizzle) with
        | some e =>
          obtain ⟨idx, k⟩ := e
          simp only [hfind, Except.ok.injEq, Prod.mk.injEq] at hrun
          obtain ⟨rfl, rfl⟩ := hrun
          have hmem : textureKey uri swizzle ∈ cacheKeys st :=
            mapFind_mem _ _ _ hfind
          refine ⟨hinv, rfl, by simp [uriRequests, firstByKey, hmem], ?_, fun _ _ h => h⟩
          intro a u s ha
          cases a with
          | zero =>
            simp only [List.getElem?_cons_zero, Option.some.injEq, Prod.mk.injEq] at ha
            obtain ⟨hu, hs⟩ := ha
            subst hu hs
            exact ⟨idx, k, rfl, hfind⟩
          | succ a => simp at ha
        | none =>
          simp only [hfind] at hrun
          cases henc : convertToKtx uri swizzle with
          | error e => simp [henc] at hrun
          | ok ktx =>
            simp only [henc] at hrun
            by_cases hv : validateIdentifier ktx = true
            · simp only [hv, if_true, Except.ok.injEq, Prod.mk.injEq] at hrun
              obtain ⟨rfl, rfl⟩ := hrun
              have hnot : textureKey uri swizzle ∉ cacheKeys st :=
                (mapFind_none_iff _ _).mp hfind
              refine ⟨⟨?_, ?_⟩, rfl, ?_, ?_, ?_⟩
              · simp only [cacheKeys, List.map_append, List.map_cons, List.map_nil]
                refine List.Nodup.append hinv.1 (List.nodup_singleton _) ?_
                intro x hx hx1
                rw [List.mem_singleton] at hx1
                subst hx1
                exact hnot hx
              · simp only [cacheKeys, List.map_append, List.map_cons, List.map_nil]
                have := hinv.2
                simp only [cacheKeys] at this
                rw [this]
              · simp [uriRequests, firstByKey, hnot]
              · intro a u s ha
                cases a with
                | zero =>
                  simp only [List.getElem?_cons_zero, Option.some.injEq, Prod.mk.injEq] at ha
                  obtain ⟨hu, hs⟩ := ha
                  subst hu hs
                  refine ⟨_, ktx, rfl, ?_⟩
                  rw [mapFind_append, hfind]
                  simp
                | succ a => simp at ha
              · intro key v hkv
                rw [mapFind_append, hkv]
            · simp [hv] at hrun

theorem runsTo_append {K : Type} (st st1 st2 : TextureState K)
    (rs1 rs2 : List (Option String × String)) (res1 res2 : List (Option Nat))
    (hinv : CacheInv st) (h1 : RunsTo st rs1 res1 st1) (h2 : RunsTo st1 rs2 res2 st2) :
    RunsTo st (rs1 ++ rs2) (res1 ++ res2) st2 := by
  obtain ⟨i1, l1, c1, f1, e1⟩ := h1
  obtain ⟨i2, l2, c2, f2, e2⟩ := h2
  have hkeys : cacheKeys st1 = cacheKeys st ++
      (firstByKey (cacheKeys st) (uriRequests rs1)).map (fun c => textureKey c.1 c.2) := by
    rw [i1.2, c1, List.map_append, ← hinv.2]
  refine ⟨i2, by simp [l1, l2], ?_, ?_, fun key v h => e2 key v (e1 key v h)⟩
  · rw [c2, c1, hkeys, List.append_assoc]
    congr 1
    unfold uriRequests
    rw [List.filterMap_append, firstByKey_append]
  · intro a uri sw ha
    by_cases hlt : a < rs1.length
    · rw [List.getElem?_append_left hlt] at ha
      obtain ⟨idx, k, hr, hf⟩ := f1 a uri sw ha
      refine ⟨idx, k, ?_, e2 _ _ hf⟩
      rw [List.getElem?_append_left (by omega)]
      exact hr
    · rw [List.getElem?_append_right (by omega)] at ha
      obtain ⟨idx, k, hr, hf⟩ := f2 (a - rs1.length) uri sw ha
      refine ⟨idx, k, ?_, hf⟩
      rw [List.getElem?_append_right (by omega), l1]
      exact hr

theorem runsTo_nil {K : Type} (st : TextureState K) (hinv : CacheInv st) :
    RunsTo st [] [] st := by
  refine ⟨hinv, rfl, by simp [uriRequests, firstByKey], ?_, fun _ _ h => h⟩
  intro a uri sw ha
  simp at ha

theorem convertGltfMaterial_runs {F K : Type}
    (convertToKtx : String → String → Except String K) (validateIdentifier : K → Bool)
    (material : cgltf_material F) (st st4 : TextureState K) (m : Material F)
    (hinv : CacheInv st)
    (hrun : convertGltfMaterial convertToKtx validateIdentifier material st = .ok (m, st4)) :
    RunsTo st (requestsOf (some material)) (resultsOf (some m)) st4 := by
  unfold convertGltfMaterial at hrun
  cases h1 : convertTexture convertToKtx validateIdentifier st material.base_color_texture ""
    with
  | error e => simp [h1] at hrun
  | ok p1 =>
    obtain ⟨color, st1⟩ := p1
    simp only [h1] at hrun
    cases h2 : convertTexture convertToKtx validateIdentifier st1
        material.metallic_roughness_texture "b" with
    | error e => simp [h2] at hrun
    | ok p2 =>
      obtain ⟨metallic, st2⟩ := p2
      simp only [h2] at hrun
      cases h3 : convertTexture convertToKtx validateIdentifier st2
          material.metallic_roughness_texture "g" with
      | error e => simp [h3] at hrun
      | ok p3 =>
        obtain ⟨roughness, st3⟩ := p3
        simp only [h3] at hrun
        cases h4 : convertTexture convertToKtx validateIdentifier st3
            material.normal_texture "" with
        | error e => simp [h4] at hrun
        | ok p4 =>
          obtain ⟨normal, st5⟩ := p4
          simp only [h4, Except.ok.injEq, Prod.mk.injEq] at hrun
          obtain ⟨rfl, rfl⟩ := hrun
          have r1 := convertTexture_runs _ _ _ _ _ _ _ hinv h1
          have r2 := convertTexture_runs _ _ _ _ _ _ _ r1.1 h2
          have r3 := convertTexture_runs _ _ _ _ _ _ _ r2.1 h3
          have r4 := convertTexture_runs _ _ _ _ _ _ _ r3.1 h4
          have r12 := runsTo_append _ _ _ _ _ _ _ hinv r1 r2
          have r123 := runsTo_append _ _ _ _ _ _ _ hinv r12 r3
          have r1234 := runsTo_append _ _ _ _ _ _ _ hinv r123 r4
          simpa [requestsOf, resultsOf] using r1234

theorem materialLoop_runs {F K : Type}
    (convertToKtx : String → String → Except String K) (validateIdentifier : K → Bool)
    (ms : List (Option (cgltf_material F))) :
    ∀ (st st1 : TextureState K) (out : List (Option (Material F))), CacheInv st →
      materialLoop convertToKtx validateIdentifier ms st = .ok (out, st1) →
      out.length = ms.length ∧
      RunsTo st (ms.flatMap requestsOf) (out.flatMap resultsOf) st1 := by
  induction ms with
  | nil =>
    intro st st1 out hinv hrun
    simp only [materialLoop, Except.ok.injEq, Prod.mk.injEq] at hrun
    obtain ⟨rfl, rfl⟩ := hrun
    exact ⟨rfl, runsTo_nil st hinv⟩
  | cons mo rest ih =>
    intro st st1 out hinv hrun
    cases mo with
    | none =>
      simp only [materialLoop] at hrun
      cases hl : materialLoop convertToKtx validateIdentifier rest st with
      | error e => simp [hl] at hrun
      | ok p =>
        obtain ⟨out1, st2⟩ := p
        simp only [hl, Except.ok.injEq, Prod.mk.injEq] at hrun
        obtain ⟨rfl, rfl⟩ := hrun
        obtain ⟨hlen, hr⟩ := ih st st2 out1 hinv hl
        exact ⟨by simp [hlen], by simpa [requestsOf, resultsOf] using hr⟩
    | some material =>
      simp only [materialLoop] at hrun
      cases hm : convertGltfMaterial convertToKtx validateIdentifier material st with
      | error e => simp [hm] at hrun
      | ok p =>
        obtain ⟨m, st2⟩ := p
        simp only [hm] at hrun
        cases hl : materialLoop convertToKtx validateIdentifier rest st2 with
        | error e => simp [hl] at hrun
        | ok q =>
          obtain ⟨out1, st3⟩ := q
          simp only [hl, Except.ok.injEq, Prod.mk.injEq] at hrun
          obtain ⟨rfl, rfl⟩ := hrun
          have r1 := convertGltfMaterial_runs _ _ _ _ _ _ hinv hm
          obtain ⟨hlen, r2⟩ := ih st2 st3 out1 r1.1 hl
          refine ⟨by simp [hlen], ?_⟩
          have := runsTo_append _ _ _ _ _ _ _ hinv r1 r2
          simpa [List.flatMap_cons] using this

/-! ### Allocation order -/

theorem rootHeader_not_mem_laterAllocations (m k c : Nat) :
    AllocKind.rootHeader ∉ laterAllocations m k c := by
  simp [laterAllocations, List.mem_replicate]

theorem arenaOffsets_first (size align : Nat) (rest : List (Nat × Nat)) :
    (arenaOffsets 0 ((size, align) :: rest)).head? = some 0 := by
  have h0 : (0 + align - 1) / align = 0 := by
    rcases Nat.eq_zero_or_pos align with h0 | h0
    · simp [h0]
    · exact Nat.div_eq_of_lt (by omega)
  simp only [arenaOffsets, arenaAlign, h0, List.head?_cons, Nat.zero_mul]

/-- The two ways a run on a fresh arena ends: before the mesh loop is over, with nothing
allocated, or after it, with the `RootHeader` first and never again. -/
theorem RTRConverted_cases (convertible : ElementType → ElementType → Bool)
    (run : ConvertRun) (trace : List AllocKind) (result : Except String Unit)
    (h : RTRConverted convertible run = some (trace, result)) :
    (trace = [] ∧ (∃ e, result = .error e) ∧
      ¬ (run.gltfFile = .ok () ∧ run.parseResult = .ok () ∧ run.loadBuffers = .ok () ∧
        ∃ meshes, convertMeshes convertible run.primitives = some (.ok meshes))) ∨
    ((run.gltfFile = .ok () ∧ run.parseResult = .ok () ∧ run.loadBuffers = .ok () ∧
        ∃ meshes, convertMeshes convertible run.primitives = some (.ok meshes)) ∧
      ∃ rest, trace = AllocKind.rootHeader :: rest ∧ AllocKind.rootHeader ∉ rest) := by
  unfold RTRConverted convertFromGltfRun at h
  rcases hg : run.gltfFile with e | u
  · rw [hg] at h
    simp only [Option.some.injEq, Prod.mk.injEq] at h
    exact Or.inl ⟨h.1.symm, ⟨e, h.2.symm⟩, by simp⟩
  rcases hp : run.parseResult with e | u
  · rw [hg, hp] at h
    simp only [Option.some.injEq, Prod.mk.injEq] at h
    exact Or.inl ⟨h.1.symm, ⟨e, h.2.symm⟩, by simp⟩
  rcases hl : run.loadBuffers with e | u
  · rw [hg, hp, hl] at h
    simp only [Option.some.injEq, Prod.mk.injEq] at h
    exact Or.inl ⟨h.1.symm, ⟨e, h.2.symm⟩, by simp⟩
  rw [hg, hp, hl] at h
  rcases hm : convertMeshes convertible run.primitives with _ | (e | meshes)
  · rw [hm] at h; simp at h
  · rw [hm] at h
    simp only [Option.some.injEq, Prod.mk.injEq] at h
    exact Or.inl ⟨h.1.symm, ⟨e, h.2.symm⟩, by simp⟩
  · rw [hm] at h
    refine Or.inr ⟨⟨rfl, rfl, rfl, meshes, rfl⟩, ?_⟩
    rcases hf : run.laterFailure with _ | ⟨n, e⟩
    · rw [hf] at h
      simp only [List.nil_append, List.singleton_append, Option.some.injEq,
        Prod.mk.injEq] at h
      exact ⟨_, h.1.symm, rootHeader_not_mem_laterAllocations _ _ _⟩
    · rw [hf] at h
      simp only [List.nil_append, List.singleton_append, Option.some.injEq,
        Prod.mk.injEq] at h
      exact ⟨_, h.1.symm, fun hmem =>
        rootHeader_not_mem_laterAllocations _ _ _ (List.mem_of_mem_take hmem)⟩

/-! ### Normals of `MeshAux` -/

theorem cross_corners {R : Type} [CommRing R] (a b c : R × R × R) :
    cross (c - b) (a - b) = cross (b - a) (c - a) ∧
      cross (a - c) (b - c) = cross (b - a) (c - a) := by
  refine ⟨?_, ?_⟩ <;>
  · simp only [cross, Prod.mk.injEq, Prod.fst_sub, Prod.snd_sub]
    exact ⟨by ring, by ring, by ring⟩

theorem addNormal_spec {R : Type} [CommRing R] (normals : List (R × R × R)) (i : Nat)
    (d : R × R × R) (h : i < normals.length) :
    ∃ normals1, addNormal normals i d = some normals1 ∧
      normals1.length = normals.length ∧
      ∀ j, normals1.getD j 0 = normals.getD j 0 + (if i = j then d else 0) := by
  refine ⟨normals.set i (normals[i] + d), ?_, by simp, ?_⟩
  · simp [addNormal, List.getElem?_eq_getElem h]
  · intro j
    by_cases hij : i = j
    · subst hij
      have hs : (normals.set i (normals[i] + d))[i]? = some (normals[i] + d) := by
        rw [List.getElem?_set_self h]
      simp [List.getD_eq_getElem?_getD, List.getElem?_eq_getElem h, hs]
    · simp [List.getD_eq_getElem?_getD, List.getElem?_set_ne hij, hij]

theorem cornerSum_cons {R : Type} [CommRing R] (vertexPositions : List (R × R × R))
    (tri : Nat × Nat × Nat) (rest : List (Nat × Nat × Nat)) (i : Nat) :
    cornerSum vertexPositions (tri :: rest) i =
      ((if tri.1 = i then
          cross (vertexPositions.getD tri.2.1 0 - vertexPositions.getD tri.1 0)
            (vertexPositions.getD tri.2.2 0 - vertexPositions.getD tri.1 0) else 0) +
        (if tri.2.1 = i then
          cross (vertexPositions.getD tri.2.1 0 - vertexPositions.getD tri.1 0)
            (vertexPositions.getD tri.2.2 0 - vertexPositions.getD tri.1 0) else 0) +
        (if tri.2.2 = i then
          cross (vertexPositions.getD tri.2.1 0 - vertexPositions.getD tri.1 0)
            (vertexPositions.getD tri.2.2 0 - vertexPositions.getD tri.1 0) else 0)) +
      cornerSum vertexPositions rest i := by
  simp only [cornerSum, List.map_cons, List.sum_cons]

/-- The loop over the triangles adds to every vertex the sum over its corners. -/
theorem accumulateNormals_spec {R : Type} [CommRing R] (vertexPositions : List (R × R × R))
    (triangles : List (Nat × Nat × Nat))
    (hin : ∀ tri ∈ triangles, tri.1 < vertexPositions.length ∧
      tri.2.1 < vertexPositions.length ∧ tri.2.2 < vertexPositions.length) :
    ∀ normals : List (R × R × R), normals.length = vertexPositions.length →
      ∃ acc, accumulateNormals vertexPositions triangles normals = some acc ∧
        acc.length = vertexPositions.length ∧
        ∀ i, acc.getD i 0 = normals.getD i 0 + cornerSum vertexPositions triangles i := by
  induction triangles with
  | nil =>
    intro normals hlen
    exact ⟨normals, rfl, hlen, fun i => by simp [cornerSum]⟩
  | cons tri rest ih =>
    intro normals hlen
    obtain ⟨hx, hy, hz⟩ := hin tri (List.mem_cons_self _ _)
    have hrest := fun t ht => hin t (List.mem_cons_of_mem _ ht)
    obtain ⟨n1, h1, hl1, hg1⟩ := addNormal_spec normals tri.1
      (cross (vertexPositions.getD tri.2.1 0 - vertexPositions.getD tri.1 0)
        (vertexPositions.getD tri.2.2 0 - vertexPositions.getD tri.1 0)) (by omega)
    obtain ⟨n2, h2, hl2, hg2⟩ := addNormal_spec n1 tri.2.1
      (cross (vertexPositions.getD tri.2.1 0 - vertexPositions.getD tri.1 0)
        (vertexPositions.getD tri.2.2 0 - vertexPositions.getD tri.1 0)) (by omega)
    obtain ⟨n3, h3, hl3, hg3⟩ := addNormal_spec n2 tri.2.2
      (cross (vertexPositions.getD tri.2.1 0 - vertexPositions.getD tri.1 0)
        (vertexPositions.getD tri.2.2 0 - vertexPositions.getD tri.1 0)) (by omega)
    obtain ⟨acc, ha, hla, hga⟩ := ih hrest n3 (by omega)
    refine ⟨acc, ?_, hla, ?_⟩
    · have ea : vertexPositions[tri.1]? = some (vertexPositions.getD tri.1 0) := by
        simp [List.getD_eq_getElem?_getD, List.getElem?_eq_getElem hx]
      have eb : vertexPositions[tri.2.1]? = some (vertexPositions.getD tri.2.1 0) := by
        simp [List.getD_eq_getElem?_getD, List.getElem?_eq_getElem hy]
      have ec : vertexPositions[tri.2.2]? = some (vertexPositions.getD tri.2.2 0) := by
        simp [List.getD_eq_getElem?_getD, List.getElem?_eq_getElem hz]
      rw [accumulateNormals, ea, eb, ec]
      simp only []
      rw [h1]
      simp only []
      rw [(cross_corners _ _ _).1, h2]
      simp only []
      rw [(cross_corners _ _ _).2, h3]
      exact ha
    · intro i
      rw [hga i, hg3 i, hg2 i, hg1 i, cornerSum_cons]
      simp only [add_assoc]

/-! ### Accessor conversion -/

theorem cgltf_type_traits_inv_traits (T : ElementType) :
    cgltf_type_traits_inv T.component_type T.type = some T := by
  cases T <;> rfl

theorem cgltf_type_traits_inv_some (component_type : cgltf_component_type)
    (type : cgltf_type) (S : ElementType)
    (h : cgltf_type_traits_inv component_type type = some S) :
    S.component_type = component_type ∧ S.type = type := by
  cases component_type <;> cases type <;> simp [cgltf_type_traits_inv] at h <;>
    subst h <;> exact ⟨rfl, rfl⟩

/-- The slow path of `convert` amounts to `convertCTT` at the accessor's own pair, after the
two checks for invalid enumerators. -/
theorem convert_slow (convertible : ElementType → ElementType → Bool) (T U : ElementType)
    (accessor : cgltf_accessor)
    (hslow : ¬ (T.component_type = accessor.component_type ∧ T.type = accessor.type ∧
      accessor.tight T = true)) :
    convert convertible T U accessor =
      if accessor.component_type = .invalid then
        .error "Invalid cgltf accessor component_type"
      else if accessor.type = .invalid then .error "Invalid cgltf accessor type"
      else
        match convertCTT convertible accessor.component_type accessor.type T with
        | .error e => .error e
        | .ok () => .ok ⟨.temporary, (accessor.count * T.sizeof) / U.sizeof⟩ := by
  unfold convert
  rw [if_neg hslow]
  rcases accessor with ⟨ct, ty, o, c, s, bo, bs⟩
  cases ct <;> cases ty <;> simp [convertCT]

/-! ### The mesh loop -/

theorem convertAttribute_texcoord (convertible : ElementType → ElementType → Bool)
    (mesh mesh1 : MeshSpans) (attrib : cgltf_attribute)
    (h : convertAttribute convertible mesh attrib = some (.ok mesh1))
    (hty : attrib.type ≠ .texcoord) :
    mesh1.vertexTexCoords0 = mesh.vertexTexCoords0 := by
  unfold convertAttribute at h
  rcases attrib with ⟨ty, data⟩
  cases ty <;> first
    | exact absurd rfl hty
    | (simp only [Option.some.injEq, Except.ok.injEq] at h; rw [← h])
    | (cases data with
        | none => simp at h
        | some d =>
          simp only [] at h
          split at h
          · simp at h
          · simp only [Option.some.injEq, Except.ok.injEq] at h
            rw [← h])

theorem convertAttributes_texcoord (convertible : ElementType → ElementType → Bool)
    (attributes : List cgltf_attribute) :
    ∀ (mesh mesh1 : MeshSpans),
      convertAttributes convertible attributes mesh = some (.ok mesh1) →
      (∀ a ∈ attributes, a.type ≠ .texcoord) →
      mesh1.vertexTexCoords0 = mesh.vertexTexCoords0 := by
  induction attributes with
  | nil =>
    intro mesh mesh1 h _
    simp only [convertAttributes, Option.some.injEq, Except.ok.injEq] at h
    rw [h]
  | cons attrib rest ih =>
    intro mesh mesh1 h hno
    rw [convertAttributes] at h
    rcases hc : convertAttribute convertible mesh attrib with _ | (e | m)
    · rw [hc] at h; simp at h
    · rw [hc] at h; simp at h
    · rw [hc] at h
      simp only [] at h
      rw [ih m mesh1 h (fun a ha => hno a (List.mem_cons_of_mem _ ha)),
        convertAttribute_texcoord convertible mesh m attrib hc
          (hno attrib (List.mem_cons_self _ _))]

theorem convertPrimitive_texcoord (convertible : ElementType → ElementType → Bool)
    (primitive : cgltf_primitive_accessors) (mesh : MeshSpans)
    (h : convertPrimitive convertible primitive = some (.ok mesh))
    (hno : ∀ a ∈ primitive.attributes, a.type ≠ .texcoord) :
    mesh.vertexTexCoords0 = ⟨.empty, 0⟩ := by
  unfold convertPrimitive at h
  rcases hi : primitive.indices with _ | indices
  · rw [hi] at h; simp at h
  · rw [hi] at h
    simp only [] at h
    rcases hc : convert convertible .uint32 .uvec3 indices with e | s
    · rw [hc] at h; simp at h
    · rw [hc] at h
      simp only [] at h
      rw [convertAttributes_texcoord convertible _ _ _ h hno]
      rfl

theorem convertMeshes_get (convertible : ElementType → ElementType → Bool)
    (primitives : List cgltf_primitive_accessors) :
    ∀ meshes, convertMeshes convertible primitives = some (.ok meshes) →
      meshes.length = primitives.length ∧
      ∀ (i : Nat) (p : cgltf_primitive_accessors), primitives[i]? = some p →
        ∃ m, meshes[i]? = some m ∧ convertPrimitive convertible p = some (.ok m) := by
  induction primitives with
  | nil =>
    intro meshes h
    simp only [convertMeshes, Option.some.injEq, Except.ok.injEq] at h
    subst h
    exact ⟨rfl, fun i p hp => by simp at hp⟩
  | cons primitive rest ih =>
    intro meshes h
    rw [convertMeshes] at h
    rcases hc : convertPrimitive convertible primitive with _ | (e | m)
    · rw [hc] at h; simp at h
    · rw [hc] at h; simp at h
    · rw [hc] at h
      simp only [] at h
      rcases hr : convertMeshes convertible rest with _ | (e | ms)
      · rw [hr] at h; simp at h
      · rw [hr] at h; simp at h
      · rw [hr] at h
        simp only [Option.some.injEq, Except.ok.injEq] at h
        subst h
        obtain ⟨hl, hg⟩ := ih ms hr
        refine ⟨by simp [hl], ?_⟩
        intro i p hp
        cases i with
        | zero =>
          simp only [List.getElem?_cons_zero, Option.some.injEq] at hp
          subst hp
          exact ⟨m, List.getElem?_cons_zero, hc⟩
        | succ j =>
          simp only [List.getElem?_cons_succ] at hp ⊢
          exact hg j p hp

/-! ### Texture indices -/

theorem textureKey_injective (uri1 uri2 sw1 sw2 : String)
    (h1 : sw1 = "" ∨ sw1 = "b" ∨ sw1 = "g") (h2 : sw2 = "" ∨ sw2 = "b" ∨ sw2 = "g")
    (h : textureKey uri1 sw1 = textureKey uri2 sw2) : uri1 = uri2 ∧ sw1 = sw2 := by
  have hd : (uri1.data ++ [':']) ++ sw1.data = (uri2.data ++ [':']) ++ sw2.data := by
    have := congrArg String.data h
    simpa [textureKey] using this
  have hr := congrArg List.reverse hd
  simp only [List.reverse_append, List.reverse_cons, List.reverse_nil, List.nil_append,
    List.singleton_append] at hr
  rcases h1 with rfl | rfl | rfl <;> rcases h2 with rfl | rfl | rfl <;>
    simp at hr
  all_goals
    refine ⟨String.ext ?_, rfl⟩
    simpa using hr

theorem cacheIndexed_nil {K : Type} : CacheIndexed (⟨[], []⟩ : TextureState K) := by
  simp [CacheIndexed]

theorem cacheIndexed_push {K : Type} (st : TextureState K) (key : String) (ktx : K)
    (calls : List (String × String)) (h : CacheIndexed st) :
    CacheIndexed ⟨st.textureCache ++ [(key, (u32 (st.textureCache.length : Int), ktx))],
      calls⟩ := by
  unfold CacheIndexed at h ⊢
  simp only [List.map_append, List.map_cons, List.map_nil, List.length_append,
    List.length_singleton, List.range_succ, h]

/-- A texture request leaves the cache as it is or appends one entry holding the 32-bit cast
of the cache size; without an image URI it yields no index. -/
theorem convertTexture_state {K : Type} (convertToKtx : String → String → Except String K)
    (validateIdentifier : K → Bool) (st st1 : TextureState K)
    (cgltfTexture : Option cgltf_texture) (swizzle : String) (r : Option Nat)
    (hrun : convertTexture convertToKtx validateIdentifier st cgltfTexture swizzle =
      .ok (r, st1)) :
    (st1 = st ∨ ∃ key ktx calls,
      st1 = ⟨st.textureCache ++ [(key, (u32 (st.textureCache.length : Int), ktx))], calls⟩) ∧
    (textureUri cgltfTexture = none → r = none) := by
  unfold convertTexture at hrun
  unfold textureUri
  cases cgltfTexture with
  | none =>
    simp only [Except.ok.injEq, Prod.mk.injEq] at hrun
    exact ⟨Or.inl hrun.2.symm, fun _ => hrun.1.symm⟩
  | some texture =>
    simp only at hrun ⊢
    cases himg : texture.image with
    | none =>
      simp only [himg, Except.ok.injEq, Prod.mk.injEq] at hrun
      exact ⟨Or.inl hrun.2.symm, fun _ => hrun.1.symm⟩
    | some image =>
      simp only [himg] at hrun ⊢
      cases huri : image.uri with
      | none =>
        simp only [huri, Except.ok.injEq, Prod.mk.injEq] at hrun
        exact ⟨Or.inl hrun.2.symm, fun _ => hrun.1.symm⟩
      | some uri =>
        simp only [huri] at hrun
        refine ⟨?_, fun h => by cases h⟩
        cases hfind : mapFind st.textureCache (textureKey uri swizzle) with
        | some e =>
          obtain ⟨idx, k⟩ := e
          simp only [hfind, Except.ok.injEq, Prod.mk.injEq] at hrun
          exact Or.inl hrun.2.symm
        | none =>
          simp only [hfind] at hrun
          cases henc : convertToKtx uri swizzle with
          | error e => simp [henc] at hrun
          | ok ktx =>
            simp only [henc] at hrun
            by_cases hv : validateIdentifier ktx = true
            · simp only [hv, if_true, Except.ok.injEq, Prod.mk.injEq] at hrun
              exact Or.inr ⟨_, _, _, hrun.2.symm⟩
            · simp [hv] at hrun

theorem convertTexture_indexed {K : Type} (convertToKtx : String → String → Except String K)
    (validateIdentifier : K → Bool) (st st1 : TextureState K)
    (cgltfTexture : Option cgltf_texture) (swizzle : String) (r : Option Nat)
    (hrun : convertTexture convertToKtx validateIdentifier st cgltfTexture swizzle =
      .ok (r, st1)) (h : CacheIndexed st) : CacheIndexed st1 := by
  rcases (convertTexture_state _ _ _ _ _ _ _ hrun).1 with rfl | ⟨key, ktx, calls, rfl⟩
  · exact h
  · exact cacheIndexed_push st key ktx calls h

/-- A material conversion keeps the cache indexed; a request without an image URI gets no
index. -/
theorem convertGltfMaterial_indexed {F K : Type}
    (convertToKtx : String → String → Except String K) (validateIdentifier : K → Bool)
    (material : cgltf_material F) (st st4 : TextureState K) (m : Material F)
    (hrun : convertGltfMaterial convertToKtx validateIdentifier material st = .ok (m, st4))
    (h : CacheIndexed st) :
    CacheIndexed st4 ∧
      List.Forall₂ (fun (rq : Option String × String) (rs : Option Nat) =>
        rq.1 = none → rs = none) (requestsOf (some material)) (resultsOf (some m)) := by
  unfold convertGltfMaterial at hrun
  cases h1 : convertTexture convertToKtx validateIdentifier st material.base_color_texture ""
    with
  | error e => simp [h1] at hrun
  | ok p1 =>
    obtain ⟨color, st1⟩ := p1
    simp only [h1] at hrun
    cases h2 : convertTexture convertToKtx validateIdentifier st1
        material.metallic_roughness_texture "b" with
    | error e => simp [h2] at hrun
    | ok p2 =>
      obtain ⟨metallic, st2⟩ := p2
      simp only [h2] at hrun
      cases h3 : convertTexture convertToKtx validateIdentifier st2
          material.metallic_roughness_texture "g" with
      | error e => simp [h3] at hrun
      | ok p3 =>
        obtain ⟨roughness, st3⟩ := p3
        simp only [h3] at hrun
        cases h4 : convertTexture convertToKtx validateIdentifier st3
            material.normal_texture "" with
        | error e => simp [h4] at hrun
        | ok p4 =>
          obtain ⟨normal, st5⟩ := p4
          simp only [h4, Except.ok.injEq, Prod.mk.injEq] at hrun
          obtain ⟨rfl, rfl⟩ := hrun
          have i1 := convertTexture_indexed _ _ _ _ _ _ _ h1 h
          have i2 := convertTexture_indexed _ _ _ _ _ _ _ h2 i1
          have i3 := convertTexture_indexed _ _ _ _ _ _ _ h3 i2
          have i4 := convertTexture_indexed _ _ _ _ _ _ _ h4 i3
          refine ⟨i4, ?_⟩
          simp only [requestsOf, resultsOf, List.forall₂_cons, List.Forall₂.nil, and_true]
          exact ⟨(convertTexture_state _ _ _ _ _ _ _ h1).2,
            (convertTexture_state _ _ _ _ _ _ _ h2).2,
            (convertTexture_state _ _ _ _ _ _ _ h3).2,
            (convertTexture_state _ _ _ _ _ _ _ h4).2⟩

theorem materialLoop_indexed {F K : Type}
    (convertToKtx : String → String → Except String K) (validateIdentifier : K → Bool)
    (ms : List (Option (cgltf_material F))) :
    ∀ (st st1 : TextureState K) (out : List (Option (Material F))), CacheIndexed st →
      materialLoop convertToKtx validateIdentifier ms st = .ok (out, st1) →
      CacheIndexed st1 ∧
        List.Forall₂ (fun (rq : Option String × String) (rs : Option Nat) =>
          rq.1 = none → rs = none) (ms.flatMap requestsOf) (out.flatMap resultsOf) := by
  induction ms with
  | nil =>
    intro st st1 out hinv hrun
    simp only [materialLoop, Except.ok.injEq, Prod.mk.injEq] at hrun
    obtain ⟨rfl, rfl⟩ := hrun
    exact ⟨hinv, by simp⟩
  | cons mo rest ih =>
    intro st st1 out hinv hrun
    cases mo with
    | none =>
      simp only [materialLoop] at hrun
      cases hl : materialLoop convertToKtx validateIdentifier rest st with
      | error e => simp [hl] at hrun
      | ok p =>
        obtain ⟨out1, st2⟩ := p
        simp only [hl, Except.ok.injEq, Prod.mk.injEq] at hrun
        obtain ⟨rfl, rfl⟩ := hrun
        obtain ⟨hi, hr⟩ := ih st st2 out1 hinv hl
        exact ⟨hi, by simpa [requestsOf, resultsOf] using hr⟩
    | some material =>
      simp only [materialLoop] at hrun
      cases hm : convertGltfMaterial convertToKtx validateIdentifier material st with
      | error e => simp [hm] at hrun
      | ok p =>
        obtain ⟨m, st2⟩ := p
        simp only [hm] at hrun
        cases hl : materialLoop convertToKtx validateIdentifier rest st2 with
        | error e => simp [hl] at hrun
        | ok q =>
          obtain ⟨out1, st3⟩ := q
          simp only [hl, Except.ok.injEq, Prod.mk.injEq] at hrun
          obtain ⟨rfl, rfl⟩ := hrun
          obtain ⟨i1, r1⟩ := convertGltfMaterial_indexed _ _ _ _ _ _ hm hinv
          obtain ⟨i2, r2⟩ := ih st2 st3 out1 i1 hl
          refine ⟨i2, ?_⟩
          simp only [List.flatMap_cons]
          exact List.rel_append r1 r2

theorem mapFind_getElem {α β : Type} [DecidableEq α] (m : List (α × β)) (k : α) (v : β)
    (h : mapFind m k = some v) : ∃ i : Nat, m[i]? = some (k, v) := by
  induction m with
  | nil => simp [mapFind] at h
  | cons e m ih =>
    obtain ⟨k0, v0⟩ := e
    by_cases hk : k0 = k
    · simp only [mapFind, hk, if_true, Option.some.injEq] at h
      exact ⟨0, by simp [hk, h]⟩
    · simp only [mapFind, hk, if_false] at h
      obtain ⟨i, hi⟩ := ih h
      exact ⟨i + 1, by simpa using hi⟩

theorem firstByKey_mem (rs : List (String × String)) :
    ∀ (seen : List String) (key : String),
      key ∈ (firstByKey seen rs).map (fun r => textureKey r.1 r.2) ↔
        key ∈ rs.map (fun r => textureKey r.1 r.2) ∧ key ∉ seen := by
  induction rs with
  | nil => intro seen key; simp [firstByKey]
  | cons r rest ih =>
    intro seen key
    by_cases hr : textureKey r.1 r.2 ∈ seen
    · rw [firstByKey, if_pos hr, ih]
      simp only [List.map_cons, List.mem_cons]
      constructor
      · rintro ⟨h1, h2⟩; exact ⟨Or.inr h1, h2⟩
      · rintro ⟨h1 | h1, h2⟩
        · rw [h1] at h2; exact absurd hr h2
        · exact ⟨h1, h2⟩
    · rw [firstByKey, if_neg hr]
      simp only [List.map_cons, List.mem_cons, ih, List.mem_append, List.mem_singleton,
        not_or]
      constructor
      · rintro (h1 | ⟨h1, h2, _⟩)
        · rw [h1]; exact ⟨Or.inl rfl, hr⟩
        · exact ⟨Or.inr h1, h2⟩
      · rintro ⟨h1 | h1, h2⟩
        · exact Or.inl h1
        · by_cases hk : key = textureKey r.1 r.2
          · exact Or.inl hk
          · exact Or.inr ⟨h1, h2, hk, by simp⟩

/-- Stores at distinct slots inside the array: every entry ends up in its slot and the other
slots keep their content. -/
theorem writeTextures_spec {K : Type} (entries : List (String × (Nat × K))) :
    ∀ (textures : List K), (entries.map (fun e => e.2.1)).Nodup →
      (∀ e ∈ entries, e.2.1 < textures.length) →
      ∃ result, writeTextures entries textures = some result ∧
        result.length = textures.length ∧
        (∀ e ∈ entries, result[e.2.1]? = some e.2.2) ∧
        (∀ j, j ∉ entries.map (fun e => e.2.1) → result[j]? = textures[j]?) := by
  induction entries with
  | nil =>
    intro textures _ _
    exact ⟨textures, rfl, rfl, fun e he => by simp at he, fun _ _ => rfl⟩
  | cons e rest ih =>
    intro textures hnd hlt
    obtain ⟨key, idx, tex⟩ := e
    simp only [List.map_cons, List.nodup_cons] at hnd
    have hidx : idx < textures.length := hlt (key, idx, tex) (List.mem_cons_self _ _)
    obtain ⟨result, hw, hl, hin, hout⟩ := ih (textures.set idx tex) hnd.2
      (fun e he => by
        rw [List.length_set]
        exact hlt e (List.mem_cons_of_mem _ he))
    refine ⟨result, ?_, by rw [hl, List.length_set], ?_, ?_⟩
    · rw [writeTextures, if_pos hidx]
      exact hw
    · intro e he
      rcases List.mem_cons.mp he with rfl | he
      · rw [hout idx hnd.1, List.getElem?_set_self hidx]
      · exact hin e he
    · intro j hj
      simp only [List.map_cons, List.mem_cons, not_or] at hj
      rw [hout j hj.2, List.getElem?_set_ne (fun h => hj.1 h.symm)]

theorem cacheIndexed_getElem {K : Type} (st : TextureState K) (h : CacheIndexed st)
    (hsize : st.textureCache.length ≤ 4294967296) (i : Nat) (e : String × (Nat × K))
    (he : st.textureCache[i]? = some e) : e.2.1 = i := by
  have hi : i < st.textureCache.length := by
    by_contra hc
    rw [List.getElem?_eq_none (by omega)] at he
    cases he
  have h1 := congrArg (fun l => l[i]?) h
  simp only [List.getElem?_map, he, Option.map_some', List.getElem?_range hi] at h1
  simp only [Option.some.injEq] at h1
  rw [h1]
  exact u32_of_lt (by omega)

theorem cacheInv_nil {K : Type} : CacheInv (⟨[], []⟩ : TextureState K) := by
  simp [CacheInv, cacheKeys]

theorem requestsOf_swizzle {F : Type} (ms : List (Option (cgltf_material F)))
    (r : Option String × String) (h : r ∈ ms.flatMap requestsOf) :
    r.2 = "" ∨ r.2 = "b" ∨ r.2 = "g" := by
  rw [List.mem_flatMap] at h
  obtain ⟨m, _, hr⟩ := h
  cases m with
  | none => simp [requestsOf] at hr
  | some m =>
    simp only [requestsOf, List.mem_cons, List.mem_singleton, List.not_mem_nil,
      or_false] at hr
    rcases hr with rfl | rfl | rfl | rfl <;> simp

/-- After a run from the empty cache that stays within 32 bits, a key found in the cache
sits at the position its index names. -/
theorem mapFind_position {K : Type} (st : TextureState K) (h : CacheIndexed st)
    (hsize : st.textureCache.length ≤ 4294967296) (key : String) (idx : Nat) (k : K)
    (hf : mapFind st.textureCache key = some (idx, k)) :
    st.textureCache[idx]? = some (key, (idx, k)) := by
  obtain ⟨i, hi⟩ := mapFind_getElem _ _ _ hf
  have := cacheIndexed_getElem st h hsize i _ hi
  simp only at this
  subst this
  exact hi

/-! ### Material indices -/

theorem indexPrimitives_materialIndices (mi : Nat) (prims : List cgltf_primitive) :
    ∀ (pi : Nat) (st : IndexState),
      (indexPrimitives mi prims pi st).materialIndices =
        emplaceAll (prims.map (fun p => p.material)) st.materialIndices := by
  induction prims with
  | nil => intro pi st; rfl
  | cons p rest ih =>
    intro pi st
    rw [indexPrimitives, ih]
    rfl

theorem emplaceAll_append {α : Type} [DecidableEq α] (a b : List α) (m : List (α × Nat)) :
    emplaceAll (a ++ b) m = emplaceAll b (emplaceAll a m) := by
  simp [emplaceAll, List.foldl_append]

theorem indexMeshes_materialIndices (meshes : List cgltf_mesh) :
    ∀ (mi : Nat) (st : IndexState),
      (indexMeshes meshes mi st).materialIndices =
        emplaceAll (primitiveMaterials meshes) st.materialIndices := by
  induction meshes with
  | nil => intro mi st; rfl
  | cons mesh rest ih =>
    intro mi st
    rw [indexMeshes, ih, indexPrimitives_materialIndices]
    simp only [primitiveMaterials, List.flatMap_cons]
    rw [emplaceAll_append]

theorem denseMap_step {α : Type} [DecidableEq α] (m : List (α × Nat)) (seen : List α)
    (k : α) (h : DenseMap m seen) : DenseMap (tryEmplace m k m.length) (seen ++ [k]) := by
  obtain ⟨hnd, hmem, hval⟩ := h
  unfold tryEmplace
  cases hk : mapFind m k with
  | some v =>
    simp only
    have hin : k ∈ seen := (hmem k).mp (mapFind_mem _ _ _ hk)
    refine ⟨hnd, fun k1 => ?_, hval⟩
    rw [hmem, List.mem_append, List.mem_singleton]
    constructor
    · exact Or.inl
    · rintro (h1 | h1)
      · exact h1
      · rw [h1]; exact hin
  | none =>
    simp only
    have hnot : k ∉ m.map Prod.fst := (mapFind_none_iff _ _).mp hk
    refine ⟨?_, fun k1 => ?_, ?_⟩
    · rw [List.map_append, List.map_cons, List.map_nil]
      refine List.Nodup.append hnd (List.nodup_singleton _) ?_
      intro x hx hx1
      rw [List.mem_singleton] at hx1
      subst hx1
      exact hnot hx
    · simp only [List.map_append, List.map_cons, List.map_nil, List.mem_append,
        List.mem_singleton, hmem]
    · simp only [List.map_append, List.map_cons, List.map_nil, List.length_append,
        List.length_singleton, List.range_succ, hval]

theorem denseMap_emplaceAll {α : Type} [DecidableEq α] (keys : List α) :
    ∀ (m : List (α × Nat)) (seen : List α), DenseMap m seen →
      DenseMap (emplaceAll keys m) (seen ++ keys) := by
  induction keys with
  | nil => intro m seen h; simpa [emplaceAll] using h
  | cons k rest ih =>
    intro m seen h
    have := ih _ _ (denseMap_step m seen k h)
    simpa [emplaceAll, List.append_assoc] using this

theorem denseMap_nil {α : Type} [DecidableEq α] : DenseMap ([] : List (α × Nat)) [] := by
  simp [DenseMap]

theorem denseMap_length {α : Type} [DecidableEq α] (m : List (α × Nat)) (seen : List α)
    (h : DenseMap m seen) : m.length = seen.dedup.length := by
  have hp : (m.map Prod.fst).Perm seen.dedup :=
    (List.perm_ext_iff_of_nodup h.1 (List.nodup_dedup _)).mpr
      (fun k => by rw [h.2.1, List.mem_dedup])
  simpa using hp.length_eq

theorem denseMap_lt {α : Type} [DecidableEq α] (m : List (α × Nat)) (seen : List α)
    (h : DenseMap m seen) (k : α) (v : Nat) (hf : mapFind m k = some v) : v < m.length := by
  obtain ⟨i, hi⟩ := mapFind_getElem _ _ _ hf
  have hmem : v ∈ m.map Prod.snd :=
    List.mem_map.mpr ⟨(k, v), List.getElem?_mem hi, rfl⟩
  rw [h.2.2] at hmem
  simpa using hmem

theorem emplaceAll_stable {α : Type} [DecidableEq α] (keys : List α) :
    ∀ (m : List (α × Nat)) (k : α) (v : Nat), mapFind m k = some v →
      mapFind (emplaceAll keys m) k = some v := by
  induction keys with
  | nil => intro m k v h; simpa [emplaceAll] using h
  | cons k0 rest ih =>
    intro m k v h
    have hstep : mapFind (tryEmplace m k0 m.length) k = some v := by
      unfold tryEmplace
      cases hk : mapFind m k0 with
      | some x => simpa using h
      | none =>
        simp only
        rw [mapFind_append, h]
    have := ih _ k v hstep
    simpa [emplaceAll] using this

/-- A key met for the first time after the keys `p` gets the number of distinct keys in
`p`. -/
theorem emplaceAll_first {α : Type} [DecidableEq α] (p rest : List α) (k : α)
    (hk : k ∉ p) : mapFind (emplaceAll (p ++ k :: rest) []) k = some p.dedup.length := by
  have hp := denseMap_emplaceAll p [] [] denseMap_nil
  rw [List.nil_append] at hp
  have hnone : mapFind (emplaceAll p []) k = none :=
    (mapFind_none_iff _ _).mpr (fun h => hk ((hp.2.1 k).mp h))
  rw [emplaceAll_append]
  have htry : tryEmplace (emplaceAll p []) k (emplaceAll p []).length =
      emplaceAll p [] ++ [(k, (emplaceAll p []).length)] := by
    unfold tryEmplace
    rw [hnone]
  have hstep : emplaceAll (k :: rest) (emplaceAll p []) =
      emplaceAll rest (tryEmplace (emplaceAll p []) k (emplaceAll p []).length) := rfl
  rw [hstep, htry]
  apply emplaceAll_stable
  rw [mapFind_append, hnone, ← denseMap_length _ _ hp]
  simp [mapFind]

theorem buildIndices_dense {M : Type} (data : cgltf_data M) :
    (buildIndices data).materialIndices = emplaceAll (primitiveMaterials data.meshes) [] ∧
      DenseMap (buildIndices data).materialIndices (primitiveMaterials data.meshes) := by
  have h : (buildIndices data).materialIndices =
      emplaceAll (primitiveMaterials data.meshes) [] :=
    indexMeshes_materialIndices data.meshes 0 ⟨[], [], 0⟩
  refine ⟨h, ?_⟩
  rw [h]
  simpa using denseMap_emplaceAll (primitiveMaterials data.meshes) [] [] denseMap_nil

theorem buildIndices_referenced {M : Type} (data : cgltf_data M) (k : Option Nat)
    (hk : k ∈ primitiveMaterials data.meshes) :
    ∃ v, mapFind (buildIndices data).materialIndices k = some v ∧
      v < (buildIndices data).materialIndices.length := by
  have hd := (buildIndices_dense data).2
  cases hf : mapFind (buildIndices data).materialIndices k with
  | none =>
    exact absurd ((hd.2.1 k).mpr hk) ((mapFind_none_iff _ _).mp hf)
  | some v => exact ⟨v, rfl, denseMap_lt _ _ hd k v hf⟩

theorem drawablesOf_material_lt {M : Type} (data : cgltf_data M) (n : cgltf_node M)
    (d : Nat × Nat) (hd : d ∈ drawablesOf data n) :
    d.2 < (buildIndices data).materialIndices.length := by
  unfold drawablesOf at hd
  cases hm : n.mesh with
  | none => simp [hm] at hd
  | some mi =>
    simp only [hm] at hd
    cases hg : data.meshes[mi]? with
    | none => simp [hg] at hd
    | some mesh =>
      simp only [hg, List.mem_map] at hd
      obtain ⟨q, hq, rfl⟩ := hd
      have hq2 : q.2 ∈ mesh.primitives := by
        obtain ⟨i, x⟩ := q
        obtain ⟨hlt, hx⟩ := List.mem_enum hq
        simp only at hx ⊢
        rw [hx]
        exact List.getElem_mem hlt
      have hk : q.2.material ∈ primitiveMaterials data.meshes := by
        simp only [primitiveMaterials, List.mem_flatMap, List.mem_map]
        exact ⟨mesh, List.getElem?_mem hg, q.2, hq2, rfl⟩
      obtain ⟨v, hv, hlt⟩ := buildIndices_referenced data _ hk
      simp only [mapIndex, hv, Option.getD_some]
      exact hlt

theorem convertGltfMaterial_factors {F K : Type}
    (convertToKtx : String → String → Except String K) (validateIdentifier : K → Bool)
    (material : cgltf_material F) (st st4 : TextureState K) (m : Material F)
    (hrun : convertGltfMaterial convertToKtx validateIdentifier material st = .ok (m, st4)) :
    m.factors = material.factors := by
  unfold convertGltfMaterial at hrun
  split at hrun
  · cases hrun
  · split at hrun
    · cases hrun
    · split at hrun
      · cases hrun
      · split at hrun
        · cases hrun
        · simp only [Except.ok.injEq, Prod.mk.injEq] at hrun
          rw [← hrun.1]

/-- The stores of the material loop at distinct slots: the slot of the null material holds
the default material, the slot of a material holds a conversion of it, the array keeps its
length and its other slots. -/
theorem convertMaterials_spec {F K : Type}
    (convertToKtx : String → String → Except String K) (validateIdentifier : K → Bool)
    (materials : List (cgltf_material F)) (order : List (Option Nat × Nat)) :
    ∀ (array array1 : List (Option (Material F))) (st st1 : TextureState K),
      (order.map Prod.snd).Nodup →
      convertMaterials convertToKtx validateIdentifier materials order array st =
        some (.ok (array1, st1)) →
      array1.length = array.length ∧
      (∀ i, (none, i) ∈ order → array1[i]? = some none) ∧
      (∀ p i, (some p, i) ∈ order → ∃ c m, materials[p]? = some c ∧
        array1[i]? = some (some m) ∧ m.factors = c.factors) ∧
      (∀ j, j ∉ order.map Prod.snd → array1[j]? = array[j]?) := by
  induction order with
  | nil =>
    intro array array1 st st1 _ h
    simp only [convertMaterials, Option.some.injEq, Except.ok.injEq, Prod.mk.injEq] at h
    obtain ⟨rfl, rfl⟩ := h
    exact ⟨rfl, fun i hi => by simp at hi, fun p i hi => by simp at hi, fun _ _ => rfl⟩
  | cons e rest ih =>
    intro array array1 st st1 hnd h
    obtain ⟨ptr, idx⟩ := e
    simp only [List.map_cons, List.nodup_cons] at hnd
    cases ptr with
    | none =>
      rw [convertMaterials] at h
      by_cases hidx : idx < array.length
      · rw [if_pos hidx] at h
        obtain ⟨hl, hnone, hsome, hout⟩ := ih _ _ _ _ hnd.2 h
        refine ⟨by rw [hl, List.length_set], ?_, ?_, ?_⟩
        · intro i hi
          rcases List.mem_cons.mp hi with heq | hi
          · simp only [Prod.mk.injEq, true_and] at heq
            subst heq
            rw [hout i hnd.1, List.getElem?_set_self hidx]
          · exact hnone i hi
        · intro p i hi
          rcases List.mem_cons.mp hi with heq | hi
          · simp at heq
          · exact hsome p i hi
        · intro j hj
          simp only [List.map_cons, List.mem_cons, not_or] at hj
          rw [hout j hj.2, List.getElem?_set_ne (fun h => hj.1 h.symm)]
      · rw [if_neg hidx] at h
        cases h
    | some pointer =>
      rw [convertMaterials] at h
      cases hc : materials[pointer]? with
      | none => rw [hc] at h; cases h
      | some c =>
        rw [hc] at h
        simp only at h
        cases hm : convertGltfMaterial convertToKtx validateIdentifier c st with
        | error e => rw [hm] at h; cases h
        | ok r =>
          obtain ⟨m, st2⟩ := r
          rw [hm] at h
          simp only at h
          by_cases hidx : idx < array.length
          · rw [if_pos hidx] at h
            obtain ⟨hl, hnone, hsome, hout⟩ := ih _ _ _ _ hnd.2 h
            refine ⟨by rw [hl, List.length_set], ?_, ?_, ?_⟩
            · intro i hi
              rcases List.mem_cons.mp hi with heq | hi
              · simp at heq
              · exact hnone i hi
            · intro p i hi
              rcases List.mem_cons.mp hi with heq | hi
              · simp only [Prod.mk.injEq, Option.some.injEq] at heq
                obtain ⟨rfl, rfl⟩ := heq
                refine ⟨c, m, hc, ?_, convertGltfMaterial_factors _ _ _ _ _ _ hm⟩
                rw [hout i hnd.1, List.getElem?_set_self hidx]
              · exact hsome p i hi
            · intro j hj
              simp only [List.map_cons, List.mem_cons, not_or] at hj
              rw [hout j hj.2, List.getElem?_set_ne (fun h => hj.1 h.symm)]
          · rw [if_neg hidx] at h
            cases h

/-- With every slot inside the array and every material pointer inside `data->materials`,
the material loop makes no access outside an array. -/
theorem convertMaterials_defined {F K : Type}
    (convertToKtx : String → String → Except String K) (validateIdentifier : K → Bool)
    (materials : List (cgltf_material F)) (order : List (Option Nat × Nat)) :
    ∀ (array : List (Option (Material F))) (st : TextureState K),
      (∀ e ∈ order, e.2 < array.length) →
      (∀ p i, (some p, i) ∈ order → p < materials.length) →
      convertMaterials convertToKtx validateIdentifier materials order array st ≠ none := by
  induction order with
  | nil => intro array st _ _; simp [convertMaterials]
  | cons e rest ih =>
    intro array st hlt hptr
    obtain ⟨ptr, idx⟩ := e
    have hidx : idx < array.length := hlt (ptr, idx) (List.mem_cons_self _ _)
    have hrest : ∀ (a : List (Option (Material F))), a.length = array.length →
        ∀ e ∈ rest, e.2 < a.length := fun a ha e he => by
      rw [ha]; exact hlt e (List.mem_cons_of_mem _ he)
    have hptr1 : ∀ p i, (some p, i) ∈ rest → p < materials.length :=
      fun p i hi => hptr p i (List.mem_cons_of_mem _ hi)
    cases ptr with
    | none =>
      rw [convertMaterials, if_pos hidx]
      exact ih _ _ (hrest _ (List.length_set _ _ _)) hptr1
    | some pointer =>
      have hp : pointer < materials.length := hptr pointer idx (List.mem_cons_self _ _)
      rw [convertMaterials, List.getElem?_eq_getElem hp]
      simp only
      cases hm : convertGltfMaterial convertToKtx validateIdentifier materials[pointer] st with
      | error e => simp
      | ok r =>
        obtain ⟨m, st2⟩ := r
        simp only [if_pos hidx]
        exact ih _ _ (hrest _ (List.length_set _ _ _)) hptr1

theorem u32_le (n : Nat) : u32 (n : Int) ≤ n := by
  unfold u32
  omega

theorem makeAttachments_material_lt {M : Type} (data : cgltf_data M) (gltfNode : cgltf_node M)
    (rtrNode : Nat) (instances : List Instance) (i : Instance)
    (hi : i ∈ makeAttachments data (buildIndices data) gltfNode rtrNode instances) :
    i ∈ instances ∨ i.material < (buildIndices data).materialIndices.length := by
  unfold makeAttachments at hi
  cases hm : gltfNode.mesh with
  | none => rw [hm] at hi; exact Or.inl hi
  | some mi =>
    rw [hm] at hi
    simp only at hi
    cases hg : data.meshes[mi]? with
    | none => rw [hg] at hi; exact Or.inl hi
    | some mesh =>
      rw [hg] at hi
      simp only [List.mem_append, List.mem_map] at hi
      rcases hi with hi | ⟨q, hq, rfl⟩
      · exact Or.inl hi
      · right
        obtain ⟨i, x⟩ := q
        obtain ⟨hlt, hx⟩ := List.mem_enum hq
        simp only at hx ⊢
        have hk : x.material ∈ primitiveMaterials data.meshes := by
          simp only [primitiveMaterials, List.mem_flatMap, List.mem_map]
          exact ⟨mesh, List.getElem?_mem hg, x, by rw [hx]; exact List.getElem_mem hlt, rfl⟩
        obtain ⟨v, hv, hvlt⟩ := buildIndices_referenced data _ hk
        have := u32_le (mapIndex (buildIndices data).materialIndices x.material)
        simp only [mapIndex, hv, Option.getD_some] at this ⊢
        omega

theorem foldl_makeAttachments_lt {M : Type} (data : cgltf_data M)
    (calls : List (cgltf_node M × Nat)) :
    ∀ (instances : List Instance),
      (∀ i ∈ instances, i.material < (buildIndices data).materialIndices.length) →
      ∀ i ∈ calls.foldl (fun s e => makeAttachments data (buildIndices data) e.1 e.2 s)
        instances, i.material < (buildIndices data).materialIndices.length := by
  induction calls with
  | nil => intro instances h; simpa using h
  | cons e rest ih =>
    intro instances h
    rw [List.foldl_cons]
    apply ih
    intro i hi
    rcases makeAttachments_material_lt data e.1 e.2 instances i hi with h1 | h1
    · exact h i h1
    · exact h1

/-! ### Accessor data -/

theorem ElementType.sizeof_pos (T : ElementType) : 0 < T.sizeof := by
  cases T <;> decide

/-- The copy loop over `n` elements with a positive stride, started at element `k`: with
fuel for the remaining elements it ends, keeps the length of the storage and has stored
element `j` in place `j` for every `j` from `k` on. -/
theorem convertCTT_loop_spec {E : Type} (read : Nat → E) (base stride n : Nat)
    (hs : 0 < stride) :
    ∀ (d k fuel : Nat) (result : List E), k + d = n → d ≤ fuel → n ≤ result.length →
      ∃ stored, convertCTT.loop read ⟨base + stride * n, stride⟩ fuel
          ⟨base + stride * k, stride⟩ k result = .done stored ∧
        stored.length = result.length ∧
        ∀ j, stored[j]? =
          if k ≤ j ∧ j < n then some (read (base + stride * j)) else result[j]? := by
  intro d
  induction d with
  | zero =>
    intro k fuel result hk _ _
    have hkn : k = n := by omega
    subst hkn
    refine ⟨result, ?_, rfl, fun j => ?_⟩
    · cases fuel <;> simp [convertCTT.loop]
    · rw [if_neg (by omega)]
  | succ d ih =>
    intro k fuel result hk hf hlen
    obtain ⟨f, rfl⟩ : ∃ f, fuel = f + 1 := ⟨fuel - 1, by omega⟩
    have hne : ¬ (base + stride * k = base + stride * n) := by
      have : stride * k < stride * n := Nat.mul_lt_mul_of_pos_left (by omega) hs
      omega
    have hout : k < result.length := by omega
    obtain ⟨stored, hrun, hl, hget⟩ := ih (k + 1) f (result.set k (read (base + stride * k)))
      (by omega) (by omega) (by rw [List.length_set]; exact hlen)
    refine ⟨stored, ?_, by rw [hl, List.length_set], fun j => ?_⟩
    · rw [convertCTT.loop]
      simp only [hne, if_false, hout, if_true]
      have hnext : (⟨base + stride * k, stride⟩ : strided_iterator).next =
          ⟨base + stride * (k + 1), stride⟩ := by
        simp only [strided_iterator.next, strided_iterator.index, strided_iterator.mk.injEq,
          and_true]
        rw [Nat.mul_add]
        omega
      rw [hnext]
      exact hrun
    · rw [hget j]
      by_cases hjk : j = k
      · subst hjk
        rw [if_neg (by omega), if_pos (by omega), List.getElem?_set_self hout]
      · rw [List.getElem?_set_ne (fun h => hjk h.symm)]
        by_cases hj : k ≤ j ∧ j < n
        · rw [if_pos (by omega), if_pos hj]
        · rw [if_neg (by omega), if_neg hj]

/-- The copy path of `convert` for an accessor whose pair has the element type `S`,
convertible to `T`: the result of the copy loop on the resized vector. -/
theorem convert_run_slow {E : Type} (convertible : ElementType → ElementType → Bool)
    (load : ElementType → Nat → E) (cast : ElementType → ElementType → E → E) (zero : E)
    (T U S : ElementType) (accessor : cgltf_accessor) (temporary : List E) (fuel : Nat)
    (hslow : ¬ (T.component_type = accessor.component_type ∧ T.type = accessor.type ∧
      accessor.tight T = true))
    (hS : cgltf_type_traits_inv accessor.component_type accessor.type = some S)
    (hconv : convertible S T = true) :
    convert.run convertible load cast zero T U accessor temporary fuel =
      match convertCTT.loop (fun a => cast S T (load S a)) accessor.adapter.end_ fuel
          accessor.adapter.begin 0
          (resize temporary
            ((((accessor.count * T.sizeof) / U.sizeof) * U.sizeof) / T.sizeof) zero) with
      | .done stored =>
        .done (.ok (⟨.temporary, (accessor.count * T.sizeof) / U.sizeof⟩, stored))
      | .undefined => .undefined
      | .unfinished => .unfinished := by
  unfold convert.run
  rw [if_neg hslow]
  rcases accessor with ⟨ct, ty, o, c, s, bo, bs⟩
  simp only at hS ⊢
  cases ct <;> cases ty <;> simp [cgltf_type_traits_inv] at hS <;>
    (subst hS
     simp only [convertCT.run, convertCTT.run, cgltf_type_traits_inv, hconv, if_true]
     generalize convertCTT.loop _ _ _ _ _ _ = r
     cases r <;> rfl)

theorem length_resize {E : Type} (vector : List E) (n : Nat) (zero : E) :
    (resize vector n zero).length = n := by
  simp only [resize, List.length_append, List.length_take, List.length_replicate]
  omega

/-! ## Claims -/

/-- C1 (code evaluated where the claim fails): for the document with one scene holding a
single node, the synthetic scene root at slot 0 is followed by exactly one entry whose parent
chain passes through it, yet the scene loop stores the descendant count 4294967293 there
(line 279 subtracts the end position from the root instead of the root from the end
position); the node written by `writeNodesRecursive` at slot 1 gets the matching count 0. -/
theorem convertFromGltf_sceneRoot_descendantCount :
    (convertFromGltf oneNodeData ⟨0, 0, 0⟩).map
      (fun h => (List.range h.nodes.length).map
        (fun i => ((h.nodes[i]?).map Node.descendantCount, subtreeRun h.nodes i))) =
    some [(some 4294967293, 1), (some 0, 0)] := by
  decide

/-- C2: for every input forest that fits the node array, `writeNodesRecursive` returns the
output position advanced by exactly the number of nodes of the forest, and the descendant
counts stored in the slots it wrote are, in slot order, the numbers of proper descendants of
the source nodes in pre-order. -/
theorem writeNodesRecursive_descendantCount {M σ : Type}
    (visitor : cgltf_node M → Nat → σ → σ) (parent : Nat) (inputs : List (cgltf_node M))
    (output : Nat) (nodes : List (Node M)) (s : σ)
    (hcap : output + forestSize inputs ≤ nodes.length)
    (h32 : output + forestSize inputs < 4294967296) :
    ∃ nodes1 s1,
      writeNodesRecursive visitor parent inputs output nodes s =
        some (output + forestSize inputs, nodes1, s1) ∧
      (preorder inputs).length = forestSize inputs ∧
      ((nodes1.drop output).take (forestSize inputs)).map Node.descendantCount =
        (preorder inputs).map (fun n => forestSize n.children) := by
  refine ⟨_, _, writeNodesRecursive_run visitor parent inputs output nodes s hcap h32, ?_, ?_⟩
  · have h := congrArg List.length (flatForest_map parent output inputs)
    simp only [List.length_map, length_flatForest] at h
    exact h.symm
  · rw [segment_eq _ _ _ _ _ (by rw [List.length_take]; omega) (length_flatForest _ _ _)]
    have h := congrArg (List.map Prod.snd) (flatForest_map parent output inputs)
    simpa [List.map_map, Function.comp_def] using h

/-- Witness for C2: the sample forest written from slot one of a six-slot array. -/
theorem writeNodesRecursive_descendantCount_witness :
    (1 + forestSize demoForest ≤ (List.replicate 6 (⟨0, 0, 0⟩ : Node Int)).length ∧
      1 + forestSize demoForest < 4294967296) ∧
    ∃ nodes1 s1,
      writeNodesRecursive (fun _ i (s : List Nat) => s ++ [i]) 0 demoForest 1
          (List.replicate 6 ⟨0, 0, 0⟩) [] =
        some (1 + forestSize demoForest, nodes1, s1) ∧
      (preorder demoForest).length = forestSize demoForest ∧
      ((nodes1.drop 1).take (forestSize demoForest)).map Node.descendantCount =
        (preorder demoForest).map (fun n => forestSize n.children) :=
  ⟨by decide, writeNodesRecursive_descendantCount _ 0 demoForest 1
    (List.replicate 6 ⟨0, 0, 0⟩) [] (by decide) (by decide)⟩

/-- C3: in a converted document every synthetic scene root has parent offset zero, and the
node at any path of scene `si`, written at slot `i`, stores `i - p` where `p < i` is the slot
of its parent in the source tree (the scene root for a root node of the scene, the node one
step up the path otherwise); the slot `i` holds that node's transform. -/
theorem convertFromGltf_parentOffset {M : Type} [One M] (data : cgltf_data M) (fill : Node M)
    (hcap : scenesSize data.scenes ≤ data.nodes_count + data.scenes.length)
    (h32 : scenesSize data.scenes < 4294967296) :
    ∃ h, convertFromGltf data fill = some h ∧
      (∀ si sc, data.scenes[si]? = some sc →
        (h.nodes[sceneRootSlot data si]?).map Node.parentOffset = some 0) ∧
      (∀ si sc path n, data.scenes[si]? = some sc → nodeAt sc.nodes path = some n →
        parentSlotAt sc.nodes (sceneRootSlot data si) (sceneRootSlot data si + 1) path <
          slotAt sc.nodes (sceneRootSlot data si + 1) path ∧
        (h.nodes[slotAt sc.nodes (sceneRootSlot data si + 1) path]?).map
            (fun x => (x.transform, x.parentOffset)) =
          some (n.transform, slotAt sc.nodes (sceneRootSlot data si + 1) path -
            parentSlotAt sc.nodes (sceneRootSlot data si) (sceneRootSlot data si + 1) path)) := by
  refine ⟨_, convertFromGltf_eq data fill hcap h32, ?_, ?_⟩
  · intro si sc hsc
    have hs := scenesSize_split data.scenes si sc hsc
    simp only [sceneRootSlot]
    rw [List.getElem?_append_left (by rw [length_flatScenes]; omega),
      flatScenes_root data.scenes si sc hsc]
    rfl
  · intro si sc path n hsc hn
    obtain ⟨h1, h2, h3, h4⟩ := flatScenes_node data.scenes si sc hsc path n hn h32
    have hs := scenesSize_split data.scenes si sc hsc
    have hsz := nodeSize_eq n
    simp only [sceneRootSlot]
    refine ⟨h3, ?_⟩
    rw [List.getElem?_append_left (by rw [length_flatScenes]; omega), h4]
    rfl

/-- Witness for C3 on the sample document, read off at the grandchild of the first scene. -/
theorem convertFromGltf_parentOffset_witness :
    (scenesSize demoData.scenes ≤ demoData.nodes_count + demoData.scenes.length ∧
      scenesSize demoData.scenes < 4294967296) ∧
    ∃ h, convertFromGltf demoData ⟨0, 0, 0⟩ = some h ∧
      (h.nodes[sceneRootSlot demoData 1]?).map Node.parentOffset = some 0 ∧
      parentSlotAt demoForest (sceneRootSlot demoData 0) (sceneRootSlot demoData 0 + 1)
          [0, 0, 0] <
        slotAt demoForest (sceneRootSlot demoData 0 + 1) [0, 0, 0] ∧
      (h.nodes[slotAt demoForest (sceneRootSlot demoData 0 + 1) [0, 0, 0]]?).map
          (fun x => (x.transform, x.parentOffset)) =
        some ((cgltf_node.mk (4 : Int) (some 1) []).transform,
          slotAt demoForest (sceneRootSlot demoData 0 + 1) [0, 0, 0] -
            parentSlotAt demoForest (sceneRootSlot demoData 0) (sceneRootSlot demoData 0 + 1)
              [0, 0, 0]) :=
  ⟨by decide,
    match convertFromGltf_parentOffset demoData ⟨0, 0, 0⟩ (by decide) (by decide) with
    | ⟨h, h1, h2, h3⟩ =>
      ⟨h, h1, h2 1 ⟨[.mk 7 (some 1) []]⟩ rfl,
        h3 0 ⟨demoForest⟩ [0, 0, 0] (.mk 4 (some 1) []) rfl rfl⟩⟩

/-- C5: for every input forest that fits the node array, the transforms of the slots written
by `writeNodesRecursive`, read in slot order from `output` on, are the local transforms of
the source nodes in pre-order (a node, then its children's subtrees in child order, then its
later siblings); the node at any path sits at its pre-order slot with its own transform, and
no slot outside the written run changes. -/
theorem writeNodesRecursive_preorder {M σ : Type}
    (visitor : cgltf_node M → Nat → σ → σ) (parent : Nat) (inputs : List (cgltf_node M))
    (output : Nat) (nodes : List (Node M)) (s : σ)
    (hcap : output + forestSize inputs ≤ nodes.length)
    (h32 : output + forestSize inputs < 4294967296) :
    ∃ nodes1 s1,
      writeNodesRecursive visitor parent inputs output nodes s =
        some (output + forestSize inputs, nodes1, s1) ∧
      ((nodes1.drop output).take (forestSize inputs)).map Node.transform =
        (preorder inputs).map cgltf_node.transform ∧
      (∀ path n, nodeAt inputs path = some n →
        (nodes1[slotAt inputs output path]?).map Node.transform = some n.transform) ∧
      (∀ path n c m, nodeAt inputs path = some n → n.children[c]? = some m →
        slotAt inputs output path < slotAt inputs output path + 1 +
          forestSize (n.children.take c) ∧
        (nodes1[slotAt inputs output path + 1 + forestSize (n.children.take c)]?).map
          Node.transform = some m.transform) ∧
      nodes1.take output = nodes.take output ∧
      nodes1.drop (output + forestSize inputs) = nodes.drop (output + forestSize inputs) := by
  have hlen : (nodes.take output).length = output := by
    rw [List.length_take]; omega
  have hat : ∀ path n, nodeAt inputs path = some n →
      ((nodes.take output ++ flatForest parent output inputs ++
        nodes.drop (output + forestSize inputs))[slotAt inputs output path]?).map
          Node.transform = some n.transform := by
    intro path n hn
    obtain ⟨h1, h2, _, h4⟩ := flat_at_path path inputs parent output n hn
    have hsz := nodeSize_eq n
    rw [List.append_assoc, List.getElem?_append_right (by rw [hlen]; exact h1), hlen,
      List.getElem?_append_left (by rw [length_flatForest]; omega), h4]
    rfl
  refine ⟨_, _, writeNodesRecursive_run visitor parent inputs output nodes s hcap h32,
    ?_, hat, ?_, ?_, ?_⟩
  · rw [segment_eq _ _ _ _ _ hlen (length_flatForest _ _ _)]
    have h := congrArg (List.map Prod.fst) (flatForest_map parent output inputs)
    simpa [List.map_map, Function.comp_def] using h
  · intro path n c m hn hc
    obtain ⟨j, p, hp⟩ := nodeAt_ne_nil inputs path n hn
    have hne : path ≠ [] := by rw [hp]; simp
    have hm : nodeAt inputs (path ++ [c]) = some m := by
      rw [nodeAt_snoc path inputs c hne, hn]
      exact hc
    have hs := slotAt_snoc path inputs output c n hne hn
    refine ⟨by omega, ?_⟩
    rw [← hs]
    exact hat (path ++ [c]) m hm
  · rw [List.append_assoc, List.take_append_of_le_length (by rw [hlen]), List.take_take]
    simp
  · have hl : (nodes.take output ++ flatForest parent output inputs).length =
        output + forestSize inputs := by
      rw [List.length_append, hlen, length_flatForest]
    rw [List.drop_append_of_le_length (by rw [hl]), List.drop_of_length_le (by rw [hl])]
    simp

/-- Witness for C5: the sample forest written from slot one of a six-slot array. -/
theorem writeNodesRecursive_preorder_witness :
    (1 + forestSize demoForest ≤ (List.replicate 6 (⟨0, 0, 0⟩ : Node Int)).length ∧
      1 + forestSize demoForest < 4294967296) ∧
    ∃ nodes1 s1,
      writeNodesRecursive (fun _ i (s : List Nat) => s ++ [i]) 0 demoForest 1
          (List.replicate 6 ⟨0, 0, 0⟩) [] =
        some (1 + forestSize demoForest, nodes1, s1) ∧
      ((nodes1.drop 1).take (forestSize demoForest)).map Node.transform =
        (preorder demoForest).map cgltf_node.transform :=
  ⟨by decide,
    match writeNodesRecursive_preorder (fun _ i (s : List Nat) => s ++ [i]) 0 demoForest 1
      (List.replicate 6 ⟨0, 0, 0⟩) [] (by decide) (by decide) with
    | ⟨nodes1, s1, h1, h2, _⟩ => ⟨nodes1, s1, h1, h2⟩⟩

/-- C4: in a converted document, the walk `node -= parentOffset` started at the node at any
path of a scene stays inside the node array, passes only slots with a non-zero parent offset
during the first `path.length` steps, and after exactly `path.length` steps (the depth of the
node, at most the depth of the scene's forest) stands on the scene root, whose parent offset
is zero; the loop of `Scene` started there stops at that scene root. -/
theorem convertFromGltf_parent_walk {M : Type} [Monoid M] (data : cgltf_data M) (fill : Node M)
    (hcap : scenesSize data.scenes ≤ data.nodes_count + data.scenes.length)
    (h32 : scenesSize data.scenes < 4294967296) :
    ∃ h, convertFromGltf data fill = some h ∧
      ∀ si sc path n (t : M), data.scenes[si]? = some sc → nodeAt sc.nodes path = some n →
        (∀ k, k < path.length →
          ∃ j x, ancestorSlot h.nodes k (slotAt sc.nodes (sceneRootSlot data si + 1) path) =
              some j ∧ h.nodes[j]? = some x ∧ x.parentOffset ≠ 0) ∧
        ancestorSlot h.nodes path.length (slotAt sc.nodes (sceneRootSlot data si + 1) path) =
          some (sceneRootSlot data si) ∧
        (h.nodes[sceneRootSlot data si]?).map Node.parentOffset = some 0 ∧
        path.length ≤ forestDepth sc.nodes ∧
        (walkToRoot h.nodes (slotAt sc.nodes (sceneRootSlot data si + 1) path + 1)
          (slotAt sc.nodes (sceneRootSlot data si + 1) path) t).map Prod.fst =
          some (sceneRootSlot data si) := by
  refine ⟨_, convertFromGltf_eq data fill hcap h32, ?_⟩
  intro si sc path n t hsc hn
  have hs := scenesSize_split data.scenes si sc hsc
  have hroot : (flatScenes 0 data.scenes ++ List.replicate
      (data.nodes_count + data.scenes.length - scenesSize data.scenes) fill)[sceneRootSlot data si]?
      = some ⟨1, 0, sceneRootCount (sceneRootSlot data si)
          (sceneRootSlot data si + 1 + forestSize sc.nodes)⟩ := by
    simp only [sceneRootSlot]
    rw [List.getElem?_append_left (by rw [length_flatScenes]; omega),
      flatScenes_root data.scenes si sc hsc]
  have hA : ∀ path n, nodeAt sc.nodes path = some n →
      parentSlotAt sc.nodes (sceneRootSlot data si) (sceneRootSlot data si + 1) path <
        slotAt sc.nodes (sceneRootSlot data si + 1) path ∧
      ∃ x, (flatScenes 0 data.scenes ++ List.replicate
          (data.nodes_count + data.scenes.length - scenesSize data.scenes) fill)[
            slotAt sc.nodes (sceneRootSlot data si + 1) path]? = some x ∧
        x.parentOffset = slotAt sc.nodes (sceneRootSlot data si + 1) path -
          parentSlotAt sc.nodes (sceneRootSlot data si) (sceneRootSlot data si + 1) path := by
    intro path n hn
    obtain ⟨h1, h2, h3, h4⟩ := flatScenes_node data.scenes si sc hsc path n hn h32
    have hsz := nodeSize_eq n
    simp only [sceneRootSlot]
    refine ⟨h3, ⟨n.transform, slotAt sc.nodes (scenesSize (data.scenes.take si) + 1) path -
      parentSlotAt sc.nodes (scenesSize (data.scenes.take si))
        (scenesSize (data.scenes.take si) + 1) path, forestSize n.children⟩, ?_, rfl⟩
    rw [List.getElem?_append_left (by rw [length_flatScenes]; omega), h4]
  have hne : path ≠ [] := by
    intro hp; rw [hp] at hn; simp [nodeAt] at hn
  obtain ⟨d, hd⟩ : ∃ d, path.length = d + 1 :=
    ⟨path.length - 1, by have := List.length_pos.mpr hne; omega⟩
  obtain ⟨hc1, hc2⟩ := climb_path _ sc.nodes (sceneRootSlot data si) _ hroot hA d path n hd hn
  obtain ⟨t1, ht1⟩ := walkToRoot_root _ (sceneRootSlot data si) _ hroot rfl (d + 1)
    (slotAt sc.nodes (sceneRootSlot data si + 1) path)
    (slotAt sc.nodes (sceneRootSlot data si + 1) path + 1) t (by omega) hc1 hc2
  refine ⟨?_, ?_, ?_, path_length_le_depth path sc.nodes n hn, ?_⟩
  · rw [hd]; exact hc2
  · rw [hd]; exact hc1
  · simp only [hroot, Option.map_some']
  · simp only [ht1, Option.map_some']

/-- Witness for C4 on the sample document, read off at the grandchild of the first scene. -/
theorem convertFromGltf_parent_walk_witness :
    (scenesSize demoData.scenes ≤ demoData.nodes_count + demoData.scenes.length ∧
      scenesSize demoData.scenes < 4294967296) ∧
    ∃ h, convertFromGltf demoData ⟨0, 0, 0⟩ = some h ∧
      ancestorSlot h.nodes [0, 0, 0].length
          (slotAt demoForest (sceneRootSlot demoData 0 + 1) [0, 0, 0]) =
        some (sceneRootSlot demoData 0) ∧
      (h.nodes[sceneRootSlot demoData 0]?).map Node.parentOffset = some 0 ∧
      [0, 0, 0].length ≤ forestDepth demoForest ∧
      (walkToRoot h.nodes (slotAt demoForest (sceneRootSlot demoData 0 + 1) [0, 0, 0] + 1)
        (slotAt demoForest (sceneRootSlot demoData 0 + 1) [0, 0, 0]) (4 : Int)).map Prod.fst =
        some (sceneRootSlot demoData 0) :=
  ⟨by decide,
    match convertFromGltf_parent_walk demoData ⟨0, 0, 0⟩ (by decide) (by decide) with
    | ⟨h, h1, h2⟩ =>
      ⟨h, h1, (h2 0 ⟨demoForest⟩ [0, 0, 0] (.mk 4 (some 1) []) 4 rfl rfl).2⟩⟩

/-- C6: `writeNodesRecursive` ends with the visitor state obtained by calling the visitor, in
post-order (children's subtrees before the node), once on every written node paired with the
slot it was written at; and, when slots and primitive counts fit 32 bits, the instance list of
a converted document is the concatenation over these calls of one instance per primitive of
the node's mesh, in primitive order, with the node's slot, the primitive's position in the
enumeration of all primitives, and the index the material map holds for its material. -/
theorem convertFromGltf_instances {M : Type} [One M] (data : cgltf_data M) (fill : Node M)
    (hcap : scenesSize data.scenes ≤ data.nodes_count + data.scenes.length)
    (h32 : scenesSize data.scenes < 4294967296)
    (hprims : primitiveOffset data.meshes data.meshes.length < 4294967296) :
    (∀ (σ : Type) (visitor : cgltf_node M → Nat → σ → σ) (parent : Nat)
        (inputs : List (cgltf_node M)) (output : Nat) (nodes : List (Node M)) (s : σ),
        output + forestSize inputs ≤ nodes.length → output + forestSize inputs < 4294967296 →
        (∃ nodes1, writeNodesRecursive visitor parent inputs output nodes s =
          some (output + forestSize inputs, nodes1,
            (postorderForest output inputs).foldl (fun s e => visitor e.1 e.2 s) s)) ∧
        (postorderForest output inputs).Perm
          ((preorder inputs).zip (List.range' output (forestSize inputs)))) ∧
    ∃ h, convertFromGltf data fill = some h ∧
      h.instances = (postorderScenes 0 data.scenes).flatMap (instancesOf data) := by
  refine ⟨?_, _, convertFromGltf_eq data fill hcap h32, ?_⟩
  · intro σ visitor parent inputs output nodes s hc hl
    refine ⟨⟨nodes.take output ++ flatForest parent output inputs ++
      nodes.drop (output + forestSize inputs), ?_⟩, postorderForest_perm inputs output⟩
    rw [writeNodesRecursive_run visitor parent inputs output nodes s hc hl,
      visitForest_eq_foldl]
  · simp only
    rw [visitScenes_eq_foldl, attach_foldl data hprims]
    · simp
    · intro e he
      have := postorderScenes_slot data.scenes 0 e he
      omega

/-- Witness for C6 on the sample document and the sample forest. -/
theorem convertFromGltf_instances_witness :
    (scenesSize demoData.scenes ≤ demoData.nodes_count + demoData.scenes.length ∧
      scenesSize demoData.scenes < 4294967296 ∧
      primitiveOffset demoData.meshes demoData.meshes.length < 4294967296) ∧
    (∃ nodes1, writeNodesRecursive (fun _ i (s : List Nat) => s ++ [i]) 0 demoForest 1
        (List.replicate 6 ⟨0, 0, 0⟩) [] =
      some (1 + forestSize demoForest, nodes1,
        (postorderForest 1 demoForest).foldl (fun s e => s ++ [e.2]) [])) ∧
    ∃ h, convertFromGltf demoData ⟨0, 0, 0⟩ = some h ∧
      h.instances = (postorderScenes 0 demoData.scenes).flatMap (instancesOf demoData) :=
  ⟨by decide,
    ((convertFromGltf_instances demoData ⟨0, 0, 0⟩ (by decide) (by decide) (by decide)).1
      (List Nat) (fun _ i s => s ++ [i]) 0 demoForest 1 (List.replicate 6 ⟨0, 0, 0⟩) []
      (by decide) (by decide)).1,
    (convertFromGltf_instances demoData ⟨0, 0, 0⟩ (by decide) (by decide) (by decide)).2⟩

/-- C7 (code evaluated where the claim fails): for the document with one scene holding a
single node, the scene-root list has two entries for the one scene (it is created with
`nodes_count + scenes_count` entries, line 214); the first points at the synthetic root in
slot 0, which carries the identity transform, the second is a null pointer. -/
theorem convertFromGltf_scenes_length :
    oneNodeData.scenes.length = 1 ∧
    (convertFromGltf oneNodeData ⟨0, 0, 0⟩).map
      (fun h => (h.scenes, (h.nodes[0]?).map Node.transform)) =
    some ([some 0, none], some 1) := by
  decide

/-- C8: the transform `Scene` stores for a kept instance is the product, root first, of the
transforms on the ancestor chain of its node.  For a converted document (sizes within 32
bits) each kept instance belongs to a node at some path of the first scene and its transform
is the identity of the synthetic root times the local transforms along that path; on any
header on which the loop completes, it is the product of the chain found through the parent
offsets; and for a root with one child carrying the instance it is
`rootTransform * childTransform`. -/
theorem Scene_localToWorld {M : Type} [Monoid M] (data : cgltf_data M) (fill : Node M)
    (hcap : scenesSize data.scenes ≤ data.nodes_count + data.scenes.length)
    (h32 : scenesSize data.scenes < 4294967296)
    (hprims : primitiveOffset data.meshes data.meshes.length < 4294967296) :
    (∃ h out, convertFromGltf data fill = some h ∧ Scene h = some out ∧
      ∀ w ∈ out, ∃ sc path n, data.scenes[0]? = some sc ∧ nodeAt sc.nodes path = some n ∧
        (w.meshIndex, w.materialIndex) ∈ drawablesOf data n ∧
        w.localToWorld = (1 :: transformsAlong sc.nodes path).prod) ∧
    (∀ (h : SceneHeader M) (out : List (SceneInstance M)), Scene h = some out →
      ∀ w ∈ out, ∃ i ∈ h.instances, w.meshIndex = i.mesh ∧ w.materialIndex = i.material ∧
        w.localToWorld = (chainTransforms h.nodes (i.node + 1) i.node).prod) ∧
    (∀ (rootTransform childTransform : M) (fill2 : Node M),
      ∃ h, convertFromGltf (twoLevel rootTransform childTransform) fill2 = some h ∧
        Scene h = some [⟨0, 0, rootTransform * childTransform⟩]) := by
  refine ⟨?_, ?_, ?_⟩
  · obtain ⟨h, h1, _, h3⟩ := convertFromGltf_Scene data fill hcap h32 hprims
    refine ⟨h, _, h1, h3, ?_⟩
    intro w hw
    cases hsc : data.scenes with
    | nil => rw [hsc] at hw; simp at hw
    | cons sc rest =>
      rw [hsc] at hw
      obtain ⟨path, n, p1, p2, p3⟩ := worldForest_along data sc.nodes 1 w hw
      exact ⟨sc, path, n, by simp, p1, p2, by rw [p3, List.prod_cons]⟩
  · intro h out hout w hw
    obtain ⟨_, h2⟩ := instanceLoop_spec h h.instances [] out hout
    rw [h2, List.nil_append, List.mem_filterMap] at hw
    obtain ⟨i, hi, hr⟩ := hw
    have hr1 : resolveInstance h i = some (some w) := by
      cases hx : resolveInstance h i with
      | none => rw [hx] at hr; simp [Option.join] at hr
      | some r =>
        rw [hx] at hr
        have : r = some w := by simpa [Option.join] using hr
        rw [this]
    obtain ⟨n, node, q1, q2, _, q4, q5⟩ := resolve_some_some h i w hr1
    refine ⟨i, hi, q4, q5, ?_⟩
    have hq : walkToRoot h.nodes (i.node + 1) i.node (n.transform * 1) =
        some (node, w.localToWorld) := by rw [mul_one]; exact q2
    have := walkToRoot_chain h.nodes (i.node + 1) i.node n 1 node w.localToWorld q1 hq
    rw [this, mul_one]
  · intro rootTransform childTransform fill2
    obtain ⟨h, h1, _, h3⟩ := convertFromGltf_Scene (twoLevel rootTransform childTransform) fill2
      (by simp [twoLevel, scenesSize, forestSize, nodeSize])
      (by simp [twoLevel, scenesSize, forestSize, nodeSize])
      (by simp [twoLevel, primitiveOffset])
    refine ⟨h, h1, ?_⟩
    rw [h3]
    simp [twoLevel, worldForest, worldNode, drawablesOf, cgltf_node.mesh, primitiveOffset,
      mapIndex, buildIndices, indexMeshes, indexPrimitives, mapAssign, tryEmplace, mapFind,
      List.enum, List.enumFrom]

/-- Witness for C8 on the sample document and the sample header. -/
theorem Scene_localToWorld_witness :
    (scenesSize demoData.scenes ≤ demoData.nodes_count + demoData.scenes.length ∧
      scenesSize demoData.scenes < 4294967296 ∧
      primitiveOffset demoData.meshes demoData.meshes.length < 4294967296) ∧
    (∃ h out, convertFromGltf demoData ⟨0, 0, 0⟩ = some h ∧ Scene h = some out ∧
      ∀ w ∈ out, ∃ sc path n, demoData.scenes[0]? = some sc ∧ nodeAt sc.nodes path = some n ∧
        (w.meshIndex, w.materialIndex) ∈ drawablesOf demoData n ∧
        w.localToWorld = (1 :: transformsAlong sc.nodes path).prod) ∧
    Scene demoHeader = some [⟨7, 8, 2⟩] ∧
    ∀ w ∈ [(⟨7, 8, 2⟩ : SceneInstance Int)], ∃ i ∈ demoHeader.instances,
      w.meshIndex = i.mesh ∧ w.materialIndex = i.material ∧
      w.localToWorld = (chainTransforms demoHeader.nodes (i.node + 1) i.node).prod :=
  ⟨by decide,
    (Scene_localToWorld demoData ⟨0, 0, 0⟩ (by decide) (by decide) (by decide)).1,
    by decide,
    (Scene_localToWorld demoData ⟨0, 0, 0⟩ (by decide) (by decide) (by decide)).2.1
      demoHeader [⟨7, 8, 2⟩] (by decide)⟩

/-- C9: on any header on which its loop completes, `Scene` keeps, in their order and with
mesh and material index unchanged, exactly the instances whose node walks up to the node the
first scene pointer refers to; and on a converted document (sizes within 32 bits) the loop
completes, the header's instances are those emitted for the first scene followed by those of
the later scenes, and the kept ones are exactly the former. -/
theorem Scene_keeps_first_scene {M : Type} [Monoid M] (data : cgltf_data M) (fill : Node M)
    (hcap : scenesSize data.scenes ≤ data.nodes_count + data.scenes.length)
    (h32 : scenesSize data.scenes < 4294967296)
    (hprims : primitiveOffset data.meshes data.meshes.length < 4294967296) :
    (∃ h out, convertFromGltf data fill = some h ∧ Scene h = some out ∧
      h.instances = firstSceneInstances data ++ laterSceneInstances data ∧
      out.map (fun w => (w.meshIndex, w.materialIndex)) =
        (firstSceneInstances data).map (fun i => (i.mesh, i.material))) ∧
    (∀ (h : SceneHeader M) (out : List (SceneInstance M)), Scene h = some out →
      out.map (fun w => (w.meshIndex, w.materialIndex)) =
        (h.instances.filter (fun i => decide (h.scenes[0]? = some (rootOf h i.node)))).map
          (fun i => (i.mesh, i.material))) := by
  refine ⟨?_, ?_⟩
  · obtain ⟨h, h1, h2, h3⟩ := convertFromGltf_Scene data fill hcap h32 hprims
    refine ⟨h, _, h1, h3, ?_, ?_⟩
    · rw [h2]
      unfold firstSceneInstances laterSceneInstances
      cases data.scenes with
      | nil => simp [postorderScenes]
      | cons sc rest =>
        simp only [postorderScenes, List.flatMap_append, Nat.zero_add]
    · unfold firstSceneInstances
      cases data.scenes with
      | nil => simp
      | cons sc rest => exact worldForest_keys data sc.nodes 1 1
  · intro h out hout
    obtain ⟨hall, h2⟩ := instanceLoop_spec h h.instances [] out hout
    rw [h2, List.nil_append]
    exact kept_filter h h.instances hall

/-- Witness for C9 on the sample document and the sample header. -/
theorem Scene_keeps_first_scene_witness :
    (scenesSize demoData.scenes ≤ demoData.nodes_count + demoData.scenes.length ∧
      scenesSize demoData.scenes < 4294967296 ∧
      primitiveOffset demoData.meshes demoData.meshes.length < 4294967296) ∧
    (∃ h out, convertFromGltf demoData ⟨0, 0, 0⟩ = some h ∧ Scene h = some out ∧
      h.instances = firstSceneInstances demoData ++ laterSceneInstances demoData ∧
      out.map (fun w => (w.meshIndex, w.materialIndex)) =
        (firstSceneInstances demoData).map (fun i => (i.mesh, i.material))) ∧
    Scene demoHeader = some [⟨7, 8, 2⟩] ∧
    [(⟨7, 8, 2⟩ : SceneInstance Int)].map (fun w => (w.meshIndex, w.materialIndex)) =
      (demoHeader.instances.filter
        (fun i => decide (demoHeader.scenes[0]? = some (rootOf demoHeader i.node)))).map
        (fun i => (i.mesh, i.material)) :=
  ⟨by decide,
    (Scene_keeps_first_scene demoData ⟨0, 0, 0⟩ (by decide) (by decide) (by decide)).1,
    by decide,
    (Scene_keeps_first_scene demoData ⟨0, 0, 0⟩ (by decide) (by decide) (by decide)).2
      demoHeader [⟨7, 8, 2⟩] (by decide)⟩

/-- C10: in every completed run of the material loop over one texture cache (started empty),
two texture requests naming the same image URI and swizzle receive the same texture index;
`convertToKtx` is called exactly for the requests whose key was not requested before, hence
never twice for one (URI, swizzle) pair; and the cache holds exactly one entry under the key
of every requested pair. -/
theorem textureCache_idempotent {F K : Type}
    (convertToKtx : String → String → Except String K) (validateIdentifier : K → Bool)
    (ms : List (Option (cgltf_material F))) (out : List (Option (Material F)))
    (st : TextureState K)
    (hrun : materialLoop convertToKtx validateIdentifier ms ⟨[], []⟩ = .ok (out, st)) :
    (out.flatMap resultsOf).length = (ms.flatMap requestsOf).length ∧
    (∀ (a b : Nat) (uri sw : String), (ms.flatMap requestsOf)[a]? = some (some uri, sw) →
      (ms.flatMap requestsOf)[b]? = some (some uri, sw) →
      ∃ idx, (out.flatMap resultsOf)[a]? = some (some idx) ∧
        (out.flatMap resultsOf)[b]? = some (some idx)) ∧
    st.ktxCalls = firstByKey [] (uriRequests (ms.flatMap requestsOf)) ∧
    st.ktxCalls.Nodup ∧
    (∀ (a : Nat) (uri sw : String), (ms.flatMap requestsOf)[a]? = some (some uri, sw) →
      (cacheKeys st).count (textureKey uri sw) = 1) := by
  have hinv : CacheInv (⟨[], []⟩ : TextureState K) := ⟨by simp [cacheKeys], by simp [cacheKeys]⟩
  obtain ⟨_, hinv1, hlen, hcalls, hfind, _⟩ :=
    materialLoop_runs convertToKtx validateIdentifier ms _ st out hinv hrun
  refine ⟨hlen, ?_, ?_, ?_, ?_⟩
  · intro a b uri sw ha hb
    obtain ⟨idx, k, hra, hfa⟩ := hfind a uri sw ha
    obtain ⟨idx2, k2, hrb, hfb⟩ := hfind b uri sw hb
    rw [hfa] at hfb
    simp only [Option.some.injEq, Prod.mk.injEq] at hfb
    refine ⟨idx, hra, ?_⟩
    rw [hrb, hfb.1]
  · simpa [cacheKeys] using hcalls
  · have hn : (st.ktxCalls.map (fun c => textureKey c.1 c.2)).Nodup := by
      rw [← hinv1.2]; exact hinv1.1
    exact List.Nodup.of_map _ hn
  · intro a uri sw ha
    obtain ⟨idx, k, _, hfa⟩ := hfind a uri sw ha
    exact List.count_eq_one_of_mem hinv1.1 (mapFind_mem _ _ _ hfa)

/-- Witness for C10: two copies of the sample material around a null material. -/
theorem textureCache_idempotent_witness :
    materialLoop (fun u s => Except.ok (u ++ s)) (fun _ => true)
        [some demoMaterial, none, some demoMaterial] ⟨[], []⟩ =
      .ok ([some ⟨0, ⟨some 0, some 1, some 2, none⟩⟩, none,
          some ⟨0, ⟨some 0, some 1, some 2, none⟩⟩],
        ⟨[("a.png:", (0, "a.png")), ("a.png:b", (1, "a.pngb")), ("a.png:g", (2, "a.pngg"))],
          [("a.png", ""), ("a.png", "b"), ("a.png", "g")]⟩) ∧
    ∀ (a b : Nat) (uri sw : String),
      ([some demoMaterial, none, some demoMaterial].flatMap requestsOf)[a]? =
        some (some uri, sw) →
      ([some demoMaterial, none, some demoMaterial].flatMap requestsOf)[b]? =
        some (some uri, sw) →
      ∃ idx, (([some ⟨0, ⟨some 0, some 1, some 2, none⟩⟩, none,
          some ⟨0, ⟨some 0, some 1, some 2, none⟩⟩] :
            List (Option (Material Nat))).flatMap resultsOf)[a]? = some (some idx) ∧
        (([some ⟨0, ⟨some 0, some 1, some 2, none⟩⟩, none,
          some ⟨0, ⟨some 0, some 1, some 2, none⟩⟩] :
            List (Option (Material Nat))).flatMap resultsOf)[b]? = some (some idx) :=
  ⟨rfl, (textureCache_idempotent (fun u s => Except.ok (u ++ s)) (fun _ => true)
    [some demoMaterial, none, some demoMaterial] _ _ rfl).2.1⟩

/-- C11 (amended): a run of `convertFromGltf` on a fresh arena allocates nothing before the
`RootHeader`: the arena stays empty (a run that throws in the file open, the parse, the
buffer loading or the mesh loop) or its first allocation is the `RootHeader` and no later one
is, so there is at most one; there is exactly one precisely when the run gets past the mesh
loop, in particular in every run that returns; and the first block of a sequential arena
sits at offset 0. -/
theorem convertFromGltf_rootHeader_first (convertible : ElementType → ElementType → Bool)
    (run : ConvertRun) (trace : List AllocKind) (result : Except String Unit)
    (h : RTRConverted convertible run = some (trace, result)) :
    (trace = [] ∨
      ∃ rest, trace = AllocKind.rootHeader :: rest ∧ AllocKind.rootHeader ∉ rest) ∧
    trace.count AllocKind.rootHeader ≤ 1 ∧
    (trace.count AllocKind.rootHeader = 1 ↔
      run.gltfFile = .ok () ∧ run.parseResult = .ok () ∧ run.loadBuffers = .ok () ∧
        ∃ meshes, convertMeshes convertible run.primitives = some (.ok meshes)) ∧
    (result = .ok () → trace.count AllocKind.rootHeader = 1) ∧
    (∀ (size align : Nat) (rest : List (Nat × Nat)),
      (arenaOffsets 0 ((size, align) :: rest)).head? = some 0) := by
  rcases RTRConverted_cases convertible run trace result h with
    ⟨ht, ⟨e, he⟩, hnot⟩ | ⟨hpast, rest, ht, hrest⟩
  · subst ht
    refine ⟨Or.inl rfl, by simp, ⟨fun hc => by simp at hc, fun hp => absurd hp hnot⟩, ?_,
      arenaOffsets_first⟩
    intro hr
    rw [he] at hr
    cases hr
  · have hc : trace.count AllocKind.rootHeader = 1 := by
      rw [ht, List.count_cons_self, List.count_eq_zero_of_not_mem hrest]
    exact ⟨Or.inr ⟨rest, ht, hrest⟩, by omega, ⟨fun _ => hpast, fun _ => hc⟩, fun _ => hc,
      arenaOffsets_first⟩

/-- Witness for C11: the run on the sample primitive allocates the `RootHeader` first and
once. -/
theorem convertFromGltf_rootHeader_first_witness :
    RTRConverted scalarConvertible noTexCoordRun =
        some (AllocKind.rootHeader :: laterAllocations 1 0 0, .ok ()) ∧
      (AllocKind.rootHeader :: laterAllocations 1 0 0).count AllocKind.rootHeader = 1 :=
  ⟨rfl, (convertFromGltf_rootHeader_first scalarConvertible noTexCoordRun _ _ rfl).2.2.2.1 rfl⟩

/-- Counterexample for C11 as stated: the run on an input that does not parse ends with an
exception and no `RootHeader` in the arena. -/
theorem convertFromGltf_rootHeader_absent :
    RTRConverted scalarConvertible invalidJsonRun = some ([], .error "invalid JSON") ∧
      ([] : List AllocKind).count AllocKind.rootHeader ≠ 1 :=
  ⟨rfl, by decide⟩

/-- C12: on a mapping that holds a whole root header, the constructor of `MappedFile` yields
the `MappedFile` exactly when `validate` returns true and throws `MappedFile::Error`
otherwise; the constructor of `File` yields the `File` exactly when `validate` returns true
and throws otherwise; whatever either constructor yields is the source it was given, with a
root header that validates. -/
theorem File_MappedFile_validate (sizeofRootHeader : Nat) (validate : List Nat → Bool)
    (input : String) (bytes : List Nat) (hsize : sizeofRootHeader ≤ bytes.length) :
    (MappedFile sizeofRootHeader validate input (.ok bytes) = some (.ok bytes) ↔
      validate bytes = true) ∧
    (validate bytes = false →
      MappedFile sizeofRootHeader validate input (.ok bytes) =
        some (.error (.mappedFileError
          ("Failed binary compatibility validation for " ++ input)))) ∧
    (∀ value, MappedFile sizeofRootHeader validate input (.ok bytes) = some (.ok value) →
      value = bytes ∧ validate value = true) ∧
    (File validate bytes = .ok bytes ↔ validate bytes = true) ∧
    (validate bytes = false →
      File validate bytes = .error (.other "rtr::RootHeader validation failed")) ∧
    (∀ value, File validate bytes = .ok value → value = bytes ∧ validate value = true) := by
  have hlt : ¬ bytes.length < sizeofRootHeader := by omega
  simp only [MappedFile, File, if_neg hlt]
  cases hv : validate bytes
  · simp
  · refine ⟨by simp, by simp, ?_, by simp, by simp, ?_⟩
    · intro value h
      simp only [if_true, Option.some.injEq, Except.ok.injEq] at h
      exact ⟨h.symm, by rw [← h]; exact hv⟩
    · intro value h
      simp only [if_true, Except.ok.injEq] at h
      exact ⟨h.symm, by rw [← h]; exact hv⟩

/-- Witness for C12: a mapping of 64 bytes with a root header of 64 bytes, accepted and
rejected. -/
theorem File_MappedFile_validate_witness :
    MappedFile 64 (fun _ => true) "a.rtr" (.ok (List.replicate 64 0)) =
        some (.ok (List.replicate 64 0)) ∧
      File (fun _ => false) (List.replicate 64 0) =
        .error (.other "rtr::RootHeader validation failed") :=
  ⟨(File_MappedFile_validate 64 (fun _ => true) "a.rtr" (List.replicate 64 0)
      (by decide)).1.2 rfl,
    (File_MappedFile_validate 64 (fun _ => false) "a.rtr" (List.replicate 64 0)
      (by decide)).2.2.2.2.1 rfl⟩

/-- C13 (the behaviour of the code): the constructor of `MappedFile` makes no size check; on
a mapping shorter than a root header it calls `validate` on an object that reaches beyond
the end of the buffer, whatever `validate` does, where a validation error is required. -/
theorem MappedFile_short_buffer (sizeofRootHeader : Nat) (validate : List Nat → Bool)
    (input : String) (bytes : List Nat) (hshort : bytes.length < sizeofRootHeader) :
    MappedFile sizeofRootHeader validate input (.ok bytes) = none ∧
      ∀ what, MappedFile sizeofRootHeader validate input (.ok bytes) ≠
        some (.error (.mappedFileError what)) := by
  simp only [MappedFile, if_pos hshort]
  exact ⟨trivial, fun what h => by cases h⟩

/-- Witness for C13: a mapping of four bytes with a root header of 64 bytes. -/
theorem MappedFile_short_buffer_witness :
    MappedFile 64 (fun _ => false) "short.rtr" (.ok [1, 2, 3, 4]) = none :=
  (MappedFile_short_buffer 64 (fun _ => false) "short.rtr" [1, 2, 3, 4] (by decide)).1

/-- C14: the constructor of `MeshAux` throws "cannot generate topology" on a mesh without
triangle indices, else "cannot generate positions" on a mesh without positions, else
"cannot generate texture coordinates" on a mesh without first texture coordinates, whatever
the normal and tangent generation would do (they are not reached, no mesh results); with all
three arrays non-empty none of these three exceptions is thrown, and a mesh results only
when all three arrays are non-empty. -/
theorem MeshAux_required_arrays {R : Type} [Zero R] [Add R] [Mul R] [Sub R]
    (normalize : R × R × R → R × R × R)
    (genTangSpaceDefault : Mesh R → Option (List (R × R × R × R))) (mesh : Mesh R) :
    (mesh.triangleVertices = [] →
      MeshAux normalize genTangSpaceDefault mesh = some (.error "cannot generate topology")) ∧
    (mesh.triangleVertices ≠ [] → mesh.vertexPositions = [] →
      MeshAux normalize genTangSpaceDefault mesh =
        some (.error "cannot generate positions")) ∧
    (mesh.triangleVertices ≠ [] → mesh.vertexPositions ≠ [] → mesh.vertexTexCoords0 = [] →
      MeshAux normalize genTangSpaceDefault mesh =
        some (.error "cannot generate texture coordinates")) ∧
    (mesh.triangleVertices ≠ [] → mesh.vertexPositions ≠ [] → mesh.vertexTexCoords0 ≠ [] →
      ∀ e, MeshAux normalize genTangSpaceDefault mesh = some (.error e) →
        e = "Failed MikkTSpace generation") ∧
    (∀ result, MeshAux normalize genTangSpaceDefault mesh = some (.ok result) →
      mesh.triangleVertices ≠ [] ∧ mesh.vertexPositions ≠ [] ∧
        mesh.vertexTexCoords0 ≠ []) := by
  unfold MeshAux
  refine ⟨?_, ?_, ?_, ?_, ?_⟩
  · intro h1
    simp [h1]
  · intro h1 h2
    simp [h1, h2]
  · intro h1 h2 h3
    simp [h1, h2, h3]
  · intro h1 h2 h3 e h
    simp only [List.length_eq_zero, h1, h2, h3, if_false] at h
    split at h
    · cases h
    · split at h
      · cases h
      · split at h
        · simp only [Option.some.injEq, Except.error.injEq] at h
          exact h.symm
        · cases h
  · intro result h
    by_cases h1 : mesh.triangleVertices = []
    · simp [h1] at h
    by_cases h2 : mesh.vertexPositions = []
    · simp [h1, h2] at h
    by_cases h3 : mesh.vertexTexCoords0 = []
    · simp [h1, h2, h3] at h
    exact ⟨h1, h2, h3⟩

/-- Witness for C14: the sample mesh without its texture coordinates, and with them. -/
theorem MeshAux_required_arrays_witness :
    MeshAux (fun n => n) (fun _ => none)
        (⟨[(0, 1, 2)], [(0, 0, 0), (1, 0, 0), (0, 1, 0)], [], [], []⟩ : Mesh Int) =
      some (.error "cannot generate texture coordinates") ∧
    (∀ e, MeshAux (fun n => n) (fun _ => none) demoMesh = some (.error e) →
      e = "Failed MikkTSpace generation") :=
  ⟨(MeshAux_required_arrays (fun n => n) (fun _ => none)
      (⟨[(0, 1, 2)], [(0, 0, 0), (1, 0, 0), (0, 1, 0)], [], [], []⟩ : Mesh Int)).2.2.1
      (by decide) (by decide) rfl,
    (MeshAux_required_arrays (fun n => n) (fun _ => none) demoMesh).2.2.2.1
      (by decide) (by decide) (by decide)⟩

/-- C16: over exact arithmetic (a commutative ring) the three cross products added per
triangle are equal; for a mesh without normals whose indices are in range, `MeshAux` holds
one normal per position, `normalize` of the vector accumulated for the vertex, and that vector
is the sum of `cross (b - a) (c - a)` over the triangle corners that are this vertex; a mesh
that has normals keeps them; the mesh `MeshAux` holds has exactly these normals. -/
theorem MeshAux_normals {R : Type} [CommRing R] (normalize : R × R × R → R × R × R)
    (mesh : Mesh R) :
    (∀ a b c : R × R × R, cross (c - b) (a - b) = cross (b - a) (c - a) ∧
      cross (a - c) (b - c) = cross (b - a) (c - a)) ∧
    (mesh.vertexNormals = [] →
      (∀ tri ∈ mesh.triangleVertices, tri.1 < mesh.vertexPositions.length ∧
        tri.2.1 < mesh.vertexPositions.length ∧ tri.2.2 < mesh.vertexPositions.length) →
      ∃ acc, accumulateNormals mesh.vertexPositions mesh.triangleVertices
            (List.replicate mesh.vertexPositions.length 0) = some acc ∧
        acc.length = mesh.vertexPositions.length ∧
        (∀ i, acc.getD i 0 = cornerSum mesh.vertexPositions mesh.triangleVertices i) ∧
        computeNormals normalize mesh = some (acc.map normalize) ∧
        (acc.map normalize).length = mesh.vertexPositions.length) ∧
    (mesh.vertexNormals ≠ [] → computeNormals normalize mesh = some mesh.vertexNormals) ∧
    (∀ (genTangSpaceDefault : Mesh R → Option (List (R × R × R × R))) (result : Mesh R),
      MeshAux normalize genTangSpaceDefault mesh = some (.ok result) →
        computeNormals normalize mesh = some result.vertexNormals) := by
  refine ⟨cross_corners, ?_, ?_, ?_⟩
  · intro hn hin
    obtain ⟨acc, ha, hl, hg⟩ := accumulateNormals_spec mesh.vertexPositions
      mesh.triangleVertices hin (List.replicate mesh.vertexPositions.length 0) (by simp)
    refine ⟨acc, ha, hl, ?_, ?_, by simp [hl]⟩
    · intro i
      rw [hg i]
      have hz : (List.replicate mesh.vertexPositions.length (0 : R × R × R)).getD i 0 = 0 := by
        simp only [List.getD_eq_getElem?_getD, List.getElem?_replicate]
        split <;> rfl
      rw [hz, zero_add]
    · simp only [computeNormals, hn, List.length_nil, ne_eq, not_true_eq_false, if_false, ha]
  · intro hn
    have : mesh.vertexNormals.length ≠ 0 := by
      simpa [List.length_eq_zero] using hn
    simp only [computeNormals, if_pos this]
  · intro gen result h
    unfold MeshAux at h
    split at h
    · cases h
    · split at h
      · cases h
      · split at h
        · cases h
        · split at h
          · cases h
          · rename_i normals hc
            rw [hc]
            dsimp only at h
            split at h
            · simp only [Option.some.injEq, Except.ok.injEq] at h
              rw [← h]
            · split at h
              · cases h
              · simp only [Option.some.injEq, Except.ok.injEq] at h
                rw [← h]

/-- Witness for C16: the sample mesh, one triangle in the plane `z = 0`; every vertex gets
the vector `(0, 0, 1)`. -/
theorem MeshAux_normals_witness :
    ∃ acc, accumulateNormals demoMesh.vertexPositions demoMesh.triangleVertices
          (List.replicate demoMesh.vertexPositions.length 0) = some acc ∧
      acc.length = demoMesh.vertexPositions.length ∧
      (∀ i, acc.getD i 0 = cornerSum demoMesh.vertexPositions demoMesh.triangleVertices i) ∧
      computeNormals (fun n => n) demoMesh = some (acc.map (fun n => n)) ∧
      (acc.map (fun n => n)).length = demoMesh.vertexPositions.length :=
  (MeshAux_normals (fun n => n) demoMesh).2.1 rfl (by decide)

/-- C17: for every target element type `T` (each type being convertible to itself), `convert`
throws on an accessor whose pair of component type and type has no element type: "Invalid
cgltf accessor component_type" or "Invalid cgltf accessor type" for an invalid enumerator,
"Unsupported cgltf accessor component_type and type combination" otherwise; it throws
"Cannot convert cgltf ... to ..." when the accessor's element type is not convertible to
`T`; so a span is returned only for a supported pair whose element type is convertible to
`T`.  The supported pairs are the six scalar component types and the `f32` and `u32`
vectors of 2, 3 and 4 components. -/
theorem convert_unsupported (convertible : ElementType → ElementType → Bool)
    (hrefl : ∀ t, convertible t t = true) (T U : ElementType) (accessor : cgltf_accessor) :
    (cgltf_type_traits_inv accessor.component_type accessor.type = none →
      ∃ e, convert convertible T U accessor = .error e) ∧
    (accessor.component_type = .invalid →
      convert convertible T U accessor = .error "Invalid cgltf accessor component_type") ∧
    (accessor.component_type ≠ .invalid → accessor.type = .invalid →
      convert convertible T U accessor = .error "Invalid cgltf accessor type") ∧
    (accessor.component_type ≠ .invalid → accessor.type ≠ .invalid →
      cgltf_type_traits_inv accessor.component_type accessor.type = none →
      convert convertible T U accessor =
        .error "Unsupported cgltf accessor component_type and type combination") ∧
    (∀ S, cgltf_type_traits_inv accessor.component_type accessor.type = some S →
      convertible S T = false →
      convert convertible T U accessor =
        .error ((("Cannot convert cgltf " ++ S.name) ++ " to ") ++ T.name)) ∧
    (∀ span, convert convertible T U accessor = .ok span →
      ∃ S, cgltf_type_traits_inv accessor.component_type accessor.type = some S ∧
        convertible S T = true) ∧
    (cgltf_type_traits_inv accessor.component_type accessor.type ≠ none ↔
      (accessor.type = .scalar ∧ accessor.component_type ≠ .invalid) ∨
        ((accessor.type = .vec2 ∨ accessor.type = .vec3 ∨ accessor.type = .vec4) ∧
          (accessor.component_type = .r_32f ∨ accessor.component_type = .r_32u))) := by
  have hpairs : (cgltf_type_traits_inv accessor.component_type accessor.type ≠ none ↔
      (accessor.type = .scalar ∧ accessor.component_type ≠ .invalid) ∨
        ((accessor.type = .vec2 ∨ accessor.type = .vec3 ∨ accessor.type = .vec4) ∧
          (accessor.component_type = .r_32f ∨ accessor.component_type = .r_32u))) := by
    cases accessor.component_type <;> cases accessor.type <;> simp [cgltf_type_traits_inv]
  by_cases hfast : T.component_type = accessor.component_type ∧ T.type = accessor.type ∧
      accessor.tight T = true
  · have hinv : cgltf_type_traits_inv accessor.component_type accessor.type = some T := by
      rw [← hfast.1, ← hfast.2.1]
      exact cgltf_type_traits_inv_traits T
    have hct : accessor.component_type ≠ .invalid := by
      rw [← hfast.1]; cases T <;> simp [ElementType.component_type]
    have hty : accessor.type ≠ .invalid := by
      rw [← hfast.2.1]; cases T <;> simp [ElementType.type]
    refine ⟨fun h => ?_, fun h => absurd h hct, fun _ h => absurd h hty, fun _ _ h => ?_,
      fun S hS hconv => ?_, fun span _ => ⟨T, hinv, hrefl T⟩, hpairs⟩
    · rw [hinv] at h; cases h
    · rw [hinv] at h; cases h
    · rw [hinv] at hS
      cases hS
      rw [hrefl T] at hconv
      cases hconv
  · rw [convert_slow convertible T U accessor hfast]
    refine ⟨fun h => ?_, fun h => by rw [if_pos h], fun h1 h2 => by rw [if_neg h1, if_pos h2],
      fun h1 h2 h => ?_, fun S hS hconv => ?_, fun span h => ?_, hpairs⟩
    · by_cases h1 : accessor.component_type = .invalid
      · exact ⟨_, by rw [if_pos h1]⟩
      by_cases h2 : accessor.type = .invalid
      · exact ⟨_, by rw [if_neg h1, if_pos h2]⟩
      · exact ⟨_, by rw [if_neg h1, if_neg h2, convertCTT, h]⟩
    · rw [if_neg h1, if_neg h2, convertCTT, h]
    · obtain ⟨e1, e2⟩ := cgltf_type_traits_inv_some _ _ S hS
      have h1 : accessor.component_type ≠ .invalid := by
        rw [← e1]; cases S <;> simp [ElementType.component_type]
      have h2 : accessor.type ≠ .invalid := by
        rw [← e2]; cases S <;> simp [ElementType.type]
      rw [if_neg h1, if_neg h2, convertCTT, hS]
      simp only [hconv, Bool.false_eq_true, if_false]
    · by_cases h1 : accessor.component_type = .invalid
      · rw [if_pos h1] at h; cases h
      by_cases h2 : accessor.type = .invalid
      · rw [if_neg h1, if_pos h2] at h; cases h
      rw [if_neg h1, if_neg h2, convertCTT] at h
      rcases hS : cgltf_type_traits_inv accessor.component_type accessor.type with _ | S
      · rw [hS] at h; cases h
      · refine ⟨S, rfl, ?_⟩
        rw [hS] at h
        by_cases hconv : convertible S T = true
        · exact hconv
        · simp only [hconv, if_false] at h
          cases h

/-- Witness for C17: the accessor of 8-bit `mat2` elements, read as `float`. -/
theorem convert_unsupported_witness :
    convert scalarConvertible .float .float mat2Accessor =
      .error "Unsupported cgltf accessor component_type and type combination" :=
  (convert_unsupported scalarConvertible (fun t => by cases t <;> rfl) .float .float
    mat2Accessor).2.2.2.1 (by decide) (by decide) rfl

/-- C15 (amended): `convertFromGltf` makes no check for first texture coordinates.  In a run
whose file open, parse, buffer loading and accessor conversions succeed, every primitive
without a `TEXCOORD` attribute leaves the mesh loop as a mesh with an empty
`vertexTexCoords0`, the `RootHeader` is allocated, and the run returns unless one of the
calls after the mesh loop throws. -/
theorem convertFromGltf_no_texcoord_check (convertible : ElementType → ElementType → Bool)
    (run : ConvertRun) (meshes : List MeshSpans)
    (hfile : run.gltfFile = .ok ()) (hparse : run.parseResult = .ok ())
    (hload : run.loadBuffers = .ok ())
    (hmeshes : convertMeshes convertible run.primitives = some (.ok meshes)) :
    meshes.length = run.primitives.length ∧
    (∀ (i : Nat) (p : cgltf_primitive_accessors), run.primitives[i]? = some p →
      (∀ a ∈ p.attributes, a.type ≠ .texcoord) →
      ∃ m, meshes[i]? = some m ∧ m.vertexTexCoords0 = ⟨.empty, 0⟩) ∧
    (∃ rest result, RTRConverted convertible run = some (AllocKind.rootHeader :: rest, result) ∧
      (run.laterFailure = none → result = .ok ())) := by
  obtain ⟨hl, hg⟩ := convertMeshes_get convertible run.primitives meshes hmeshes
  refine ⟨hl, ?_, ?_⟩
  · intro i p hp hno
    obtain ⟨m, hm, hc⟩ := hg i p hp
    exact ⟨m, hm, convertPrimitive_texcoord convertible p m hc hno⟩
  · unfold RTRConverted convertFromGltfRun
    rw [hfile, hparse, hload, hmeshes]
    rcases hf : run.laterFailure with _ | ⟨n, e⟩
    · exact ⟨_, _, rfl, fun _ => rfl⟩
    · exact ⟨_, _, rfl, fun h => by cases h⟩

/-- Witness for C15: the run on the sample primitive, which has no `TEXCOORD` attribute. -/
theorem convertFromGltf_no_texcoord_check_witness :
    ∃ m, ([⟨⟨.accessor (tightAccessor .uint32 3), 1⟩, ⟨.accessor (tightAccessor .vec3 3), 3⟩,
          ⟨.empty, 0⟩, ⟨.empty, 0⟩, ⟨.empty, 0⟩⟩] : List MeshSpans)[0]? = some m ∧
      m.vertexTexCoords0 = ⟨.empty, 0⟩ :=
  (convertFromGltf_no_texcoord_check scalarConvertible noTexCoordRun
    [⟨⟨.accessor (tightAccessor .uint32 3), 1⟩, ⟨.accessor (tightAccessor .vec3 3), 3⟩,
      ⟨.empty, 0⟩, ⟨.empty, 0⟩, ⟨.empty, 0⟩⟩] rfl rfl rfl rfl).2.1 0 noTexCoordPrimitive rfl
    (by decide)

/-- Counterexample for C15 as stated: on a document whose only primitive has no `TEXCOORD`
attribute, a run in which no library call fails returns, with the mesh data and every
header allocated. -/
theorem convertFromGltf_no_texcoord_returns :
    (∀ a ∈ noTexCoordPrimitive.attributes, a.type ≠ .texcoord) ∧
      convertMeshes scalarConvertible noTexCoordRun.primitives =
        some (.ok [⟨⟨.accessor (tightAccessor .uint32 3), 1⟩,
          ⟨.accessor (tightAccessor .vec3 3), 3⟩, ⟨.empty, 0⟩, ⟨.empty, 0⟩, ⟨.empty, 0⟩⟩]) ∧
      RTRConverted scalarConvertible noTexCoordRun =
        some (AllocKind.rootHeader :: laterAllocations 1 0 0, .ok ()) :=
  ⟨by decide, rfl, rfl⟩

/-- C18: with an output path, `main` creates the output writer and calls `convertFromGltf`
only when the input has the extension `.gltf`; with any other extension it writes "Input is
not a .gltf" to the error stream and returns `EXIT_FAILURE`, with no other event: nothing
is converted and no output is created. -/
theorem main_write_requires_gltf (env : MainEnv) (inputPath outputPath : String)
    (print : Bool) :
    (env.extension inputPath ≠ ".gltf" →
      main env (.parsed inputPath (some outputPath) print) =
        some ([.stderr "Input is not a .gltf\n"], .exit 1)) ∧
    (∀ events outcome,
      main env (.parsed inputPath (some outputPath) print) = some (events, outcome) →
      ∀ event ∈ events,
        ((∃ path, event = .createOutputFile path) ∨ event = .createMemory ∨
          (∃ path, event = .convertFromGltf path)) →
        env.extension inputPath = ".gltf") := by
  refine ⟨fun hext => ?_, fun events outcome h event hmem hev => ?_⟩
  · simp [main, hext]
  · by_contra hext
    simp only [main, hext, decide_False, Bool.false_eq_true, if_false, Option.some.injEq,
      Prod.mk.injEq] at h
    rw [← h.1] at hmem
    simp only [List.mem_singleton] at hmem
    subst hmem
    rcases hev with ⟨p, hp⟩ | hp | ⟨p, hp⟩ <;> cases hp

/-- Witness for C18: an output path with an input named `scene.rtr`. -/
theorem main_write_requires_gltf_witness :
    main (existingInputEnv ".rtr" (.ok ()) true (.ok ()))
        (.parsed "scene.rtr" (some "out.rtr") false) =
      some ([.stderr "Input is not a .gltf\n"], .exit 1) :=
  (main_write_requires_gltf (existingInputEnv ".rtr" (.ok ()) true (.ok ())) "scene.rtr"
    "out.rtr" false).1 (by decide)

/-- C19 (the behaviour of the code): with an output path a missing `.gltf` input is reported
before any work ("Input file not found", `EXIT_FAILURE`); without an output path there is
no such test: for a missing `.gltf` input `main` constructs the application and the memory
writer and calls `convertFromGltf`, for any other missing input it maps the input, and in
both cases the exception of the failed open leaves `main`. -/
theorem main_missing_input :
    main (missingInputEnv ".gltf") (.parsed "missing.gltf" (some "out.rtr") false) =
        some ([.stderr "Input file not found: missing.gltf\n"], .exit 1) ∧
      main (missingInputEnv ".gltf") (.parsed "missing.gltf" none false) =
        some ([.createApp, .createMemory, .convertFromGltf "missing.gltf"],
          .uncaught (.other "cannot open input")) ∧
      main (missingInputEnv ".rtr") (.parsed "missing.rtr" none false) =
        some ([.createApp, .mapInput "missing.rtr"], .uncaught (.other "cannot open input")) :=
  ⟨rfl, rfl, rfl⟩

/-- C20 (the behaviour of the code): `main` returns 0 after a successful conversion and
`EXIT_FAILURE` when `MappedFile` rejects the input, the one exception it catches; an
exception of `convertFromGltf` (with or without an output path), of the validation in `File`
or of `App::view` leaves `main` instead. -/
theorem main_uncaught_failures :
    main (existingInputEnv ".gltf" (.ok ()) true (.ok ()))
        (.parsed "scene.gltf" (some "out.rtr") false) =
      some ([.createOutputFile "out.rtr", .convertFromGltf "scene.gltf"], .exit 0) ∧
    main (existingInputEnv ".rtr" (.ok ()) false (.ok ())) (.parsed "bad.rtr" none false) =
      some ([.createApp, .mapInput "bad.rtr",
        .stdout "Failed binary compatibility validation for bad.rtr\n"], .exit 1) ∧
    main (existingInputEnv ".gltf" (.error (.other "invalid JSON")) true (.ok ()))
        (.parsed "bad.gltf" (some "out.rtr") false) =
      some ([.createOutputFile "out.rtr", .convertFromGltf "bad.gltf"],
        .uncaught (.other "invalid JSON")) ∧
    main (existingInputEnv ".gltf" (.error (.other "invalid JSON")) true (.ok ()))
        (.parsed "bad.gltf" none false) =
      some ([.createApp, .createMemory, .convertFromGltf "bad.gltf"],
        .uncaught (.other "invalid JSON")) ∧
    main (existingInputEnv ".gltf" (.ok ()) false (.ok ())) (.parsed "scene.gltf" none false) =
      some ([.createApp, .createMemory, .convertFromGltf "scene.gltf"],
        .uncaught (.other "rtr::RootHeader validation failed")) ∧
    main (existingInputEnv ".rtr" (.ok ()) true
          (.error (.other "file missing required rtr headers")))
        (.parsed "scene.rtr" none false) =
      some ([.createApp, .mapInput "scene.rtr", .view],
        .uncaught (.other "file missing required rtr headers")) :=
  ⟨rfl, rfl, rfl, rfl, rfl, rfl⟩

/-- C21 (the behaviour of the code): `main` never reads the flag `print`: every invocation
does the same with and without it, and a view invocation with the flag still constructs the
application and enters the render loop. -/
theorem main_print_ignored (env : MainEnv) (inputPath : String) (output : Option String) :
    main env (.parsed inputPath output true) = main env (.parsed inputPath output false) ∧
    main (existingInputEnv ".rtr" (.ok ()) true (.ok ())) (.parsed "scene.rtr" none true) =
      some ([.createApp, .mapInput "scene.rtr", .view, .renderloop], .exit 0) :=
  ⟨rfl, rfl⟩

/-- C22: for the swizzles the converter uses, the cache key determines the image URI and the
swizzle; so in a conversion of all materials from the empty cache (cache size within 32
bits) two texture requests that receive the same index name the same URI and the same
swizzle, and the "b" and "g" views of one image receive different indices. -/
theorem textureKey_distinct_pairs {F K : Type}
    (convertToKtx : String → String → Except String K) (validateIdentifier : K → Bool)
    (ms : List (Option (cgltf_material F))) (out : List (Option (Material F)))
    (st1 : TextureState K)
    (hrun : materialLoop convertToKtx validateIdentifier ms ⟨[], []⟩ = .ok (out, st1))
    (hsize : st1.textureCache.length ≤ 4294967296) :
    (∀ uri1 uri2 sw1 sw2 : String, (sw1 = "" ∨ sw1 = "b" ∨ sw1 = "g") →
      (sw2 = "" ∨ sw2 = "b" ∨ sw2 = "g") →
      textureKey uri1 sw1 = textureKey uri2 sw2 → uri1 = uri2 ∧ sw1 = sw2) ∧
    (∀ (a b : Nat) (uri1 sw1 uri2 sw2 : String) (idx : Nat),
      (ms.flatMap requestsOf)[a]? = some (some uri1, sw1) →
      (ms.flatMap requestsOf)[b]? = some (some uri2, sw2) →
      (out.flatMap resultsOf)[a]? = some (some idx) →
      (out.flatMap resultsOf)[b]? = some (some idx) →
      uri1 = uri2 ∧ sw1 = sw2) ∧
    (∀ (uri : String) (i j : Nat) (k1 k2 : K),
      mapFind st1.textureCache (textureKey uri "b") = some (i, k1) →
      mapFind st1.textureCache (textureKey uri "g") = some (j, k2) → i ≠ j) := by
  obtain ⟨_, hruns⟩ := materialLoop_runs convertToKtx validateIdentifier ms _ _ _
    cacheInv_nil hrun
  obtain ⟨hidx, _⟩ := materialLoop_indexed convertToKtx validateIdentifier ms _ _ _
    cacheIndexed_nil hrun
  obtain ⟨_, _, _, hfind, _⟩ := hruns
  refine ⟨textureKey_injective, ?_, ?_⟩
  · intro a b uri1 sw1 uri2 sw2 idx ha hb hra hrb
    obtain ⟨ia, ka, hia, hfa⟩ := hfind a uri1 sw1 ha
    obtain ⟨ib, kb, hib, hfb⟩ := hfind b uri2 sw2 hb
    rw [hra] at hia
    rw [hrb] at hib
    simp only [Option.some.injEq] at hia hib
    subst hia hib
    have pa := mapFind_position st1 hidx hsize _ _ _ hfa
    have pb := mapFind_position st1 hidx hsize _ _ _ hfb
    rw [pa] at pb
    simp only [Option.some.injEq, Prod.mk.injEq] at pb
    exact textureKey_injective uri1 uri2 sw1 sw2
      (requestsOf_swizzle ms _ (List.getElem?_mem ha))
      (requestsOf_swizzle ms _ (List.getElem?_mem hb)) pb.1
  · intro uri i j k1 k2 hi hj hij
    subst hij
    have pa := mapFind_position st1 hidx hsize _ _ _ hi
    have pb := mapFind_position st1 hidx hsize _ _ _ hj
    rw [pa] at pb
    simp only [Option.some.injEq, Prod.mk.injEq] at pb
    have := (textureKey_injective uri uri "b" "g" (by simp) (by simp) pb.1).2
    exact absurd this (by decide)

/-- Witness for C22: the sample material among three; its "b" and "g" views of `a.png` get
the indices 1 and 2. -/
theorem textureKey_distinct_pairs_witness :
    materialLoop (fun u s => Except.ok (u ++ s)) (fun _ => true)
        [some demoMaterial, none, some demoMaterial] ⟨[], []⟩ =
      .ok ([some ⟨0, ⟨some 0, some 1, some 2, none⟩⟩, none,
          some ⟨0, ⟨some 0, some 1, some 2, none⟩⟩],
        ⟨[("a.png:", (0, "a.png")), ("a.png:b", (1, "a.pngb")), ("a.png:g", (2, "a.pngg"))],
          [("a.png", ""), ("a.png", "b"), ("a.png", "g")]⟩) ∧
    ∀ (uri : String) (i j : Nat) (k1 k2 : String),
      mapFind [("a.png:", (0, "a.png")), ("a.png:b", (1, "a.pngb")),
        ("a.png:g", (2, "a.pngg"))] (textureKey uri "b") = some (i, k1) →
      mapFind [("a.png:", (0, "a.png")), ("a.png:b", (1, "a.pngb")),
        ("a.png:g", (2, "a.pngg"))] (textureKey uri "g") = some (j, k2) → i ≠ j :=
  ⟨rfl, (textureKey_distinct_pairs (fun u s => Except.ok (u ++ s)) (fun _ => true)
    [some demoMaterial, none, some demoMaterial] _ _ rfl (by decide)).2.2⟩

/-- C23: after the materials are converted from the empty cache (cache size `n` within 32
bits), the indices held by the cache are `0, ..., n - 1` in insertion order, each entry
holding the cache size before its insertion; the keys are the distinct requested keys, so `n`
is their number; in whatever order the cache is iterated, the loop over it stores inside the
texture array of length `n`, hits every slot exactly once and leaves the texture of index `i`
in slot `i`; and every texture index stored in a material is below `n`. -/
theorem textureCache_indices_dense {F K : Type}
    (convertToKtx : String → String → Except String K) (validateIdentifier : K → Bool)
    (ms : List (Option (cgltf_material F))) (out : List (Option (Material F)))
    (st1 : TextureState K)
    (hrun : materialLoop convertToKtx validateIdentifier ms ⟨[], []⟩ = .ok (out, st1))
    (hsize : st1.textureCache.length ≤ 4294967296) :
    st1.textureCache.map (fun e => e.2.1) = List.range st1.textureCache.length ∧
    (cacheKeys st1).Nodup ∧
    (∀ key, key ∈ cacheKeys st1 ↔ key ∈ requestKeys (ms.flatMap requestsOf)) ∧
    st1.textureCache.length = (requestKeys (ms.flatMap requestsOf)).dedup.length ∧
    (∀ (order : List (String × (Nat × K))) (fill : K), order.Perm st1.textureCache →
      (order.map (fun e => e.2.1)).Perm (List.range st1.textureCache.length) ∧
      writeTextures order (List.replicate st1.textureCache.length fill) =
        some (st1.textureCache.map (fun e => e.2.2))) ∧
    (∀ idx, some idx ∈ out.flatMap resultsOf → idx < st1.textureCache.length) := by
  obtain ⟨_, hruns⟩ := materialLoop_runs convertToKtx validateIdentifier ms _ _ _
    cacheInv_nil hrun
  obtain ⟨hidx, hnone⟩ := materialLoop_indexed convertToKtx validateIdentifier ms _ _ _
    cacheIndexed_nil hrun
  obtain ⟨hinv, hlen, hcalls, hfind, _⟩ := hruns
  have hrange : st1.textureCache.map (fun e => e.2.1) =
      List.range st1.textureCache.length := by
    apply List.ext_getElem?
    intro i
    by_cases hi : i < st1.textureCache.length
    · rw [List.getElem?_range hi, List.getElem?_map, List.getElem?_eq_getElem hi]
      simp only [Option.map_some', Option.some.injEq]
      exact cacheIndexed_getElem st1 hidx hsize i _ (List.getElem?_eq_getElem hi)
    · rw [List.getElem?_eq_none (by simp; omega), List.getElem?_eq_none (by simp; omega)]
  have hkeys : ∀ key, key ∈ cacheKeys st1 ↔ key ∈ requestKeys (ms.flatMap requestsOf) := by
    intro key
    rw [hinv.2, hcalls]
    simp only [List.nil_append, cacheKeys, List.map_nil]
    rw [firstByKey_mem]
    simp [requestKeys]
  refine ⟨hrange, hinv.1, hkeys, ?_, ?_, ?_⟩
  · have hp : (cacheKeys st1).Perm (requestKeys (ms.flatMap requestsOf)).dedup :=
      (List.perm_ext_iff_of_nodup hinv.1 (List.nodup_dedup _)).mpr
        (fun key => by rw [hkeys, List.mem_dedup])
    have := hp.length_eq
    simpa [cacheKeys] using this
  · intro order fill hperm
    have hmap : (order.map (fun e => e.2.1)).Perm (List.range st1.textureCache.length) := by
      rw [← hrange]
      exact hperm.map _
    refine ⟨hmap, ?_⟩
    obtain ⟨result, hw, hl, hin, _⟩ := writeTextures_spec order
      (List.replicate st1.textureCache.length fill)
      (hmap.nodup_iff.mpr (List.nodup_range _))
      (fun e he => by
        have : e.2.1 ∈ List.range st1.textureCache.length :=
          hmap.subset (List.mem_map_of_mem _ he)
        simpa using this)
    rw [hw]
    congr 1
    apply List.ext_getElem?
    intro i
    by_cases hi : i < st1.textureCache.length
    · have he : st1.textureCache[i]? = some st1.textureCache[i] :=
        List.getElem?_eq_getElem hi
      have hei := cacheIndexed_getElem st1 hidx hsize i _ he
      have := hin _ (hperm.symm.subset (List.getElem_mem hi))
      rw [hei] at this
      rw [this, List.getElem?_map, he]
      rfl
    · rw [List.getElem?_eq_none (by rw [hl]; simp; omega),
        List.getElem?_eq_none (by simp; omega)]
  · intro idx hmem
    obtain ⟨a, ha⟩ := List.mem_iff_getElem?.mp hmem
    have halen : a < (out.flatMap resultsOf).length := by
      by_contra hc
      rw [List.getElem?_eq_none (by omega)] at ha
      cases ha
    have hrlen : a < (ms.flatMap requestsOf).length := by rw [← hlen]; exact halen
    have hrel := (List.forall₂_iff_get.mp hnone).2 a hrlen halen
    have hres : (out.flatMap resultsOf).get ⟨a, halen⟩ = some idx := by
      have := List.getElem?_eq_getElem halen
      rw [ha] at this
      simp only [Option.some.injEq] at this
      simpa using this.symm
    rw [hres] at hrel
    rcases hreq : ((ms.flatMap requestsOf).get ⟨a, hrlen⟩) with ⟨_ | uri, sw⟩
    · rw [hreq] at hrel
      exact absurd (hrel rfl) (by simp)
    · have hget : (ms.flatMap requestsOf)[a]? = some (some uri, sw) := by
        rw [List.getElem?_eq_getElem hrlen]
        simpa using hreq
      obtain ⟨idx1, k, hr1, hf1⟩ := hfind a uri sw hget
      rw [ha] at hr1
      simp only [Option.some.injEq] at hr1
      subst hr1
      have hp := mapFind_position st1 hidx hsize _ _ _ hf1
      by_contra hc
      rw [List.getElem?_eq_none (by omega)] at hp
      cases hp

/-- Witness for C23: the sample material among three; three textures with the indices 0, 1
and 2. -/
theorem textureCache_indices_dense_witness :
    ([("a.png:", (0, "a.png")), ("a.png:b", (1, "a.pngb")), ("a.png:g", (2, "a.pngg"))] :
        List (String × (Nat × String))).map (fun e => e.2.1) = List.range 3 ∧
      ∀ idx, some idx ∈ ([some ⟨0, ⟨some 0, some 1, some 2, none⟩⟩, none,
          some ⟨0, ⟨some 0, some 1, some 2, none⟩⟩] :
            List (Option (Material Nat))).flatMap resultsOf → idx < 3 :=
  ⟨(textureCache_indices_dense (fun u s => Except.ok (u ++ s)) (fun _ => true)
      [some demoMaterial, none, some demoMaterial] _ _ rfl (by decide)).1,
    (textureCache_indices_dense (fun u s => Except.ok (u ++ s)) (fun _ => true)
      [some demoMaterial, none, some demoMaterial] _ _ rfl (by decide)).2.2.2.2.2⟩

/-- C24: the material map is filled in first-appearance order: a material pointer (null
included) met for the first time after the primitives' materials `p` gets the number of
distinct pointers in `p`; the map holds the values `0, ..., size - 1`, one per distinct
referenced pointer; every instance the visitor pushes, and so every instance of a converted
document, has a material index below the size; and in whatever order the map is iterated,
the material loop stores inside the array of that size, leaves the default material in the
slot of the null pointer and a conversion of each material in the slot of its index. -/
theorem materialIndices_first_appearance {M : Type} [One M] (data : cgltf_data M) :
    (∀ (p rest : List (Option Nat)) (k : Option Nat),
      primitiveMaterials data.meshes = p ++ k :: rest → k ∉ p →
      mapFind (buildIndices data).materialIndices k = some p.dedup.length) ∧
    (buildIndices data).materialIndices.length =
      (primitiveMaterials data.meshes).dedup.length ∧
    (buildIndices data).materialIndices.map Prod.snd =
      List.range (buildIndices data).materialIndices.length ∧
    (∀ (gltfNode : cgltf_node M) (rtrNode : Nat) (instances : List Instance) (i : Instance),
      i ∈ makeAttachments data (buildIndices data) gltfNode rtrNode instances →
      i ∈ instances ∨ i.material < (buildIndices data).materialIndices.length) ∧
    (∀ (fill : Node M) (h : SceneHeader M),
      scenesSize data.scenes ≤ data.nodes_count + data.scenes.length →
      scenesSize data.scenes < 4294967296 → convertFromGltf data fill = some h →
      ∀ i ∈ h.instances, i.material < (buildIndices data).materialIndices.length) ∧
    (∀ (F K : Type) (convertToKtx : String → String → Except String K)
      (validateIdentifier : K → Bool) (materials : List (cgltf_material F))
      (order : List (Option Nat × Nat)) (fill : Option (Material F)) (st st1 : TextureState K)
      (array1 : List (Option (Material F))),
      order.Perm (buildIndices data).materialIndices →
      convertMaterials convertToKtx validateIdentifier materials order
        (List.replicate (buildIndices data).materialIndices.length fill) st =
          some (.ok (array1, st1)) →
      array1.length = (buildIndices data).materialIndices.length ∧
      (∀ i, mapFind (buildIndices data).materialIndices none = some i →
        array1[i]? = some none) ∧
      (∀ p i, mapFind (buildIndices data).materialIndices (some p) = some i →
        ∃ c m, materials[p]? = some c ∧ array1[i]? = some (some m) ∧
          m.factors = c.factors)) ∧
    (∀ (F K : Type) (convertToKtx : String → String → Except String K)
      (validateIdentifier : K → Bool) (materials : List (cgltf_material F))
      (order : List (Option Nat × Nat)) (fill : Option (Material F)) (st : TextureState K),
      order.Perm (buildIndices data).materialIndices →
      (∀ p, some p ∈ primitiveMaterials data.meshes → p < materials.length) →
      convertMaterials convertToKtx validateIdentifier materials order
        (List.replicate (buildIndices data).materialIndices.length fill) st ≠ none) := by
  obtain ⟨heq, hd⟩ := buildIndices_dense data
  refine ⟨?_, denseMap_length _ _ hd, hd.2.2, makeAttachments_material_lt data, ?_, ?_, ?_⟩
  · intro p rest k hsplit hk
    rw [heq, hsplit]
    exact emplaceAll_first p rest k hk
  · intro fill h hcap h32 hconv i hi
    rw [convertFromGltf_eq data fill hcap h32] at hconv
    simp only [Option.some.injEq] at hconv
    rw [← hconv] at hi
    simp only [visitScenes_eq_foldl] at hi
    exact foldl_makeAttachments_lt data _ [] (fun i hi => by simp at hi) i hi
  · intro F K convertToKtx validateIdentifier materials order fill st st1 array1 hperm hrun
    have hnd : (order.map Prod.snd).Nodup := by
      rw [(hperm.map Prod.snd).nodup_iff, hd.2.2]
      exact List.nodup_range _
    obtain ⟨hl, hnone, hsome, _⟩ := convertMaterials_spec convertToKtx validateIdentifier
      materials order _ _ _ _ hnd hrun
    refine ⟨by simpa using hl, ?_, ?_⟩
    · intro i hi
      obtain ⟨j, hj⟩ := mapFind_getElem _ _ _ hi
      exact hnone i (hperm.symm.subset (List.getElem?_mem hj))
    · intro p i hi
      obtain ⟨j, hj⟩ := mapFind_getElem _ _ _ hi
      exact hsome p i (hperm.symm.subset (List.getElem?_mem hj))
  · intro F K convertToKtx validateIdentifier materials order fill st hperm hptr
    apply convertMaterials_defined
    · intro e he
      have hmem : e.2 ∈ (buildIndices data).materialIndices.map Prod.snd :=
        List.mem_map_of_mem _ (hperm.subset he)
      rw [hd.2.2] at hmem
      simpa using hmem
    · intro p i hi
      apply hptr
      rw [← hd.2.1]
      exact List.mem_map.mpr ⟨(some p, i), hperm.subset hi, rfl⟩

/-- Witness for C24: three primitives with the materials 4, none, 4; material 4 gets the
index 0 and the null material the index 1. -/
theorem materialIndices_first_appearance_witness :
    primitiveMaterials threeMaterialData.meshes = [some 4] ++ none :: [some 4] ∧
      mapFind (buildIndices threeMaterialData).materialIndices none =
        some ([some 4] : List (Option Nat)).dedup.length :=
  ⟨rfl, (materialIndices_first_appearance threeMaterialData).1 [some 4] [some 4] none rfl
    (by decide)⟩

/-- C28 (the behaviour of the code): for the document whose single node is the root node of
two scenes the node array is created with `nodes_count + scenes_count = 3` slots while the
scene loop writes four (two synthetic roots and the node once per scene): the store of the
node of the second scene lands in slot 3, outside the array. -/
theorem convertFromGltf_shared_node :
    sharedNodeData.nodes_count + sharedNodeData.scenes.length = 3 ∧
      scenesSize sharedNodeData.scenes = 4 ∧
      sceneRootSlots 0 sharedNodeData.scenes = [0, 2] ∧
      setNode (List.replicate 3 (⟨0, 0, 0⟩ : Node Int)) 3 (fun _ => ⟨5, 1, 0⟩) = none ∧
      convertFromGltf sharedNodeData ⟨0, 0, 0⟩ = none :=
  ⟨by decide, by decide, by decide, rfl, rfl⟩

/-- C29 (the behaviour of the code): the loop stores every loaded file in buffer 0
(`data->buffers[0].data`, lines 119 and 120) instead of the buffer it was loaded for.  A
document with one external buffer is loaded as claimed; with two external buffers the run
completes with the second file in buffer 0 and no data in buffer 1; in a binary document
the binary chunk of buffer 0 is replaced by the file of buffer 1. -/
theorem loadBuffers_first_slot :
    loadBuffers sampleFiles (fun uri => "dir/" ++ uri) ⟨[⟨3, some "a.bin", none⟩], none, 0⟩ =
      some (.ok [⟨3, some "a.bin", some [1, 2, 3]⟩]) ∧
    loadBuffers sampleFiles (fun uri => "dir/" ++ uri) twoBufferData =
      some (.ok [⟨3, some "a.bin", some [4, 5, 6]⟩, ⟨3, some "b.bin", none⟩]) ∧
    loadBuffers sampleFiles (fun uri => "dir/" ++ uri) binBufferData =
      some (.ok [⟨3, none, some [4, 5, 6]⟩, ⟨3, some "b.bin", none⟩]) := by
  exact ⟨rfl, rfl, rfl⟩

/-- C30: for a node with a matrix `cgltfTransform` returns the matrix whose storage holds
the node's sixteen values in order, whatever the other fields are; otherwise, `mat4_cast`
yielding matrices of linear maps (fourth row and column `0, 0, 0, 1`), it returns `T * R * S`
in exact arithmetic: column `j < 3` is column `j` of the rotation matrix (of the identity
without rotation) times the scale component `j` (times 1 without scale), and column 3 is
`(tx, ty, tz, 1)` (`(0, 0, 0, 1)` without translation) whatever rotation and scale are; a
node without any of the four fields gets the identity. -/
theorem cgltfTransform_spec {R : Type} [CommRing R] (mat4_cast : R × R × R × R → Mat4 R)
    (node : cgltf_node_transform R)
    (hrot : ∀ q, (mat4_cast q).2.2.2 = (0, 0, 0, 1) ∧ (mat4_cast q).1.2.2.2 = 0 ∧
      (mat4_cast q).2.1.2.2.2 = 0 ∧ (mat4_cast q).2.2.1.2.2.2 = 0) :
    (node.has_matrix = true →
      ∀ k : Fin 16, (cgltfTransform mat4_cast node).value k = node.matrix k) ∧
    (node.has_matrix = false →
      cgltfTransform mat4_cast node =
        Mat4.mul (Mat4.mul (translationMatrix node) (rotationMatrix mat4_cast node))
          (scaleMatrix node) ∧
      (cgltfTransform mat4_cast node).column 0 =
        Vec4.scaled ((rotationMatrix mat4_cast node).column 0)
          (if node.has_scale then node.scale.1 else 1) ∧
      (cgltfTransform mat4_cast node).column 1 =
        Vec4.scaled ((rotationMatrix mat4_cast node).column 1)
          (if node.has_scale then node.scale.2.1 else 1) ∧
      (cgltfTransform mat4_cast node).column 2 =
        Vec4.scaled ((rotationMatrix mat4_cast node).column 2)
          (if node.has_scale then node.scale.2.2 else 1) ∧
      (cgltfTransform mat4_cast node).column 3 =
        if node.has_translation then
          (node.translation.1, node.translation.2.1, node.translation.2.2, 1)
        else (0, 0, 0, 1)) ∧
    (node.has_matrix = false → node.has_rotation = false → node.has_translation = false →
      node.has_scale = false → cgltfTransform mat4_cast node = Mat4.identity) := by
  refine ⟨?_, ?_, ?_⟩
  · intro hm k
    simp only [cgltfTransform, hm, if_true]
    fin_cases k <;> rfl
  · intro hm
    have hq := hrot (node.rotation.2.2.2, node.rotation.1, node.rotation.2.1,
      node.rotation.2.2.1)
    simp only [cgltfTransform, translationMatrix, rotationMatrix, scaleMatrix, hm,
      Bool.false_eq_true, if_false]
    generalize mat4_cast (node.rotation.2.2.2, node.rotation.1, node.rotation.2.1,
      node.rotation.2.2.1) = m at hq ⊢
    obtain ⟨⟨a0, a1, a2, a3⟩, ⟨b0, b1, b2, b3⟩, ⟨c0, c1, c2, c3⟩, ⟨d0, d1, d2, d3⟩⟩ := m
    simp only [Prod.mk.injEq] at hq
    obtain ⟨⟨rfl, rfl, rfl, rfl⟩, rfl, rfl, rfl⟩ := hq
    cases node.has_rotation <;> cases node.has_translation <;> cases node.has_scale <;>
      simp [Mat4.mul, Mat4.mulVec, Mat4.scale, Vec4.scaled, Mat4.identity, Mat4.column]
  · intro hm hr ht hs
    simp [cgltfTransform, hm, hr, ht, hs]

/-- Witness for C30: the sample node, with the rotation matrices of `glm::mat4_cast`. -/
theorem cgltfTransform_spec_witness :
    cgltfTransform quaternionMatrix demoTransform =
        Mat4.mul (Mat4.mul (translationMatrix demoTransform)
          (rotationMatrix quaternionMatrix demoTransform)) (scaleMatrix demoTransform) ∧
      cgltfTransform quaternionMatrix demoTransform =
        ((-2, 4, 0, 0), (-6, -3, 0, 0), (0, 0, 4, 0), (7, 8, 9, 1)) :=
  ⟨((cgltfTransform_spec quaternionMatrix demoTransform
      (fun _ => ⟨rfl, rfl, rfl, rfl⟩)).2.1 rfl).1, by decide⟩

/-- C25: for an accessor stored in `T`'s own encoding with a non-zero stride (`T` converting
to itself by the identity), `convert<T, T>` with fuel for `count` loop rounds returns a span
of `count` elements, into the accessor's data exactly when the data is tightly packed and
into `temporary` otherwise, and on both paths the elements of the span are, in order, the
objects at `view.offset + accessor.offset + i * stride`. -/
theorem convert_own_encoding {E : Type} (convertible : ElementType → ElementType → Bool)
    (load : ElementType → Nat → E) (cast : ElementType → ElementType → E → E) (zero : E)
    (T : ElementType) (accessor : cgltf_accessor) (temporary : List E) (fuel : Nat)
    (hown : T.component_type = accessor.component_type ∧ T.type = accessor.type)
    (hstride : accessor.adapterStride ≠ 0)
    (hconv : convertible T T = true) (hcast : ∀ v, cast T T v = v)
    (hfuel : accessor.count ≤ fuel) :
    ∃ span temporary1,
      convert.run convertible load cast zero T T accessor temporary fuel =
        .done (.ok (span, temporary1)) ∧
      span.size = accessor.count ∧
      (span.origin = .accessor accessor ↔ accessor.tight T = true) ∧
      Span.objects load T T temporary1 span =
        some ((List.range accessor.count).map (fun i =>
          load T (accessor.buffer_view_offset + accessor.offset +
            i * accessor.adapterStride))) ∧
      Span.objects load T T temporary1 span = some (accessorObjects load cast T T accessor) := by
  have hpos := ElementType.sizeof_pos T
  have hdiv : accessor.count * T.sizeof / T.sizeof = accessor.count :=
    Nat.mul_div_cancel _ hpos
  have hobj : accessorObjects load cast T T accessor =
      (List.range accessor.count).map (fun i =>
        load T (accessor.buffer_view_offset + accessor.offset +
          i * accessor.adapterStride)) := by
    simp only [accessorObjects, hcast]
  rw [hobj]
  by_cases ht : accessor.tight T = true
  · refine ⟨⟨.accessor accessor, (accessor.count * T.sizeof) / T.sizeof⟩, temporary, ?_, hdiv,
      ⟨fun _ => ht, fun _ => rfl⟩, ?_, ?_⟩
    · unfold convert.run
      rw [if_pos ⟨hown.1, hown.2, ht⟩]
    all_goals
      have hsz : T.sizeof = accessor.adapterStride := by
        simpa [cgltf_accessor.tight] using ht
      simp only [Span.objects, hdiv, cgltf_accessor.adapter]
      rw [hsz]
  · have hslow : ¬ (T.component_type = accessor.component_type ∧ T.type = accessor.type ∧
        accessor.tight T = true) := fun h => ht h.2.2
    have hS : cgltf_type_traits_inv accessor.component_type accessor.type = some T := by
      rw [← hown.1, ← hown.2]
      exact cgltf_type_traits_inv_traits T
    have hrun := convert_run_slow convertible load cast zero T T T accessor temporary fuel
      hslow hS hconv
    obtain ⟨stored, hloop, hlen, hget⟩ := convertCTT_loop_spec
      (fun a => cast T T (load T a)) (accessor.buffer_view_offset + accessor.offset)
      accessor.adapterStride accessor.count (by omega) accessor.count 0 fuel
      (resize temporary
        ((((accessor.count * T.sizeof) / T.sizeof) * T.sizeof) / T.sizeof) zero)
      (by omega) hfuel (by rw [length_resize, hdiv, hdiv])
    have hend : accessor.adapter.end_ =
        ⟨accessor.buffer_view_offset + accessor.offset +
          accessor.adapterStride * accessor.count, accessor.adapterStride⟩ := rfl
    have hbegin : accessor.adapter.begin =
        ⟨accessor.buffer_view_offset + accessor.offset + accessor.adapterStride * 0,
          accessor.adapterStride⟩ := rfl
    rw [hend, hbegin, hloop] at hrun
    rw [length_resize, hdiv, hdiv] at hlen
    have hstored : stored = (List.range accessor.count).map (fun i =>
        load T (accessor.buffer_view_offset + accessor.offset +
          i * accessor.adapterStride)) := by
      apply List.ext_getElem?
      intro j
      rw [hget j]
      by_cases hj : j < accessor.count
      · rw [if_pos ⟨by omega, hj⟩, List.getElem?_map, List.getElem?_range hj, hcast,
          Nat.mul_comm]
        rfl
      · rw [if_neg (by omega), List.getElem?_eq_none (by rw [length_resize, hdiv, hdiv]; omega),
          List.getElem?_eq_none (by simp; omega)]
    have hobjects : Span.objects load T T stored
        ⟨.temporary, (accessor.count * T.sizeof) / T.sizeof⟩ = some stored := by
      simp only [Span.objects, hdiv, hlen, le_refl, if_true]
      rw [← hlen, List.take_length]
    refine ⟨⟨.temporary, (accessor.count * T.sizeof) / T.sizeof⟩, stored, hrun, hdiv,
      Iff.intro (fun h => SpanOrigin.noConfusion h) (fun h => absurd h ht), ?_, ?_⟩
    · rw [hobjects, hstored]
    · rw [hobjects, hstored]

/-- Witness for C25: three `float` elements with a stride of 8 bytes, from byte 16 on, in a
buffer whose object at address `a` is `a`: the copy path yields 16, 24, 32. -/
theorem convert_own_encoding_witness :
    ∃ span temporary1,
      convert.run scalarConvertible (fun _ a => a) (fun _ _ v => v) 0 .float .float
          ⟨.r_32f, .scalar, 4, 3, 8, 12, 0⟩ [] 3 = .done (.ok (span, temporary1)) ∧
      span.size = 3 ∧
      (span.origin = .accessor ⟨.r_32f, .scalar, 4, 3, 8, 12, 0⟩ ↔
        cgltf_accessor.tight ⟨.r_32f, .scalar, 4, 3, 8, 12, 0⟩ .float = true) ∧
      Span.objects (fun _ a => a) .float .float temporary1 span =
        some ((List.range 3).map (fun i => 12 + 4 + i * 8)) ∧
      Span.objects (fun _ a => a) .float .float temporary1 span =
        some (accessorObjects (fun _ a => a) (fun _ _ v => v) .float .float
          ⟨.r_32f, .scalar, 4, 3, 8, 12, 0⟩) :=
  convert_own_encoding scalarConvertible (fun _ a => a) (fun _ _ v => v) 0 .float
    ⟨.r_32f, .scalar, 4, 3, 8, 12, 0⟩ [] 3 ⟨rfl, rfl⟩ (by decide) rfl (fun _ => rfl)
    (by decide)

/-- C26 (the behaviour of the code): in the copy path the vector is resized to
`floor(count * sizeof(T) / sizeof(U))` objects of `U`, which for the index conversion
(`uint32_t` to `glm::uvec3`) is room for `3 * floor(count / 3)` indices, while the loop
stores `count` indices.  With three 16-bit indices all stores fit and one triangle is
returned; with four the vector has room for three and the fourth store lands outside it. -/
theorem convert_index_overflow :
    (∀ count : Nat,
      (((count * ElementType.sizeof .uint32) / ElementType.sizeof .uvec3) *
        ElementType.sizeof .uvec3) / ElementType.sizeof .uint32 = 3 * (count / 3)) ∧
    convert.run scalarConvertible (fun _ a => a) (fun _ _ v => v) 0 .uint32 .uvec3
        (indexAccessor16 0 3) [] 3 = .done (.ok (⟨.temporary, 1⟩, [0, 2, 4])) ∧
    (resize ([] : List Nat) ((((4 * ElementType.sizeof .uint32) / ElementType.sizeof .uvec3) *
        ElementType.sizeof .uvec3) / ElementType.sizeof .uint32) 0).length = 3 ∧
    convert.run scalarConvertible (fun _ a => a) (fun _ _ v => v) 0 .uint32 .uvec3
        (indexAccessor16 0 4) [] 4 = .undefined ∧
    convert scalarConvertible .uint32 .uvec3 (indexAccessor16 0 4) = .ok ⟨.temporary, 1⟩ := by
  refine ⟨fun count => ?_, rfl, by decide, rfl, rfl⟩
  simp only [ElementType.sizeof]
  omega

/-- C27 (the behaviour of the code): `temporary.emplace_back()` is made once per mesh, so
the primitives of a mesh convert into the same vectors.  In a buffer whose object at
address `a` is `a`, two primitives with three 16-bit indices each, at the addresses 0, 2, 4
and 6, 8, 10: as primitives of two meshes each keeps its own indices, as primitives of one
mesh the array recorded for the first holds the indices of the second after the loop. -/
theorem convertFromGltf_shared_temporary :
    accessorObjects (fun _ a => a) (fun _ _ v => v) .uint16 .uint32 (indexAccessor16 0 3) =
      [0, 2, 4] ∧
    recordedObjects scalarConvertible (fun _ a => a) (fun _ _ v => v) 0 3
      [[⟨some (indexAccessor16 0 3), []⟩], [⟨some (indexAccessor16 6 3), []⟩]]
      0 .triangleVertices = some [0, 2, 4] ∧
    recordedObjects scalarConvertible (fun _ a => a) (fun _ _ v => v) 0 3
      [[⟨some (indexAccessor16 0 3), []⟩, ⟨some (indexAccessor16 6 3), []⟩]]
      0 .triangleVertices = some [6, 8, 10] ∧
    recordedObjects scalarConvertible (fun _ a => a) (fun _ _ v => v) 0 3
      [[⟨some (indexAccessor16 0 3), []⟩, ⟨some (indexAccessor16 6 3), []⟩]]
      1 .triangleVertices = some [6, 8, 10] ∧
    recordedObjects scalarConvertible (fun _ a => a) (fun _ _ v => v) 0 6
      [[⟨some (indexAccessor16 0 3), []⟩, ⟨some (indexAccessor16 6 6), []⟩]]
      0 .triangleVertices = none := by
  decide

end rtrtool
